import Mathlib

/-! # Block-explorer RPC backend: transaction decoding core

A shallow embedding of `be_rpc/backend/transactions.go`:

* `GetTransactionsInBlockRange`, the block-range scan (lines 35-155);
* `GetTransactionByHash`, the single-transaction decoder (lines 157-246);
* `defaultMessageParser` (lines 248-1110), `getBankDenomsMetadata`
  (lines 1112-1147), `addIbcPacketInfoIntoResponse` (lines 1149-1194);
* `defaultMessageInvolversExtractor` (lines 1196-1377) and
  `getInvolversInIbcPacketInfo` (lines 1379-1388);

and of `GetGovProposals` of `be_rpc/backend/gov.go` (lines 12-93).

Conventions of the embedding.

* Go `int64` values are Lean integers; every `int64` operation of the source is
  followed by `wrapInt64`, the two's-complement wrap-around of Go.
* A Go call ends in one of three ways: it returns a value, it returns an error,
  or it panics (index out of range, nil dereference, panic of a library call).
  `Outcome` keeps the three apart.
* Of the library calls on coin lists, `sdk.Coins.Find` is modelled after the
  library code, a binary search under Go's order of strings, and
  `sdk.Coins.Add`, which panics on coins that are not sorted, is a field of
  `Env` with an optional result.
* The collaborators of the backend (chain status, block fetch, transaction
  queries, bank metadata) and the helpers of the packages `berpcutils` and
  `berpctypes`, whose sources are not part of `transactions.go`, are fields of
  `Env` or are modelled from the specification where a definition says so.
* A protobuf `Any` carries, next to its type URL, what the codec's `UnpackAny`
  yields for it: the decoded message or the decode error.
-/

set_option autoImplicit false
set_option linter.unusedVariables false

namespace BeRpc

/-! ## Machine integers -/

/-- The largest `int64`. -/
def MaxInt64 : Int := 9223372036854775807

/-- The smallest `int64`. -/
def MinInt64 : Int := -9223372036854775808

/-- Two's-complement wrap-around of a mathematical integer into `int64`. -/
def wrapInt64 (x : Int) : Int := (x + 9223372036854775808) % 18446744073709551616 - 9223372036854775808

/-- The values an `int64` variable can hold. -/
def IsInt64 (x : Int) : Prop := MinInt64 ≤ x ∧ x ≤ MaxInt64

instance (x : Int) : Decidable (IsInt64 x) := by unfold IsInt64; infer_instance

/-! ## Go results -/

/-- The gRPC status codes used by the backend. -/
inductive Code where
  | Internal
  | NotFound
  deriving DecidableEq, Repr

/-- Go `error` values that the backend returns or renders.  The three
sentinels are the variables `berpctypes.ErrBadRequest`, `ErrBadPageNo` and
`ErrNotSupportedMessageType`; `status` is `status.Error(code, msg)`; `wrap` is
`errors.Wrap(cause, description)`; `plain` is an error of a collaborator, known
by its text. -/
inductive GoError where
  | ErrBadRequest
  | ErrBadPageNo
  | ErrNotSupportedMessageType
  | status (code : Code) (msg : String)
  | wrap (cause : GoError) (description : String)
  | plain (msg : String)
  deriving DecidableEq, Repr

/-- How a Go call ends: with a value, with an error, or with a panic. -/
inductive Outcome (α : Type) where
  | ok (a : α)
  | err (e : GoError)
  | panic
  deriving Repr

/-! ## Chain data -/

/-- An `sdk.Coin`. -/
structure Coin where
  Denom : String
  Amount : Int
  deriving DecidableEq, Repr

/-- An `sdk.Dec`, known by its `String()` rendering. -/
structure Dec where
  String : String
  deriving DecidableEq, Repr

/-- A `time.Time`, known by `UTC().Unix()` and `UTC().String()`. -/
structure Time where
  Unix : Int
  UTCString : String
  deriving DecidableEq, Repr

/-- An IBC `clienttypes.Height`. -/
structure Height where
  RevisionNumber : Nat
  RevisionHeight : Nat
  deriving DecidableEq, Repr

/-- A `banktypes.Input` of a multi-send. -/
structure Input where
  Address : String
  Coins : List Coin
  deriving DecidableEq, Repr

/-- A `banktypes.Output` of a multi-send. -/
structure Output where
  Address : String
  Coins : List Coin
  deriving DecidableEq, Repr

/-- A `stakingtypes.Description`. -/
structure Description where
  Moniker : String
  Identity : String
  Website : String
  SecurityContact : String
  Details : String
  deriving DecidableEq, Repr

/-- A `stakingtypes.CommissionRates`. -/
structure CommissionRates where
  Rate : Dec
  MaxRate : Dec
  MaxChangeRate : Dec
  deriving DecidableEq, Repr

/-- A `connectiontypes.Counterparty`. -/
structure ConnectionCounterparty where
  ClientId : String
  ConnectionId : String
  deriving DecidableEq, Repr

/-- A `channeltypes.Counterparty`. -/
structure ChannelCounterparty where
  PortId : String
  ChannelId : String
  deriving DecidableEq, Repr

/-- A `channeltypes.Channel`. -/
structure Channel where
  Counterparty : ChannelCounterparty
  ConnectionHops : List String
  deriving DecidableEq, Repr

/-- A `channeltypes.Packet`; `Data` is the raw payload. -/
structure Packet where
  Sequence : Nat
  SourcePort : String
  SourceChannel : String
  DestinationPort : String
  DestinationChannel : String
  Data : List Nat
  TimeoutHeight : Height
  TimeoutTimestamp : Nat
  deriving DecidableEq, Repr

/-- An `ibctransfertypes.FungibleTokenPacketData`. -/
structure FungibleTokenPacketData where
  Denom : String
  Amount : String
  Sender : String
  Receiver : String
  Memo : String
  deriving DecidableEq, Repr

/-- A `banktypes.DenomUnit`. -/
structure DenomUnit where
  Denom : String
  Exponent : Nat
  deriving DecidableEq, Repr

/-- A `banktypes.Metadata`. -/
structure Metadata where
  Description : String
  DenomUnits : List DenomUnit
  Base : String
  Display : String
  Name : String
  Symbol : String
  deriving DecidableEq, Repr

/-- A vote option, the `int32` behind `VoteOption`. -/
abbrev VoteOption := Int

/-- `OptionYes` of both gov packages. -/
def OptionYes : VoteOption := 1
/-- `OptionAbstain` of both gov packages. -/
def OptionAbstain : VoteOption := 2
/-- `OptionNo` of both gov packages. -/
def OptionNo : VoteOption := 3
/-- `OptionNoWithVeto` of both gov packages. -/
def OptionNoWithVeto : VoteOption := 4

/-- `VoteOption.String()`: the generated enum name, and the decimal number for
a value without a name. -/
def VoteOption.String (o : VoteOption) : String :=
  if o = 0 then "VOTE_OPTION_UNSPECIFIED"
  else if o = 1 then "VOTE_OPTION_YES"
  else if o = 2 then "VOTE_OPTION_ABSTAIN"
  else if o = 3 then "VOTE_OPTION_NO"
  else if o = 4 then "VOTE_OPTION_NO_WITH_VETO"
  else toString o

/-! ## Messages

`Msg` is the Go interface `sdk.Msg`: one constructor for each concrete type
named in the type switches of the source, with the fields the source reads, and
`other` for a message of any other Go type.  `AnyMsg` is `*codectypes.Any`. -/

mutual
/-- An `sdk.Msg`. -/
inductive Msg where
  | bank_MsgSend (FromAddress ToAddress : String) (Amount : List Coin)
  | bank_MsgMultiSend (Inputs : List Input) (Outputs : List Output)
  | crisis_MsgVerifyInvariant (Sender InvariantModuleName InvariantRoute : String)
  | dist_MsgSetWithdrawAddress (DelegatorAddress WithdrawAddress : String)
  | dist_MsgWithdrawDelegatorReward (DelegatorAddress ValidatorAddress : String)
  | dist_MsgWithdrawValidatorCommission (ValidatorAddress : String)
  | dist_MsgFundCommunityPool (Amount : List Coin) (Depositor : String)
  | evidence_MsgSubmitEvidence (Submitter : String)
  | govv1_MsgSubmitProposal (Messages : List AnyMsg) (InitialDeposit : List Coin)
      (Proposer Metadata : String)
  | govlegacy_MsgSubmitProposal (Content : Option AnyMsg) (InitialDeposit : List Coin)
      (Proposer : String)
  | govv1_MsgDeposit (ProposalId : Nat) (Depositor : String) (Amount : List Coin)
  | govlegacy_MsgDeposit (ProposalId : Nat) (Depositor : String) (Amount : List Coin)
  | govv1_MsgVote (ProposalId : Nat) (Voter : String) (Option : VoteOption) (Metadata : String)
  | govlegacy_MsgVote (ProposalId : Nat) (Voter : String) (Option : VoteOption)
  | govv1_MsgVoteWeighted (ProposalId : Nat) (Voter Metadata : String)
  | govlegacy_MsgVoteWeighted (ProposalId : Nat) (Voter : String)
  | ibc_MsgCreateClient (Signer : String)
  | ibc_MsgUpdateClient (ClientId Signer : String)
  | ibc_MsgUpgradeClient (ClientId Signer : String)
  | ibc_MsgSubmitMisbehaviour (ClientId Signer : String)
  | ibctransfer_MsgTransfer (SourcePort SourceChannel : String) (Token : Coin)
      (Sender Receiver : String) (TimeoutHeight : Height) (TimeoutTimestamp : Nat)
      (Memo : String)
  | connection_MsgConnectionOpenAck (ConnectionId CounterpartyConnectionId : String)
      (ProofHeight ConsensusHeight : Height) (Signer : String)
  | connection_MsgConnectionOpenInit (ClientId : String) (Counterparty : ConnectionCounterparty)
      (DelayPeriod : Nat) (Signer : String)
  | connection_MsgConnectionOpenConfirm (ConnectionId : String) (ProofHeight : Height)
      (Signer : String)
  | connection_MsgConnectionOpenTry (ClientId : String) (Counterparty : ConnectionCounterparty)
      (DelayPeriod : Nat) (ProofHeight ConsensusHeight : Height) (Signer : String)
  | channel_MsgChannelOpenInit (PortId : String) (Channel : Channel) (Signer : String)
  | channel_MsgChannelOpenConfirm (PortId ChannelId : String) (ProofHeight : Height)
      (Signer : String)
  | channel_MsgChannelOpenTry (PortId : String) (Channel : Channel) (ProofHeight : Height)
      (Signer : String)
  | channel_MsgAcknowledgement (Packet : Packet) (ProofHeight : Height) (Signer : String)
  | channel_MsgChannelOpenAck (PortId ChannelId CounterpartyChannelId : String)
      (ProofHeight : Height) (Signer : String)
  | channel_MsgRecvPacket (Packet : Packet) (ProofHeight : Height) (Signer : String)
  | channel_MsgTimeout (Packet : Packet) (ProofHeight : Height) (NextSequenceRecv : Nat)
      (Signer : String)
  | channel_MsgTimeoutOnClose (Packet : Packet) (ProofHeight : Height) (NextSequenceRecv : Nat)
      (Signer : String)
  | slashing_MsgUnjail (ValidatorAddr : String)
  | staking_MsgCreateValidator (Description : Description) (Commission : CommissionRates)
      (MinSelfDelegation : Int) (DelegatorAddress ValidatorAddress : String) (Value : Coin)
  | staking_MsgEditValidator (Description : Description) (ValidatorAddress : String)
      (CommissionRate : Option Dec) (MinSelfDelegation : Option Int)
  | staking_MsgDelegate (DelegatorAddress ValidatorAddress : String) (Amount : Coin)
  | staking_MsgBeginRedelegate (DelegatorAddress ValidatorSrcAddress ValidatorDstAddress : String)
      (Amount : Coin)
  | staking_MsgUndelegate (DelegatorAddress ValidatorAddress : String) (Amount : Coin)
  | staking_MsgCancelUnbondingDelegation (DelegatorAddress ValidatorAddress : String)
  | authz_MsgGrant (Granter Grantee : String) (Grant_Authorization : Option AnyMsg)
      (Grant_Expiration : Option Time)
  | authz_MsgExec (Grantee : String) (Msgs : List AnyMsg)
  | authz_MsgRevoke (Granter Grantee MsgTypeUrl : String)
  | other (goType : String)
/-- A `*codectypes.Any`: the type URL and the result of `Codec.UnpackAny` on it. -/
inductive AnyMsg where
  | mk (TypeUrl : String) (unpacked : Except String Msg)
end

/-- The type URL of an `Any`. -/
def AnyMsg.TypeUrl : AnyMsg → String
  | .mk u _ => u

/-- The result of `m.clientCtx.Codec.UnpackAny(any, &cosmosMsg)`: the decoded
message, or the text of the decode error. -/
def AnyMsg.UnpackAny : AnyMsg → Except String Msg
  | .mk _ r => r

/-! ## Responses

`GenericBackendResponse` is `map[string]any`.  The embedding keeps the entries
a function writes, in the order of the source, as a list of key/value pairs. -/

/-- Modelled from the spec: `berpctypes.FriendlyResponseContentBuilder` is not
in `transactions.go`.  Following section 4.1 of the specification, each `Write`
call appends one typed fragment: plain text, an address reference, or a coin
amount together with the denomination metadata it is rendered with. -/
inductive Fragment where
  | text (s : String)
  | address (a : String)
  | coins (cs : List Coin) (denomsMetadata : List (String × Metadata))
  deriving DecidableEq, Repr

/-- Modelled from the spec: the builder is its ordered sequence of fragments. -/
abbrev FriendlyResponseContentBuilder := List Fragment

/-- The constructor `NewFriendlyResponseContentBuilder()`. -/
def NewFriendlyResponseContentBuilder : FriendlyResponseContentBuilder := []

/-- The method `WriteText`. -/
def FriendlyResponseContentBuilder.WriteText (rb : FriendlyResponseContentBuilder) (s : String) :
    FriendlyResponseContentBuilder := rb ++ [Fragment.text s]

/-- The method `WriteAddress`. -/
def FriendlyResponseContentBuilder.WriteAddress (rb : FriendlyResponseContentBuilder) (a : String) :
    FriendlyResponseContentBuilder := rb ++ [Fragment.address a]

/-- The method `WriteCoins`. -/
def FriendlyResponseContentBuilder.WriteCoins (rb : FriendlyResponseContentBuilder)
    (cs : List Coin) (denomsMetadata : List (String × Metadata)) :
    FriendlyResponseContentBuilder := rb ++ [Fragment.coins cs denomsMetadata]

/-- A value stored in a response map.  `coinsToMap cs` is the value of
`berpcutils.CoinsToMap(cs...)`; `response kvs rb` is a nested
`GenericBackendResponse` with entries `kvs` into which the builder `rb` was
built by `BuildIntoResponse`. -/
inductive JVal where
  | str (s : String)
  | num (n : Int)
  | strs (xs : List String)
  | height (h : Height)
  | coinsToMap (cs : List Coin)
  | strMap (kvs : List (String × String))
  | obj (kvs : List (String × JVal))
  | arr (xs : List JVal)
  | response (kvs : List (String × JVal)) (rb : FriendlyResponseContentBuilder)

/-- The `GenericBackendResponse` a message parser returns: the entries written
by the parser and the builder passed to `BuildIntoResponse`. -/
structure MessageContent where
  entries : List (String × JVal)
  friendly : FriendlyResponseContentBuilder

/-- The method `BuildIntoResponse(res)` of the builder. -/
def FriendlyResponseContentBuilder.BuildIntoResponse (rb : FriendlyResponseContentBuilder)
    (res : List (String × JVal)) : MessageContent := ⟨res, rb⟩

/-- A parsed response stored as a map value. -/
def MessageContent.toJVal (c : MessageContent) : JVal := JVal.response c.entries c.friendly

/-- Modelled from the spec: `berpctypes.MessageInvolversResult` is not in
`transactions.go`.  Following section 3 of the specification it maps a role tag
to a set of addresses; the embedding keeps the (role, address) pairs, each at
most once. -/
abbrev MessageInvolversResult := List (String × String)

/-- The role constant `berpctypes.MessageInvolvers`, the generic role. -/
def MessageInvolvers : String := "involvers"

/-- Adding one address under a role; an address already present is not added
again. -/
def MessageInvolversResult.add1 (res : MessageInvolversResult) (role addr : String) :
    MessageInvolversResult :=
  if (role, addr) ∈ res then res else res ++ [(role, addr)]

/-- The method `Add(role, addresses...)`. -/
def MessageInvolversResult.Add (res : MessageInvolversResult) (role : String)
    (addrs : List String) : MessageInvolversResult :=
  addrs.foldl (fun acc a => MessageInvolversResult.add1 acc role a) res

/-- The method `Merge(other)`: the union of the two results. -/
def MessageInvolversResult.Merge (res other : MessageInvolversResult) : MessageInvolversResult :=
  other.foldl (fun acc p => MessageInvolversResult.add1 acc p.1 p.2) res

/-- Modelled from the spec: `berpctypes.Tracker[int64]` is not in
`transactions.go`.  The specification describes the trackers of the scan as
sorted sets of heights; the embedding keeps the members, each at most once. -/
abbrev Tracker := List Int

/-- The method `Add`. -/
def Tracker.Add (t : Tracker) (h : Int) : Tracker := if h ∈ t then t else t ++ [h]

/-- The method `Has`. -/
def Tracker.Has (t : Tracker) (h : Int) : Bool := decide (h ∈ t)

/-- The method `ToSortedSlice`: the members in ascending order. -/
def Tracker.ToSortedSlice (t : Tracker) : List Int := t.insertionSort (fun a b => a ≤ b)

/-! ## Transactions and blocks -/

/-- An event attribute of a transaction result. -/
structure EventAttribute where
  Key : String
  Value : String
  deriving DecidableEq, Repr

/-- An event of a transaction result. -/
structure Event where
  EventType : String
  Attributes : List EventAttribute
  deriving DecidableEq, Repr

/-- A decoded transaction `*tx.Tx`: the messages and the memo of its body. -/
structure Tx where
  Body_Messages : List AnyMsg
  Body_Memo : String

/-- A raw transaction `tmtypes.Tx`, with the value of its method `Hash()`. -/
structure TmTx where
  Bytes : List Nat
  Hash : List Nat
  deriving DecidableEq, Repr

/-- A `*coretypes.ResultTx`: the events of `TxResult`. -/
structure ResultTx where
  TxResult_Events : List Event
  deriving DecidableEq, Repr

/-- An `*sdk.TxResponse`. -/
structure TxResponse where
  Height : Int
  TxHash : String
  Code : Nat
  GasWanted : Int
  GasUsed : Int
  Events : List Event
  deriving DecidableEq, Repr

/-- A `*tx.GetTxResponse`. -/
structure GetTxResponse where
  Tx : Tx
  TxResponse : TxResponse

/-- A `*tx.GetBlockWithTxsResponse`: the decoded transactions `Txs`, the raw
transactions `Block.Data.Txs` and `Block.Header.Time.UTC().Unix()`. -/
structure GetBlockWithTxsResponse where
  Txs : List Tx
  Block_Data_Txs : List TmTx
  Block_Header_Time_Unix : Int

/-- A `berpctypes.MessageParser`. -/
abbrev MessageParser := Msg → Nat → Tx → TxResponse → Outcome MessageContent

/-- A `berpctypes.MessageInvolversExtractor`; the client context it receives is
the one of the backend. -/
abbrev MessageInvolversExtractor := Msg → Tx → TmTx → Outcome MessageInvolversResult

/-- What the interceptor of `GetTransactionByHash` hands back: the flag
`intercepted`, the response and the error. -/
structure Intercepted where
  intercepted : Bool
  response : Option (List (String × JVal))
  err : Option GoError

/-! ## Library calls on coin lists -/

/-- Go's `<` on two strings, character by character: the first difference
decides, and a proper prefix is smaller. -/
def charsLt : List Char → List Char → Bool
  | _, [] => false
  | [], _ :: _ => true
  | a :: as, b :: bs => if a < b then true else if b < a then false else charsLt as bs

/-- Go's `<` on strings: lexicographic on the bytes, which for UTF-8 text is
the lexicographic order of the code points. -/
def stringLt (a b : String) : Bool := charsLt a.toList b.toList

/-- The library method `sdk.Coins.Find`, its boolean result, with the depth of
the recursion bounded by `fuel`: the empty list holds nothing, a list of one
coin is compared with the denomination, and a longer list is searched in the
half that the coin in the middle points to. -/
def Coins.FindAux : Nat → List Coin → String → Bool
  | 0, _, _ => false
  | fuel + 1, coins, denom =>
    match coins with
    | [] => false
    | [coin] => decide (coin.Denom = denom)
    | c0 :: c1 :: rest =>
      let midIdx := (c0 :: c1 :: rest).length / 2
      match (c0 :: c1 :: rest)[midIdx]? with
      | none => false
      | some coin =>
        if stringLt denom coin.Denom then Coins.FindAux fuel ((c0 :: c1 :: rest).take midIdx) denom
        else if denom = coin.Denom then true
        else Coins.FindAux fuel ((c0 :: c1 :: rest).drop (midIdx + 1)) denom

/-- The library method `sdk.Coins.Find`, its boolean result: a binary search by
denomination.  The recursion halves the list, so the length of the list bounds
its depth. -/
def Coins.Find (coins : List Coin) (denom : String) : Bool :=
  Coins.FindAux coins.length coins denom

/-- The library method `sdk.Coins.isSorted`: no coin is followed by one of a
smaller denomination. -/
def Coins.isSorted : List Coin → Bool
  | [] => true
  | [_] => true
  | c0 :: c1 :: rest => !stringLt c1.Denom c0.Denom && Coins.isSorted (c1 :: rest)

/-- The backend `m` with its collaborators, and the helpers of `berpcutils`
that `transactions.go` calls. -/
structure Env where
  /-- `m.clientCtx.Client.Status(m.ctx)`: the network name, or an error. -/
  Status : Except String String
  /-- `m.queryClient.GetBlockWithTxs`: an error, an absent block, or a block. -/
  GetBlockWithTxs : Int → Except String (Option GetBlockWithTxsResponse)
  /-- `m.clientCtx.Client.Tx(m.ctx, hash, false)`. -/
  ClientTx : List Nat → Except String (Option ResultTx)
  /-- `m.queryClient.GetTx` by the hash string. -/
  GetTx : String → Except String (Option GetTxResponse)
  /-- `m.queryClient.BankQueryClient.DenomMetadata` by denomination. -/
  DenomMetadata : String → Except String (Option Metadata)
  /-- `m.interceptor`, absent when nil. -/
  interceptor : Option (String → Intercepted)
  /-- `m.messageParsers`, keyed by proto message name. -/
  messageParsers : String → Option MessageParser
  /-- `m.messageInvolversExtractors`, keyed by proto message name. -/
  messageInvolversExtractors : String → Option MessageInvolversExtractor
  /-- `m.bech32Cfg.IsAccountAddr`. -/
  IsAccountAddr : String → Bool
  /-- `berpcutils.ProtoMessageName`. -/
  ProtoMessageName : Msg → String
  /-- `berpcutils.IsEvmTx`. -/
  IsEvmTx : Tx → Bool
  /-- `berpcutils.GetEvmTransactionHashFromEvent`, with `String()` applied to
  the hash found. -/
  GetEvmTransactionHashFromEvent : List Event → Option String
  /-- `berpcutils.NormalizeTransactionHash`. -/
  NormalizeTransactionHash : String → Bool → String
  /-- `berpcutils.FromAnyToJsonMap`. -/
  FromAnyToJsonMap : AnyMsg → Except String JVal
  /-- `berpctypes.ConvertTxEvent(events).RemoveUnnecessaryEvmTxEvents()`. -/
  ConvertTxEvent : List Event → JVal
  /-- `berpcutils.GetIncomingIBCCoin`. -/
  GetIncomingIBCCoin : String → String → String → String → String → String → Except String Coin
  /-- `ibctransfertypes.ModuleCdc.UnmarshalJSON` into a fungible-token payload. -/
  UnmarshalPacketData : List Nat → Except String FungibleTokenPacketData
  /-- The library method `sdk.Coins.Add`: the sum, or `none` when the call
  panics, as it does on a list that is not sorted by denomination. -/
  CoinsAdd : List Coin → List Coin → Option (List Coin)
  /-- The method `Finalize` of `MessageInvolversResult`. -/
  Finalize : MessageInvolversResult → MessageInvolversResult
  /-- The method `Error()` of a Go error. -/
  ErrorText : GoError → String

/-! ## Helpers of the parser -/

/-- A `berpctypes.GenericBackendResponse` under construction. -/
abbrev GenericBackendResponse := List (String × JVal)

/-- Map assignment `m[key] = value`: an existing entry is replaced, a new key
is added. -/
def setKey {β : Type} (m : List (String × β)) (key : String) (value : β) : List (String × β) :=
  if m.any (fun kv => kv.1 == key) then
    m.map (fun kv => if kv.1 == key then (key, value) else kv)
  else m ++ [(key, value)]

/-- Lines 1112-1147. -/
def getBankDenomsMetadata (env : Env) (coins : List Coin) : List (String × Metadata) :=
  let denomsMetadata : List (String × Metadata) :=
    coins.foldl (fun acc coin =>
      match env.DenomMetadata coin.Denom with
      | .error _ => acc
      | .ok none => acc
      | .ok (some res) => if coin.Denom = "" then acc else setKey acc coin.Denom res) []
  if denomsMetadata.length = 0 then
    if Coins.Find coins "urax" then
      setKey denomsMetadata "urax"
        { Description := ""
          DenomUnits := [⟨"urax", 0⟩, ⟨"RAX", 18⟩]
          Base := "urax"
          Display := "RAX"
          Name := "RAX"
          Symbol := "RAX" }
    else denomsMetadata
  else denomsMetadata

/-- The value written under the key `transfer`: the senders and the
`address`/`amount` entries of the receivers. -/
def transferValue (senders : List String) (receivers : List (String × List Coin)) : JVal :=
  JVal.obj [("from", JVal.strs senders),
    ("to", JVal.arr (receivers.map (fun r =>
      JVal.obj [("address", JVal.str r.1), ("amount", JVal.coinsToMap r.2)])))]

/-- Lines 1149-1194: the response map and the builder after the call. -/
def addIbcPacketInfoIntoResponse (env : Env) (packet : Packet) (res : GenericBackendResponse)
    (rb : FriendlyResponseContentBuilder) : GenericBackendResponse × FriendlyResponseContentBuilder :=
  match env.UnmarshalPacketData packet.Data with
  | .error _ => (res, rb)
  | .ok data =>
    let step1 : GenericBackendResponse × FriendlyResponseContentBuilder :=
      match env.GetIncomingIBCCoin packet.SourcePort packet.SourceChannel
          packet.DestinationPort packet.DestinationChannel data.Denom data.Amount with
      | .ok token =>
        let tokens := [token]
        (setKey res "transfer" (transferValue [data.Sender] [(data.Receiver, tokens)]),
          ((((rb.WriteText data.Sender).WriteText " transfers ").WriteCoins tokens
            (getBankDenomsMetadata env tokens)).WriteText " to ").WriteAddress data.Receiver)
      | .error _ =>
        (res, (((rb.WriteText data.Sender).WriteText " transfers unknown amount (parse error)").WriteText
          " to ").WriteAddress data.Receiver)
    let rb2 := (((((((step1.2.WriteText " through IBC via ").WriteText packet.SourcePort).WriteText
      "/").WriteText packet.SourceChannel).WriteText " from ").WriteText
      packet.DestinationPort).WriteText "/").WriteText packet.DestinationChannel
    if data.Memo ≠ "" then
      (setKey step1.1 "memo" (JVal.str data.Memo), (rb2.WriteText " with memo ").WriteText data.Memo)
    else (step1.1, rb2)

/-- The `description` map of the two validator messages (lines 898-913 and
929-944): only the non-empty fields are written. -/
def descriptionMap (d : Description) : List (String × String) :=
  let m0 : List (String × String) := []
  let m1 := if d.Moniker ≠ "" then setKey m0 "moniker" d.Moniker else m0
  let m2 := if d.Identity ≠ "" then setKey m1 "identity" d.Identity else m1
  let m3 := if d.Website ≠ "" then setKey m2 "website" d.Website else m2
  let m4 := if d.SecurityContact ≠ "" then setKey m3 "securityContact" d.SecurityContact else m3
  if d.Details ≠ "" then setKey m4 "details" d.Details else m4

/-- The loop over `msg.Inputs` of a multi-send (lines 275-283): the sender
addresses and the builder. -/
def multiSendInputs : List Input → Nat → List String → FriendlyResponseContentBuilder →
    List String × FriendlyResponseContentBuilder
  | [], _, fromAddresses, rb => (fromAddresses, rb)
  | input :: rest, i, fromAddresses, rb =>
    let rb1 := if i > 0 then rb.WriteText ", " else rb
    multiSendInputs rest (i + 1) (fromAddresses ++ [input.Address]) (rb1.WriteAddress input.Address)

/-- The loop over `msg.Outputs` that sums the coins (lines 287-290), from the
sum `allCoins` so far: the total, or `none` when a call of `Add` panics. -/
def multiSendAllCoins (env : Env) : List Output → List Coin → Option (List Coin)
  | [], allCoins => some allCoins
  | output :: rest, allCoins =>
    match env.CoinsAdd allCoins output.Coins with
    | none => none
    | some sum => multiSendAllCoins env rest sum

/-- The loop over `msg.Outputs` of a multi-send (lines 292-305): the receiver
entries and the builder. -/
def multiSendOutputs (env : Env) (allCoins : List Coin) : List Output → Nat →
    List (String × List Coin) → FriendlyResponseContentBuilder →
    List (String × List Coin) × FriendlyResponseContentBuilder
  | [], _, toInfo, rb => (toInfo, rb)
  | output :: rest, i, toInfo, rb =>
    let rb1 := if i > 0 then rb.WriteText ", " else rb
    multiSendOutputs env allCoins rest (i + 1) (toInfo ++ [(output.Address, output.Coins)])
      (((rb1.WriteCoins output.Coins (getBankDenomsMetadata env allCoins)).WriteText
        " to ").WriteAddress output.Address)

/-- The words written for a vote option (lines 475-492 and 509-526). -/
def writeVoteOption (rb : FriendlyResponseContentBuilder) (option : VoteOption) :
    FriendlyResponseContentBuilder :=
  if option = OptionYes then rb.WriteText " votes YES"
  else if option = OptionNo then rb.WriteText " votes NO"
  else if option = OptionAbstain then rb.WriteText " votes Abstains"
  else if option = OptionNoWithVeto then rb.WriteText " votes NO with VETO"
  else (rb.WriteText " votes ").WriteText (VoteOption.String option)

/-- The entries every packet-bearing message starts from (lines 769-779,
810-820, 831-841, 853-863); the key of the timeout timestamp differs between
the acknowledgement and the other three. -/
def packetEntries (signer : String) (proofHeight : Height) (packet : Packet)
    (timestampKey : String) : GenericBackendResponse :=
  [("signer", JVal.str signer), ("proofHeight", JVal.height proofHeight),
   ("sourcePort", JVal.str packet.SourcePort), ("sourceChannel", JVal.str packet.SourceChannel),
   ("destinationPort", JVal.str packet.DestinationPort),
   ("destinationChannel", JVal.str packet.DestinationChannel),
   ("sequence", JVal.num packet.Sequence), ("timeoutHeight", JVal.height packet.TimeoutHeight),
   (timestampKey, JVal.num packet.TimeoutTimestamp)]

/-- The tail shared by the four packet-bearing cases: the call of
`addIbcPacketInfoIntoResponse` and `BuildIntoResponse`. -/
def buildPacketResponse (env : Env) (packet : Packet) (res : GenericBackendResponse)
    (rb : FriendlyResponseContentBuilder) : Outcome MessageContent :=
  let r := addIbcPacketInfoIntoResponse env packet res rb
  Outcome.ok (r.2.BuildIntoResponse r.1)

/-! ## The default parser (lines 248-1110) -/

mutual
/-- The method `defaultMessageParser`: one case for each type of the type
switch, and `ErrNotSupportedMessageType` after the switch. -/
def defaultMessageParser (env : Env) (msg : Msg) (msgIdx : Nat) (tx : Tx)
    (txResponse : TxResponse) : Outcome MessageContent :=
  match msg with
  | .bank_MsgSend FromAddress ToAddress Amount =>
    let res : GenericBackendResponse :=
      [("transfer", transferValue [FromAddress] [(ToAddress, Amount)])]
    .ok ((((((NewFriendlyResponseContentBuilder.WriteAddress FromAddress).WriteText
      " transfers ").WriteCoins Amount (getBankDenomsMetadata env Amount)).WriteText
      " to ").WriteAddress ToAddress).BuildIntoResponse res)
  | .bank_MsgMultiSend Inputs Outputs =>
    let ins := multiSendInputs Inputs 0 [] NewFriendlyResponseContentBuilder
    let rb1 := ins.2.WriteText " transfer "
    match multiSendAllCoins env Outputs [] with
    | none => .panic
    | some allCoins =>
      let outs := multiSendOutputs env allCoins Outputs 0 [] rb1
      let res : GenericBackendResponse := [("transfer", transferValue ins.1 outs.1)]
      .ok (outs.2.BuildIntoResponse res)
  | .crisis_MsgVerifyInvariant Sender InvariantModuleName InvariantRoute =>
    let res : GenericBackendResponse :=
      [("sender", .str Sender), ("invariantModuleName", .str InvariantModuleName),
       ("invariantRoute", .str InvariantRoute)]
    .ok ((((((NewFriendlyResponseContentBuilder.WriteAddress Sender).WriteText
      " verifies invariant ").WriteText InvariantModuleName).WriteText " at route ").WriteText
      InvariantRoute).BuildIntoResponse res)
  | .dist_MsgSetWithdrawAddress DelegatorAddress WithdrawAddress =>
    let res : GenericBackendResponse :=
      [("delegatorAddress", .str DelegatorAddress), ("withdrawAddress", .str WithdrawAddress)]
    .ok ((((NewFriendlyResponseContentBuilder.WriteAddress DelegatorAddress).WriteText
      " sets withdraw address to ").WriteAddress WithdrawAddress).BuildIntoResponse res)
  | .dist_MsgWithdrawDelegatorReward DelegatorAddress ValidatorAddress =>
    let res : GenericBackendResponse :=
      [("delegatorAddress", .str DelegatorAddress), ("validatorAddress", .str ValidatorAddress)]
    .ok ((((NewFriendlyResponseContentBuilder.WriteAddress DelegatorAddress).WriteText
      " withdraws rewards from ").WriteAddress ValidatorAddress).BuildIntoResponse res)
  | .dist_MsgWithdrawValidatorCommission ValidatorAddress =>
    let res : GenericBackendResponse := [("validatorAddress", .str ValidatorAddress)]
    .ok (((NewFriendlyResponseContentBuilder.WriteAddress ValidatorAddress).WriteText
      " withdraws commission").BuildIntoResponse res)
  | .dist_MsgFundCommunityPool Amount Depositor =>
    let res : GenericBackendResponse :=
      [("depositor", .str Depositor), ("amount", .coinsToMap Amount)]
    .ok ((((NewFriendlyResponseContentBuilder.WriteAddress Depositor).WriteText
      " funds community pool with ").WriteCoins Amount
      (getBankDenomsMetadata env Amount)).BuildIntoResponse res)
  | .evidence_MsgSubmitEvidence Submitter =>
    let res : GenericBackendResponse := [("submitter", .str Submitter)]
    .ok (((NewFriendlyResponseContentBuilder.WriteAddress Submitter).WriteText
      " submits evidence").BuildIntoResponse res)
  | .govv1_MsgSubmitProposal Messages InitialDeposit Proposer Metadata =>
    let messageTypes := Messages.map AnyMsg.TypeUrl
    let res : GenericBackendResponse :=
      [("proposer", .str Proposer), ("metadata", .str Metadata),
       ("deposit", .coinsToMap InitialDeposit), ("messageTypes", .strs messageTypes)]
    .ok ((((((NewFriendlyResponseContentBuilder.WriteAddress Proposer).WriteText
      " submits proposal of message types [").WriteText (", ".intercalate messageTypes)).WriteText
      "] with initial deposit ").WriteCoins InitialDeposit
      (getBankDenomsMetadata env InitialDeposit)).BuildIntoResponse res)
  | .govlegacy_MsgSubmitProposal Content InitialDeposit Proposer =>
    match Content with
    | none => .panic
    | some content =>
      let res : GenericBackendResponse :=
        [("proposer", .str Proposer), ("deposit", .coinsToMap InitialDeposit),
         ("messageTypes", .strs [content.TypeUrl])]
      .ok ((((((NewFriendlyResponseContentBuilder.WriteAddress Proposer).WriteText
        " submits proposal of message types [").WriteText content.TypeUrl).WriteText
        "] with initial deposit ").WriteCoins InitialDeposit
        (getBankDenomsMetadata env InitialDeposit)).BuildIntoResponse res)
  | .govv1_MsgDeposit ProposalId Depositor Amount =>
    let res : GenericBackendResponse :=
      [("depositor", .str Depositor), ("proposalId", .num ProposalId),
       ("amount", .coinsToMap Amount)]
    .ok ((((((NewFriendlyResponseContentBuilder.WriteAddress Depositor).WriteText
      " deposits ").WriteCoins Amount (getBankDenomsMetadata env Amount)).WriteText
      " to proposal ").WriteText (toString ProposalId)).BuildIntoResponse res)
  | .govlegacy_MsgDeposit ProposalId Depositor Amount =>
    let res : GenericBackendResponse :=
      [("depositor", .str Depositor), ("proposalId", .num ProposalId),
       ("amount", .coinsToMap Amount)]
    .ok ((((((NewFriendlyResponseContentBuilder.WriteAddress Depositor).WriteText
      " deposits ").WriteCoins Amount (getBankDenomsMetadata env Amount)).WriteText
      " to proposal ").WriteText (toString ProposalId)).BuildIntoResponse res)
  | .govv1_MsgVote ProposalId Voter option Metadata =>
    let res : GenericBackendResponse :=
      [("voter", .str Voter), ("proposalId", .num ProposalId),
       ("option", .str (VoteOption.String option)), ("metadata", .str Metadata)]
    let rb := writeVoteOption (NewFriendlyResponseContentBuilder.WriteAddress Voter) option
    .ok (((rb.WriteText " to proposal ").WriteText (toString ProposalId)).BuildIntoResponse res)
  | .govlegacy_MsgVote ProposalId Voter option =>
    let res : GenericBackendResponse :=
      [("voter", .str Voter), ("proposalId", .num ProposalId),
       ("option", .str (VoteOption.String option))]
    let rb := writeVoteOption (NewFriendlyResponseContentBuilder.WriteAddress Voter) option
    .ok (((rb.WriteText " to proposal ").WriteText (toString ProposalId)).BuildIntoResponse res)
  | .govv1_MsgVoteWeighted ProposalId Voter Metadata =>
    let res : GenericBackendResponse :=
      [("voter", .str Voter), ("proposalId", .num ProposalId), ("metadata", .str Metadata)]
    .ok ((((NewFriendlyResponseContentBuilder.WriteAddress Voter).WriteText
      " votes with weight to proposal ").WriteText (toString ProposalId)).BuildIntoResponse res)
  | .govlegacy_MsgVoteWeighted ProposalId Voter =>
    let res : GenericBackendResponse :=
      [("voter", .str Voter), ("proposalId", .num ProposalId)]
    .ok ((((NewFriendlyResponseContentBuilder.WriteAddress Voter).WriteText
      " votes with weight to proposal ").WriteText (toString ProposalId)).BuildIntoResponse res)
  | .ibc_MsgCreateClient Signer =>
    let res : GenericBackendResponse := [("signer", .str Signer)]
    .ok (((NewFriendlyResponseContentBuilder.WriteAddress Signer).WriteText
      " creates IBC client").BuildIntoResponse res)
  | .ibc_MsgUpdateClient ClientId Signer =>
    let res : GenericBackendResponse := [("signer", .str Signer), ("clientId", .str ClientId)]
    .ok ((((NewFriendlyResponseContentBuilder.WriteAddress Signer).WriteText
      " updates IBC client ").WriteText ClientId).BuildIntoResponse res)
  | .ibc_MsgUpgradeClient ClientId Signer =>
    let res : GenericBackendResponse := [("signer", .str Signer), ("clientId", .str ClientId)]
    .ok ((((NewFriendlyResponseContentBuilder.WriteAddress Signer).WriteText
      " upgrades IBC client ").WriteText ClientId).BuildIntoResponse res)
  | .ibc_MsgSubmitMisbehaviour ClientId Signer =>
    let res : GenericBackendResponse := [("signer", .str Signer), ("clientId", .str ClientId)]
    .ok ((((NewFriendlyResponseContentBuilder.WriteAddress Signer).WriteText
      " submits IBC misbehaviour for client ").WriteText ClientId).BuildIntoResponse res)
  | .ibctransfer_MsgTransfer SourcePort SourceChannel Token Sender Receiver TimeoutHeight
      TimeoutTimestamp Memo =>
    let res0 : GenericBackendResponse :=
      [("sender", .str Sender), ("receiver", .str Receiver), ("amount", .coinsToMap [Token]),
       ("timeoutHeight", .height TimeoutHeight), ("timeoutEpochUTC", .num TimeoutTimestamp),
       ("sourcePort", .str SourcePort), ("sourceChannel", .str SourceChannel)]
    let res := if Memo.length > 0 then setKey res0 "memo" (.str Memo) else res0
    .ok ((((((((((NewFriendlyResponseContentBuilder.WriteAddress Sender).WriteText
      " transfers ").WriteCoins [Token] (getBankDenomsMetadata env [Token])).WriteText
      " to ").WriteAddress Receiver).WriteText " through IBC via ").WriteText SourcePort).WriteText
      "/").WriteText SourceChannel).BuildIntoResponse res)
  | .connection_MsgConnectionOpenAck ConnectionId CounterpartyConnectionId ProofHeight
      ConsensusHeight Signer =>
    let res : GenericBackendResponse :=
      [("signer", .str Signer), ("connectionId", .str ConnectionId),
       ("counterpartyConnectionId", .str CounterpartyConnectionId),
       ("proofHeight", .height ProofHeight), ("consensusHeight", .height ConsensusHeight)]
    .ok ((((((NewFriendlyResponseContentBuilder.WriteAddress Signer).WriteText
      " acknowledges open connection ").WriteText ConnectionId).WriteText
      " with counterparty connection ").WriteText CounterpartyConnectionId).BuildIntoResponse res)
  | .connection_MsgConnectionOpenInit ClientId Counterparty DelayPeriod Signer =>
    let res : GenericBackendResponse :=
      [("signer", .str Signer), ("clientId", .str ClientId),
       ("counterpartyClientId", .str Counterparty.ClientId),
       ("counterpartyConnectionId", .str Counterparty.ConnectionId),
       ("delayPeriod", .num DelayPeriod)]
    .ok ((((((((NewFriendlyResponseContentBuilder.WriteAddress Signer).WriteText
      " initializes open connection ").WriteText ClientId).WriteText
      " with counterparty client ").WriteText Counterparty.ClientId).WriteText
      " and connection ").WriteText Counterparty.ConnectionId).BuildIntoResponse res)
  | .connection_MsgConnectionOpenConfirm ConnectionId ProofHeight Signer =>
    let res : GenericBackendResponse :=
      [("signer", .str Signer), ("connectionId", .str ConnectionId),
       ("proofHeight", .height ProofHeight)]
    .ok ((((NewFriendlyResponseContentBuilder.WriteAddress Signer).WriteText
      " confirms open connection ").WriteText ConnectionId).BuildIntoResponse res)
  | .connection_MsgConnectionOpenTry ClientId Counterparty DelayPeriod ProofHeight
      ConsensusHeight Signer =>
    let res : GenericBackendResponse :=
      [("signer", .str Signer), ("clientId", .str ClientId),
       ("counterpartyClientId", .str Counterparty.ClientId),
       ("counterpartyConnectionId", .str Counterparty.ConnectionId),
       ("proofHeight", .height ProofHeight), ("consensusHeight", .height ConsensusHeight),
       ("delayPeriod", .num DelayPeriod)]
    .ok ((((((((NewFriendlyResponseContentBuilder.WriteAddress Signer).WriteText
      " tries open connection ").WriteText ClientId).WriteText
      " with counterparty client ").WriteText Counterparty.ClientId).WriteText
      " and connection ").WriteText Counterparty.ConnectionId).BuildIntoResponse res)
  | .channel_MsgChannelOpenInit PortId Channel Signer =>
    let res : GenericBackendResponse :=
      [("signer", .str Signer), ("portId", .str PortId),
       ("counterPartyPortId", .str Channel.Counterparty.PortId),
       ("counterPartyChannelId", .str Channel.Counterparty.ChannelId),
       ("connectionHops", .strs Channel.ConnectionHops)]
    .ok ((((((((NewFriendlyResponseContentBuilder.WriteAddress Signer).WriteText
      " initializes open channel for port ").WriteText PortId).WriteText
      " connects to counterparty port ").WriteText Channel.Counterparty.PortId).WriteText
      " and channel ").WriteText Channel.Counterparty.ChannelId).BuildIntoResponse res)
  | .channel_MsgChannelOpenConfirm PortId ChannelId ProofHeight Signer =>
    let res : GenericBackendResponse :=
      [("signer", .str Signer), ("portId", .str PortId), ("channelId", .str ChannelId),
       ("proofHeight", .height ProofHeight)]
    .ok ((((((NewFriendlyResponseContentBuilder.WriteAddress Signer).WriteText
      " confirms open channel for port ").WriteText PortId).WriteText " and channel ").WriteText
      ChannelId).BuildIntoResponse res)
  | .channel_MsgChannelOpenTry PortId Channel ProofHeight Signer =>
    let res : GenericBackendResponse :=
      [("signer", .str Signer), ("portId", .str PortId),
       ("counterPartyPortId", .str Channel.Counterparty.PortId),
       ("counterPartyChannelId", .str Channel.Counterparty.ChannelId),
       ("connectionHops", .strs Channel.ConnectionHops), ("proofHeight", .height ProofHeight)]
    .ok ((((((((NewFriendlyResponseContentBuilder.WriteAddress Signer).WriteText
      " tries open channel for port ").WriteText PortId).WriteText
      " connects to counterparty port ").WriteText Channel.Counterparty.PortId).WriteText
      " and channel ").WriteText Channel.Counterparty.ChannelId).BuildIntoResponse res)
  | .channel_MsgAcknowledgement Packet ProofHeight Signer =>
    let res := packetEntries Signer ProofHeight Packet "timeoutTimestamp"
    let rb := (NewFriendlyResponseContentBuilder.WriteAddress Signer).WriteText
      " acknowledges packet:"
    buildPacketResponse env Packet res rb
  | .channel_MsgChannelOpenAck PortId ChannelId CounterpartyChannelId ProofHeight Signer =>
    let res : GenericBackendResponse :=
      [("signer", .str Signer), ("portId", .str PortId), ("channelId", .str ChannelId),
       ("counterPartyChannel", .str CounterpartyChannelId), ("proofHeight", .height ProofHeight)]
    .ok ((((((((NewFriendlyResponseContentBuilder.WriteAddress Signer).WriteText
      " acknowledges open channel for port ").WriteText PortId).WriteText
      " and channel ").WriteText ChannelId).WriteText " with counterparty channel ").WriteText
      CounterpartyChannelId).BuildIntoResponse res)
  | .channel_MsgRecvPacket Packet ProofHeight Signer =>
    let res := packetEntries Signer ProofHeight Packet "timeoutEpochUTC"
    let rb := (NewFriendlyResponseContentBuilder.WriteAddress Signer).WriteText
      " informs receive packet:"
    buildPacketResponse env Packet res rb
  | .channel_MsgTimeout Packet ProofHeight NextSequenceRecv Signer =>
    let res := packetEntries Signer ProofHeight Packet "timeoutEpochUTC" ++
      [("nextSequenceRecv", .num NextSequenceRecv)]
    let rb := (NewFriendlyResponseContentBuilder.WriteAddress Signer).WriteText
      " informs packet timed out:"
    buildPacketResponse env Packet res rb
  | .channel_MsgTimeoutOnClose Packet ProofHeight NextSequenceRecv Signer =>
    let res := packetEntries Signer ProofHeight Packet "timeoutEpochUTC" ++
      [("nextSequenceRecv", .num NextSequenceRecv)]
    let rb := (NewFriendlyResponseContentBuilder.WriteAddress Signer).WriteText
      " informs closing timed out packet:"
    buildPacketResponse env Packet res rb
  | .slashing_MsgUnjail ValidatorAddr =>
    let res : GenericBackendResponse := [("validator", .str ValidatorAddr)]
    .ok (((NewFriendlyResponseContentBuilder.WriteAddress ValidatorAddr).WriteText
      " un-jails").BuildIntoResponse res)
  | .staking_MsgCreateValidator Description Commission MinSelfDelegation DelegatorAddress
      ValidatorAddress Value =>
    let res0 : GenericBackendResponse :=
      [("validator", .str ValidatorAddress), ("delegator", .str DelegatorAddress),
       ("delegate", .coinsToMap [Value]),
       ("commission", .strMap [("rate", Commission.Rate.String),
         ("maxRate", Commission.MaxRate.String),
         ("maxChangeRate", Commission.MaxChangeRate.String)]),
       ("minSelfDelegation", .str (toString MinSelfDelegation))]
    let res := setKey res0 "description" (.strMap (descriptionMap Description))
    .ok ((((((NewFriendlyResponseContentBuilder.WriteAddress DelegatorAddress).WriteText
      " creates validator ").WriteAddress ValidatorAddress).WriteText
      " with delegation ").WriteCoins [Value]
      (getBankDenomsMetadata env [Value])).BuildIntoResponse res)
  | .staking_MsgEditValidator Description ValidatorAddress CommissionRate MinSelfDelegation =>
    let res0 : GenericBackendResponse := [("validator", .str ValidatorAddress)]
    let res1 := setKey res0 "description" (.strMap (descriptionMap Description))
    let res2 := match CommissionRate with
      | some rate => setKey res1 "commission" (.strMap [("rate", rate.String)])
      | none => res1
    let res := match MinSelfDelegation with
      | some d => setKey res2 "minSelfDelegation" (.str (toString d))
      | none => res2
    .ok (((NewFriendlyResponseContentBuilder.WriteAddress ValidatorAddress).WriteText
      " updates validator information").BuildIntoResponse res)
  | .staking_MsgDelegate DelegatorAddress ValidatorAddress Amount =>
    let res : GenericBackendResponse :=
      [("delegator", .str DelegatorAddress), ("validator", .str ValidatorAddress),
       ("amount", .coinsToMap [Amount])]
    .ok ((((((NewFriendlyResponseContentBuilder.WriteAddress DelegatorAddress).WriteText
      " delegates ").WriteCoins [Amount] (getBankDenomsMetadata env [Amount])).WriteText
      " to ").WriteAddress ValidatorAddress).BuildIntoResponse res)
  | .staking_MsgBeginRedelegate DelegatorAddress ValidatorSrcAddress ValidatorDstAddress Amount =>
    let res : GenericBackendResponse :=
      [("delegator", .str DelegatorAddress), ("validatorFrom", .str ValidatorSrcAddress),
       ("validatorTo", .str ValidatorDstAddress), ("amount", .coinsToMap [Amount])]
    .ok ((((((((NewFriendlyResponseContentBuilder.WriteAddress DelegatorAddress).WriteText
      " re-delegates ").WriteCoins [Amount] (getBankDenomsMetadata env [Amount])).WriteText
      " from ").WriteAddress ValidatorSrcAddress).WriteText " to ").WriteAddress
      ValidatorDstAddress).BuildIntoResponse res)
  | .staking_MsgUndelegate DelegatorAddress ValidatorAddress Amount =>
    let res : GenericBackendResponse :=
      [("delegator", .str DelegatorAddress), ("validator", .str ValidatorAddress),
       ("amount", .coinsToMap [Amount])]
    .ok ((((((NewFriendlyResponseContentBuilder.WriteAddress DelegatorAddress).WriteText
      " un-delegates ").WriteCoins [Amount] (getBankDenomsMetadata env [Amount])).WriteText
      " from ").WriteAddress ValidatorAddress).BuildIntoResponse res)
  | .staking_MsgCancelUnbondingDelegation DelegatorAddress ValidatorAddress =>
    let res : GenericBackendResponse :=
      [("delegator", .str DelegatorAddress), ("validator", .str ValidatorAddress)]
    .ok ((((NewFriendlyResponseContentBuilder.WriteAddress DelegatorAddress).WriteText
      " cancels unbonding delegation from ").WriteAddress ValidatorAddress).BuildIntoResponse res)
  | .authz_MsgGrant Granter Grantee Grant_Authorization Grant_Expiration =>
    match Grant_Authorization with
    | none => .panic
    | some authorization =>
      let res0 : GenericBackendResponse :=
        [("granter", .str Granter), ("grantee", .str Grantee),
         ("authorization", .str authorization.TypeUrl)]
      let rb0 := ((((NewFriendlyResponseContentBuilder.WriteAddress Granter).WriteText
        " grants ").WriteText authorization.TypeUrl).WriteText " to ").WriteAddress Grantee
      match Grant_Expiration with
      | some expiration =>
        .ok ((((rb0.WriteText " with expiration ").WriteText expiration.UTCString).WriteText
          " UTC").BuildIntoResponse (setKey res0 "expirationEpochUTC" (.num expiration.Unix)))
      | none => .ok (rb0.BuildIntoResponse res0)
  | .authz_MsgExec Grantee Msgs =>
    let res : GenericBackendResponse := [("grantee", .str Grantee)]
    let rb := (NewFriendlyResponseContentBuilder.WriteAddress Grantee).WriteText
      " executes authorized messages"
    if Msgs.length > 0 then
      match authorizedMessagesContent env (env.ProtoMessageName (.authz_MsgExec Grantee Msgs))
          tx txResponse Msgs with
      | none => .panic
      | some content => .ok (rb.BuildIntoResponse (setKey res "authorized-messages" (.arr content)))
    else .ok (rb.BuildIntoResponse res)
  | .authz_MsgRevoke Granter Grantee MsgTypeUrl =>
    let res : GenericBackendResponse :=
      [("granter", .str Granter), ("grantee", .str Grantee), ("authorization", .str MsgTypeUrl)]
    .ok ((((((NewFriendlyResponseContentBuilder.WriteAddress Granter).WriteText
      " revokes permission ").WriteText MsgTypeUrl).WriteText " from ").WriteAddress
      Grantee).BuildIntoResponse res)
  | .other _ => .err .ErrNotSupportedMessageType
/-- The loop over `msg.Msgs` of the `MsgExec` case (lines 1061-1083):
the entries of `authorizedMessagesContent`, or `none` when a nested call of the
parser panics.  `outerType` is `ProtoMessageName(msg)` of the enclosing
message. -/
def authorizedMessagesContent (env : Env) (outerType : String) (tx : Tx)
    (txResponse : TxResponse) : List AnyMsg → Option (List JVal)
  | [] => some []
  | authorizedMsgAny :: rest =>
    match authorizedMessageContent env outerType tx txResponse authorizedMsgAny with
    | none => none
    | some innerRes =>
      match authorizedMessagesContent env outerType tx txResponse rest with
      | none => none
      | some more => some (innerRes :: more)
/-- One iteration of that loop: the entry `innerRes`. -/
def authorizedMessageContent (env : Env) (outerType : String) (tx : Tx)
    (txResponse : TxResponse) : AnyMsg → Option JVal
  | .mk _ (.error err) =>
    some (.obj [("type", .str outerType),
      ("error", .str (env.ErrorText (.wrap (.plain err) "failed to unpack authorized message")))])
  | .mk _ (.ok cosmosMsg) =>
    match defaultMessageParser env cosmosMsg 0 tx txResponse with
    | .panic => none
    | .err err =>
      some (.obj [("type", .str outerType),
        ("error", .str (env.ErrorText (.wrap err "failed to parse authorized message")))])
    | .ok parsedInnerRes =>
      some (.obj [("type", .str outerType), ("content", parsedInnerRes.toJVal)])
end

/-! ## The default involvers extractor (lines 1196-1388) -/

/-- One hexadecimal digit, lower case. -/
def hexDigit (n : Nat) : Char :=
  if n < 10 then Char.ofNat (48 + n) else Char.ofNat (87 + n)

/-- The library function `hex.EncodeToString`, also the verb `%x` on a byte
slice: two lower-case digits for each byte. -/
def hexEncodeToString (bytes : List Nat) : String :=
  String.mk (bytes.flatMap (fun b => [hexDigit (b % 256 / 16), hexDigit (b % 16)]))

/-- The library function `strings.ToUpper`, character by character. -/
def ToUpper (s : String) : String := String.mk (s.toList.map Char.toUpper)

/-- Lines 1379-1388. -/
def getInvolversInIbcPacketInfo (env : Env) (packet : Packet) : MessageInvolversResult :=
  let res : MessageInvolversResult := []
  match env.UnmarshalPacketData packet.Data with
  | .ok data => res.Add MessageInvolvers [data.Sender, data.Receiver]
  | .error _ => res

/-- The scan of the events in the fallback branch (lines 1368-1374): every
attribute value that the address classifier accepts is added. -/
def involversOfEvents (env : Env) (events : List Event) (res : MessageInvolversResult) :
    MessageInvolversResult :=
  events.foldl (fun acc event =>
    event.Attributes.foldl (fun acc2 attr =>
      if env.IsAccountAddr attr.Value then acc2.Add MessageInvolvers [attr.Value]
      else acc2) acc) res

mutual
/-- The method `defaultMessageInvolversExtractor`. -/
def defaultMessageInvolversExtractor (env : Env) (msg : Msg) (tx : Tx) (tmTx : TmTx) :
    Outcome MessageInvolversResult :=
  let res : MessageInvolversResult := []
  match msg with
  | .bank_MsgSend FromAddress ToAddress _ =>
    .ok (res.Add MessageInvolvers [FromAddress, ToAddress])
  | .bank_MsgMultiSend Inputs Outputs =>
    let res1 := Inputs.foldl (fun acc input => acc.Add MessageInvolvers [input.Address]) res
    .ok (Outputs.foldl (fun acc output => acc.Add MessageInvolvers [output.Address]) res1)
  | .crisis_MsgVerifyInvariant Sender _ _ => .ok (res.Add MessageInvolvers [Sender])
  | .dist_MsgSetWithdrawAddress DelegatorAddress WithdrawAddress =>
    .ok (res.Add MessageInvolvers [DelegatorAddress, WithdrawAddress])
  | .dist_MsgWithdrawDelegatorReward DelegatorAddress ValidatorAddress =>
    .ok (res.Add MessageInvolvers [DelegatorAddress, ValidatorAddress])
  | .dist_MsgWithdrawValidatorCommission ValidatorAddress =>
    .ok (res.Add MessageInvolvers [ValidatorAddress])
  | .dist_MsgFundCommunityPool _ Depositor => .ok (res.Add MessageInvolvers [Depositor])
  | .evidence_MsgSubmitEvidence Submitter => .ok (res.Add MessageInvolvers [Submitter])
  | .govv1_MsgSubmitProposal _ _ Proposer _ => .ok (res.Add MessageInvolvers [Proposer])
  | .govlegacy_MsgSubmitProposal _ _ Proposer => .ok (res.Add MessageInvolvers [Proposer])
  | .govv1_MsgDeposit _ Depositor _ => .ok (res.Add MessageInvolvers [Depositor])
  | .govlegacy_MsgDeposit _ Depositor _ => .ok (res.Add MessageInvolvers [Depositor])
  | .govv1_MsgVote _ Voter _ _ => .ok (res.Add MessageInvolvers [Voter])
  | .govlegacy_MsgVote _ Voter _ => .ok (res.Add MessageInvolvers [Voter])
  | .govv1_MsgVoteWeighted _ Voter _ => .ok (res.Add MessageInvolvers [Voter])
  | .govlegacy_MsgVoteWeighted _ Voter => .ok (res.Add MessageInvolvers [Voter])
  | .ibc_MsgCreateClient Signer => .ok (res.Add MessageInvolvers [Signer])
  | .ibc_MsgUpdateClient _ Signer => .ok (res.Add MessageInvolvers [Signer])
  | .ibc_MsgUpgradeClient _ Signer => .ok (res.Add MessageInvolvers [Signer])
  | .ibc_MsgSubmitMisbehaviour _ Signer => .ok (res.Add MessageInvolvers [Signer])
  | .ibctransfer_MsgTransfer _ _ _ Sender Receiver _ _ _ =>
    .ok (res.Add MessageInvolvers [Sender, Receiver])
  | .connection_MsgConnectionOpenAck _ _ _ _ Signer => .ok (res.Add MessageInvolvers [Signer])
  | .connection_MsgConnectionOpenInit _ _ _ Signer => .ok (res.Add MessageInvolvers [Signer])
  | .connection_MsgConnectionOpenConfirm _ _ Signer => .ok (res.Add MessageInvolvers [Signer])
  | .connection_MsgConnectionOpenTry _ _ _ _ _ Signer => .ok (res.Add MessageInvolvers [Signer])
  | .channel_MsgChannelOpenInit _ _ Signer => .ok (res.Add MessageInvolvers [Signer])
  | .channel_MsgChannelOpenConfirm _ _ _ Signer => .ok (res.Add MessageInvolvers [Signer])
  | .channel_MsgChannelOpenTry _ _ _ Signer => .ok (res.Add MessageInvolvers [Signer])
  | .channel_MsgAcknowledgement Packet _ Signer =>
    .ok ((res.Add MessageInvolvers [Signer]).Merge (getInvolversInIbcPacketInfo env Packet))
  | .channel_MsgChannelOpenAck _ _ _ _ Signer => .ok (res.Add MessageInvolvers [Signer])
  | .channel_MsgRecvPacket Packet _ Signer =>
    .ok ((res.Add MessageInvolvers [Signer]).Merge (getInvolversInIbcPacketInfo env Packet))
  | .channel_MsgTimeout Packet _ _ Signer =>
    .ok ((res.Add MessageInvolvers [Signer]).Merge (getInvolversInIbcPacketInfo env Packet))
  | .channel_MsgTimeoutOnClose Packet _ _ Signer =>
    .ok ((res.Add MessageInvolvers [Signer]).Merge (getInvolversInIbcPacketInfo env Packet))
  | .slashing_MsgUnjail ValidatorAddr => .ok (res.Add MessageInvolvers [ValidatorAddr])
  | .staking_MsgCreateValidator _ _ _ DelegatorAddress ValidatorAddress _ =>
    .ok (res.Add MessageInvolvers [DelegatorAddress, ValidatorAddress])
  | .staking_MsgEditValidator _ ValidatorAddress _ _ =>
    .ok (res.Add MessageInvolvers [ValidatorAddress])
  | .staking_MsgDelegate DelegatorAddress ValidatorAddress _ =>
    .ok (res.Add MessageInvolvers [DelegatorAddress, ValidatorAddress])
  | .staking_MsgBeginRedelegate DelegatorAddress ValidatorSrcAddress ValidatorDstAddress _ =>
    .ok (res.Add MessageInvolvers [DelegatorAddress, ValidatorSrcAddress, ValidatorDstAddress])
  | .staking_MsgUndelegate DelegatorAddress ValidatorAddress _ =>
    .ok (res.Add MessageInvolvers [DelegatorAddress, ValidatorAddress])
  | .staking_MsgCancelUnbondingDelegation DelegatorAddress ValidatorAddress =>
    .ok (res.Add MessageInvolvers [DelegatorAddress, ValidatorAddress])
  | .authz_MsgGrant Granter Grantee _ _ => .ok (res.Add MessageInvolvers [Granter, Grantee])
  | .authz_MsgExec Grantee Msgs =>
    let res1 := res.Add MessageInvolvers [Grantee]
    if Msgs.length > 0 then
      match mergeAuthorizedInvolvers env tx tmTx Msgs res1 with
      | none => .panic
      | some res2 => .ok res2
    else .ok res1
  | .authz_MsgRevoke Granter Grantee _ => .ok (res.Add MessageInvolvers [Granter, Grantee])
  | .other goType =>
    match env.ClientTx tmTx.Hash with
    | .error errTxResult =>
      .err (.status .Internal
        ("failed to get tx result for tx " ++ hexEncodeToString tmTx.Hash ++
          " when processing msg " ++ env.ProtoMessageName (.other goType) ++ ": " ++ errTxResult))
    | .ok none => .panic
    | .ok (some resTxResult) => .ok (involversOfEvents env resTxResult.TxResult_Events res)
/-- The loop over `msg.Msgs` of the `MsgExec` case (lines 1336-1348): the
merged result, or `none` when a nested call panics. -/
def mergeAuthorizedInvolvers (env : Env) (tx : Tx) (tmTx : TmTx) :
    List AnyMsg → MessageInvolversResult → Option MessageInvolversResult
  | [], res => some res
  | authorizedMsgAny :: rest, res =>
    match authorizedInvolvers env tx tmTx authorizedMsgAny with
    | none => none
    | some none => mergeAuthorizedInvolvers env tx tmTx rest res
    | some (some resChild) => mergeAuthorizedInvolvers env tx tmTx rest (res.Merge resChild)
/-- One iteration of that loop: `none` when the nested call panics,
`some none` when the iteration ends in `continue`, and the result of the nested
call otherwise. -/
def authorizedInvolvers (env : Env) (tx : Tx) (tmTx : TmTx) :
    AnyMsg → Option (Option MessageInvolversResult)
  | .mk _ (.error _) => some none
  | .mk _ (.ok cosmosMsg) =>
    match defaultMessageInvolversExtractor env cosmosMsg tx tmTx with
    | .panic => none
    | .err _ => some none
    | .ok resChild => some (some resChild)
end

/-! ## The block-range scan (lines 35-155) -/

/-- A query that `GetTransactionsInBlockRange` itself sends to a collaborator
for the range: the chain status, or the block of a height. -/
inductive Call where
  | Status
  | GetBlockWithTxs (height : Int)
  deriving DecidableEq, Repr

/-- The heights of the block fetches in a list of calls, in order. -/
def fetchedHeights (calls : List Call) : List Int :=
  calls.filterMap (fun c => match c with
    | .GetBlockWithTxs h => some h
    | .Status => none)

/-- The map appended to `txsInfo` for one transaction (lines 127-132);
`involvers` is absent while the variable is still nil. -/
structure TxInfo where
  hash : String
  type : String
  involvers : Option MessageInvolversResult
  messagesType : List String
  deriving DecidableEq, Repr

/-- The map stored in `txsByBlock` for one height (lines 139-142). -/
structure BlockInfo where
  timeEpochUTC : Int
  txs : List TxInfo
  deriving DecidableEq, Repr

/-- The response of `GetTransactionsInBlockRange`; an optional key of the map
is an optional field. -/
structure BlockRangeResponse where
  skippedBlockRange : Option (Int × Int)
  chainId : String
  blocks : List (Int × BlockInfo)
  missingBlocks : Option (List Int)
  errorBlocks : Option (List Int)
  deriving DecidableEq, Repr

/-- The variables of the message loop of one transaction. -/
structure MessageLoopState where
  involvers : Option MessageInvolversResult
  messagesType : List String
  errorBlocks : Tracker
  deriving DecidableEq, Repr

/-- The extractor chosen for a message (lines 114-119): the entry of
`m.messageInvolversExtractors` under the proto name when there is one, the
default extractor otherwise. -/
def messageInvolversExtractorFor (env : Env) (cosmosMsg : Msg) : MessageInvolversExtractor :=
  match env.messageInvolversExtractors (env.ProtoMessageName cosmosMsg) with
  | some extractor => extractor
  | none => defaultMessageInvolversExtractor env

/-- The loop over `tx.Body.Messages` (lines 103-125); `none` when an extractor
panics.  A message that fails to unpack marks the height and ends the loop. -/
def messageLoop (env : Env) (height : Int) (tx : Tx) (tmTx : TmTx) :
    List AnyMsg → MessageLoopState → Option MessageLoopState
  | [], st => some st
  | msg :: rest, st =>
    let st1 := { st with messagesType := st.messagesType ++ [msg.TypeUrl] }
    match msg.UnpackAny with
    | .error _ => some { st1 with errorBlocks := st1.errorBlocks.Add height }
    | .ok cosmosMsg =>
      match messageInvolversExtractorFor env cosmosMsg cosmosMsg tx tmTx with
      | .panic => none
      | .err _ => messageLoop env height tx tmTx rest st1
      | .ok resInvolvers =>
        messageLoop env height tx tmTx rest { st1 with involvers := some (env.Finalize resInvolvers) }

/-- The hash and the type of a transaction (lines 83-98). -/
def txHashAndType (env : Env) (tx : Tx) (tmTx : TmTx) : String × String :=
  let txHash := ToUpper (hexEncodeToString tmTx.Hash)
  let txType := "cosmos"
  if env.IsEvmTx tx then
    match env.ClientTx tmTx.Hash with
    | .error _ => (txHash, txType)
    | .ok none => (txHash, txType)
    | .ok (some optionalTxResult) =>
      match env.GetEvmTransactionHashFromEvent optionalTxResult.TxResult_Events with
      | some evmTxHash => (env.NormalizeTransactionHash evmTxHash false, "evm")
      | none => (txHash, txType)
  else (txHash, txType)

/-- The loop over the transactions of a block (lines 80-133).  The index runs
over `resBlock.Block.Data.Txs` and reads `resBlock.Txs` at the same index; the
result is `none` when that index is out of range or an extractor panics. -/
def txLoop (env : Env) (height : Int) (Txs : List Tx) :
    List TmTx → Nat → List TxInfo → Tracker → Option (List TxInfo × Tracker)
  | [], _, txsInfo, errorBlocks => some (txsInfo, errorBlocks)
  | tmTx :: rest, txIdx, txsInfo, errorBlocks =>
    match Txs[txIdx]? with
    | none => none
    | some tx =>
      let ht := txHashAndType env tx tmTx
      match messageLoop env height tx tmTx tx.Body_Messages ⟨none, [], errorBlocks⟩ with
      | none => none
      | some st =>
        txLoop env height Txs rest (txIdx + 1)
          (txsInfo ++ [⟨ht.1, ht.2, st.involvers, st.messagesType⟩]) st.errorBlocks

/-- The variables of the height loop, with the calls sent so far. -/
structure ScanState where
  calls : List Call
  missingBlocks : Tracker
  errorBlocks : Tracker
  txsByBlock : List (Int × BlockInfo)
  deriving DecidableEq, Repr

/-- Map assignment `txsByBlock[height] = info`. -/
def setBlock (m : List (Int × BlockInfo)) (height : Int) (info : BlockInfo) :
    List (Int × BlockInfo) :=
  if m.any (fun kv => kv.1 == height) then
    m.map (fun kv => if kv.1 == height then (height, info) else kv)
  else m ++ [(height, info)]

/-- The body of the height loop (lines 65-142); `none` when it panics. -/
def scanHeight (env : Env) (height : Int) (st : ScanState) : Option ScanState :=
  let st1 := { st with calls := st.calls ++ [Call.GetBlockWithTxs height] }
  match env.GetBlockWithTxs height with
  | .error _ => some { st1 with missingBlocks := st1.missingBlocks.Add height }
  | .ok none => some { st1 with missingBlocks := st1.missingBlocks.Add height }
  | .ok (some resBlock) =>
    match txLoop env height resBlock.Txs resBlock.Block_Data_Txs 0 [] st1.errorBlocks with
    | none => none
    | some r =>
      if r.2.Has height then some { st1 with errorBlocks := r.2 }
      else
        some { st1 with
          errorBlocks := r.2
          txsByBlock := setBlock st1.txsByBlock height ⟨resBlock.Block_Header_Time_Unix, r.1⟩ }

/-- How the height loop stands after a bounded number of iterations. -/
inductive LoopResult where
  | exited (st : ScanState)
  | panicked (st : ScanState)
  | outOfFuel (height : Int) (st : ScanState)
  deriving DecidableEq, Repr

/-- The loop `for height := from; height <= to; height++` (lines 64-143), run
for at most `fuel` iterations.  The increment is the `int64` increment of Go,
which wraps around. -/
def heightLoop (env : Env) (toHeightIncluded : Int) : Nat → Int → ScanState → LoopResult
  | 0, height, st =>
    if height ≤ toHeightIncluded then .outOfFuel height st else .exited st
  | fuel + 1, height, st =>
    if height ≤ toHeightIncluded then
      match scanHeight env height st with
      | none => .panicked { st with calls := st.calls ++ [Call.GetBlockWithTxs height] }
      | some st1 => heightLoop env toHeightIncluded fuel (wrapInt64 (height + 1)) st1
    else .exited st

/-- How a call of `GetTransactionsInBlockRange` stands: it has returned (or
panicked) after the listed calls, or it is still inside the height loop after
the allowed number of iterations. -/
inductive Run where
  | done (calls : List Call) (result : Outcome BlockRangeResponse)
  | running (height : Int) (st : ScanState)
  deriving Repr

/-- The page cap `maxPageSize` (line 45). -/
def maxPageSize : Int := 100

/-- The value of `toHeightIncluded` after lines 36-38. -/
def defaultToHeight (fromHeightIncluded toHeightIncluded : Int) : Int :=
  if toHeightIncluded = 0 then fromHeightIncluded else toHeightIncluded

/-- The condition of line 47, on `int64`. -/
def exceedsPage (fromHeightIncluded toHeightIncluded : Int) : Bool :=
  decide (wrapInt64 (wrapInt64 (toHeightIncluded - fromHeightIncluded) + 1) > maxPageSize)

/-- The last height of the scan after lines 47-51. -/
def clampedToHeight (fromHeightIncluded toHeightIncluded : Int) : Int :=
  if exceedsPage fromHeightIncluded toHeightIncluded then
    wrapInt64 (wrapInt64 (fromHeightIncluded + maxPageSize) - 1)
  else toHeightIncluded

/-- The entry `skippedBlockRange` written on line 50, if any. -/
def skippedBlockRange (fromHeightIncluded toHeightIncluded : Int) : Option (Int × Int) :=
  if exceedsPage fromHeightIncluded toHeightIncluded then
    some (wrapInt64 (clampedToHeight fromHeightIncluded toHeightIncluded + 1), toHeightIncluded)
  else none

/-- The response assembled on lines 145-154 from the state of the loop. -/
def buildResponse (skipped : Option (Int × Int)) (chainId : String) (st : ScanState) :
    BlockRangeResponse :=
  { skippedBlockRange := skipped
    chainId := chainId
    blocks := st.txsByBlock
    missingBlocks :=
      if st.missingBlocks.length > 0 then some st.missingBlocks.ToSortedSlice else none
    errorBlocks :=
      if st.errorBlocks.length > 0 then some st.errorBlocks.ToSortedSlice else none }

/-- The method `GetTransactionsInBlockRange`, its height loop run for at most
`fuel` iterations. -/
def GetTransactionsInBlockRange (env : Env) (fuel : Nat)
    (fromHeightIncluded toHeightIncluded : Int) : Run :=
  let toHeightIncluded := defaultToHeight fromHeightIncluded toHeightIncluded
  if fromHeightIncluded ≤ 0 ∨ toHeightIncluded ≤ 0 ∨ fromHeightIncluded > toHeightIncluded then
    .done [] (.err .ErrBadRequest)
  else
    let skipped := skippedBlockRange fromHeightIncluded toHeightIncluded
    let toHeightClamped := clampedToHeight fromHeightIncluded toHeightIncluded
    match env.Status with
    | .error err => .done [Call.Status] (.err (.status .Internal err))
    | .ok network =>
      match heightLoop env toHeightClamped fuel fromHeightIncluded ⟨[Call.Status], [], [], []⟩ with
      | .outOfFuel height st => .running height st
      | .panicked st => .done st.calls .panic
      | .exited st => .done st.calls (.ok (buildResponse skipped network st))

/-! ## The single-transaction decoder (lines 157-246) -/

/-- A character of the class `[\da-fA-F]`. -/
def isHexChar (c : Char) : Bool :=
  (decide ('0' ≤ c) && decide (c ≤ '9')) || (decide ('a' ≤ c) && decide (c ≤ 'f')) ||
    (decide ('A' ≤ c) && decide (c ≤ 'F'))

/-- A match of `[\da-fA-F]{64}` against a whole list of characters. -/
def isHex64 (cs : List Char) : Bool := decide (cs.length = 64) && cs.all isHexChar

/-- The method `patternTxHash.MatchString` for the pattern of line 33,
`^(0[xX])?[\da-fA-F]{64}$`. -/
def patternTxHash (hashStr : String) : Bool :=
  isHex64 hashStr.toList ||
    (match hashStr.toList with
     | c0 :: c1 :: rest => c0 == '0' && (c1 == 'x' || c1 == 'X') && isHex64 rest
     | _ => false)

/-- The map `msgInfo` of one message (lines 196-223). -/
structure MsgInfo where
  idx : Nat
  type : String
  content : Option MessageContent
  contentError : Option String
  protoContent : Option JVal
  protoContentError : Option String

/-- The response of `GetTransactionByHash` (lines 226-243). -/
structure TxByHashResponse where
  height : Int
  hash : String
  msgs : List MsgInfo
  code : Nat
  success : Bool
  gasLimit : Int
  gasUsed : Int
  events : JVal
  memo : Option String

/-- How a call of `GetTransactionByHash` ends: with the response the method
builds, with what the interceptor handed back, with an error, or with a
panic. -/
inductive TxByHashResult where
  | response (r : TxByHashResponse)
  | intercepted (response : Option GenericBackendResponse) (err : Option GoError)
  | err (e : GoError)
  | panic

/-- The parser chosen for a proto type name (lines 202-207): the entry of
`m.messageParsers` when there is one, the default parser otherwise. -/
def messageParserFor (env : Env) (protoType : String) : MessageParser :=
  match env.messageParsers protoType with
  | some customParser => customParser
  | none => defaultMessageParser env

/-- The entry `msgInfo` after the parser and `FromAnyToJsonMap` have run
(lines 196-223), for a parser that returned; `none` when the parser panicked. -/
def buildMsgInfo (env : Env) (msgIdx : Nat) (msg : AnyMsg) (protoType : String)
    (parsed : Outcome MessageContent) : Option MsgInfo :=
  let proto := env.FromAnyToJsonMap msg
  let protoContent := match proto with
    | .ok msgContent => some msgContent
    | .error _ => none
  let protoContentError := match proto with
    | .ok _ => none
    | .error err => some err
  match parsed with
  | .panic => none
  | .err err => some ⟨msgIdx, protoType, none, some (env.ErrorText err), protoContent, protoContentError⟩
  | .ok parsedContent => some ⟨msgIdx, protoType, some parsedContent, none, protoContent, protoContentError⟩

/-- The loop over `tx.Body.Messages` (lines 186-224), from index `msgIdx` on:
the entries appended to `msgsInfo`, the error of line 191 when a message fails
to unpack, or a panic of a parser. -/
def msgsLoop (env : Env) (tx : Tx) (txRes : TxResponse) : List AnyMsg → Nat → Outcome (List MsgInfo)
  | [], _ => .ok []
  | msg :: rest, msgIdx =>
    match msg.UnpackAny with
    | .error err => .err (.status .Internal (env.ErrorText (.wrap (.plain err) "failed to unpack message")))
    | .ok cosmosMsg =>
      let protoType := env.ProtoMessageName cosmosMsg
      match buildMsgInfo env msgIdx msg protoType
          (messageParserFor env protoType cosmosMsg msgIdx tx txRes) with
      | none => .panic
      | some msgInfo =>
        match msgsLoop env tx txRes rest (msgIdx + 1) with
        | .ok more => .ok (msgInfo :: more)
        | .err e => .err e
        | .panic => .panic

/-- What the interceptor decides (lines 162-167): `some` when the call is
intercepted. -/
def runInterceptor (env : Env) (hashStr : String) : Option Intercepted :=
  match env.interceptor with
  | none => none
  | some interceptor =>
    let r := interceptor hashStr
    if r.intercepted then some r else none

/-- The method `GetTransactionByHash`. -/
def GetTransactionByHash (env : Env) (hashStr : String) : TxByHashResult :=
  if !patternTxHash hashStr then .err .ErrBadRequest
  else
    match runInterceptor env hashStr with
    | some r => .intercepted r.response r.err
    | none =>
      let hash := env.NormalizeTransactionHash hashStr true
      if hash.length < 2 then .panic
      else
        match env.GetTx (hash.drop 2) with
        | .error err => .err (.status .Internal err)
        | .ok none => .err (.status .NotFound "transaction not found")
        | .ok (some res) =>
          let tx := res.Tx
          let txRes := res.TxResponse
          let txEvents := env.ConvertTxEvent txRes.Events
          match msgsLoop env tx txRes tx.Body_Messages 0 with
          | .err e => .err e
          | .panic => .panic
          | .ok msgsInfo =>
            .response
              { height := txRes.Height
                hash := txRes.TxHash
                msgs := msgsInfo
                code := txRes.Code
                success := decide (txRes.Code = 0)
                gasLimit := txRes.GasWanted
                gasUsed := txRes.GasUsed
                events := txEvents
                memo := if tx.Body_Memo.length > 0 then some tx.Body_Memo else none }

/-! ## Notions used to state the properties of the scan -/

/-- The block of a height, when the fetch succeeds and returns a block. -/
def fetchedBlock (env : Env) (h : Int) : Option GetBlockWithTxsResponse :=
  match env.GetBlockWithTxs h with
  | .ok (some b) => some b
  | .ok none => none
  | .error _ => none

/-- A message that `UnpackAny` rejects. -/
def unpackFails (m : AnyMsg) : Bool :=
  match m.UnpackAny with
  | .error _ => true
  | .ok _ => false

/-- The transactions of a block that the loop of lines 80-133 visits: the
decoded transactions at the indices of the raw ones. -/
def GetBlockWithTxsResponse.transactions (b : GetBlockWithTxsResponse) : List Tx :=
  b.Txs.take b.Block_Data_Txs.length

/-- Some message of some transaction of the block fails to unpack. -/
def hasUnpackFailure (b : GetBlockWithTxsResponse) : Bool :=
  b.transactions.any (fun tx => tx.Body_Messages.any unpackFails)

/-- The heights `lo, lo+1, ..., hi`. -/
def heightRange (lo hi : Int) : List Int :=
  (List.range (hi + 1 - lo).toNat).map (fun (i : Nat) => lo + (i : Int))

/-- The body of the height loop run over a list of heights. -/
def scanHeights (env : Env) : List Int → ScanState → Option ScanState
  | [], st => some st
  | h :: rest, st =>
    match scanHeight env h st with
    | none => none
    | some st1 => scanHeights env rest st1

/-- The heights reported under `missingBlocks`. -/
def BlockRangeResponse.missing (res : BlockRangeResponse) : List Int := res.missingBlocks.getD []

/-- The heights reported under `errorBlocks`. -/
def BlockRangeResponse.errors (res : BlockRangeResponse) : List Int := res.errorBlocks.getD []

/-- The keys of `blocks`. -/
def BlockRangeResponse.heights (res : BlockRangeResponse) : List Int := res.blocks.map Prod.fst

/-- The last height of the scan of a request. -/
def lastHeight (fromHeightIncluded toHeightIncluded : Int) : Int :=
  clampedToHeight fromHeightIncluded (defaultToHeight fromHeightIncluded toHeightIncluded)

/-! ## Sample data -/

/-- One coin added to a list sorted by denomination: its amount is added to
the coin of its denomination, or the coin is put in its place. -/
def sampleAddCoin (c : Coin) : List Coin → List Coin
  | [] => [c]
  | d :: rest =>
    if c.Denom = d.Denom then ⟨d.Denom, d.Amount + c.Amount⟩ :: rest
    else if stringLt c.Denom d.Denom then c :: d :: rest
    else d :: sampleAddCoin c rest

/-- The method `sdk.Coins.Add` on the sample backend: the call panics when one
of the two lists is not sorted; the sum of two sorted lists adds up the amounts
of each denomination and drops the coins of amount zero. -/
def sampleCoinsAdd (coins coinsB : List Coin) : Option (List Coin) :=
  if !Coins.isSorted coins || !Coins.isSorted coinsB then none
  else some ((coinsB.foldl (fun acc c => sampleAddCoin c acc) coins).filter
    (fun c => decide (c.Amount ≠ 0)))

/-- The proto message names of the message types, as the codec registers
them; a message of another type is named by its own type. -/
def sampleProtoMessageName : Msg → String
  | .bank_MsgSend _ _ _ => "cosmos.bank.v1beta1.MsgSend"
  | .bank_MsgMultiSend _ _ => "cosmos.bank.v1beta1.MsgMultiSend"
  | .crisis_MsgVerifyInvariant _ _ _ => "cosmos.crisis.v1beta1.MsgVerifyInvariant"
  | .dist_MsgSetWithdrawAddress _ _ => "cosmos.distribution.v1beta1.MsgSetWithdrawAddress"
  | .dist_MsgWithdrawDelegatorReward _ _ => "cosmos.distribution.v1beta1.MsgWithdrawDelegatorReward"
  | .dist_MsgWithdrawValidatorCommission _ =>
    "cosmos.distribution.v1beta1.MsgWithdrawValidatorCommission"
  | .dist_MsgFundCommunityPool _ _ => "cosmos.distribution.v1beta1.MsgFundCommunityPool"
  | .evidence_MsgSubmitEvidence _ => "cosmos.evidence.v1beta1.MsgSubmitEvidence"
  | .govv1_MsgSubmitProposal _ _ _ _ => "cosmos.gov.v1.MsgSubmitProposal"
  | .govlegacy_MsgSubmitProposal _ _ _ => "cosmos.gov.v1beta1.MsgSubmitProposal"
  | .govv1_MsgDeposit _ _ _ => "cosmos.gov.v1.MsgDeposit"
  | .govlegacy_MsgDeposit _ _ _ => "cosmos.gov.v1beta1.MsgDeposit"
  | .govv1_MsgVote _ _ _ _ => "cosmos.gov.v1.MsgVote"
  | .govlegacy_MsgVote _ _ _ => "cosmos.gov.v1beta1.MsgVote"
  | .govv1_MsgVoteWeighted _ _ _ => "cosmos.gov.v1.MsgVoteWeighted"
  | .govlegacy_MsgVoteWeighted _ _ => "cosmos.gov.v1beta1.MsgVoteWeighted"
  | .ibc_MsgCreateClient _ => "ibc.core.client.v1.MsgCreateClient"
  | .ibc_MsgUpdateClient _ _ => "ibc.core.client.v1.MsgUpdateClient"
  | .ibc_MsgUpgradeClient _ _ => "ibc.core.client.v1.MsgUpgradeClient"
  | .ibc_MsgSubmitMisbehaviour _ _ => "ibc.core.client.v1.MsgSubmitMisbehaviour"
  | .ibctransfer_MsgTransfer _ _ _ _ _ _ _ _ => "ibc.applications.transfer.v1.MsgTransfer"
  | .connection_MsgConnectionOpenAck _ _ _ _ _ => "ibc.core.connection.v1.MsgConnectionOpenAck"
  | .connection_MsgConnectionOpenInit _ _ _ _ => "ibc.core.connection.v1.MsgConnectionOpenInit"
  | .connection_MsgConnectionOpenConfirm _ _ _ =>
    "ibc.core.connection.v1.MsgConnectionOpenConfirm"
  | .connection_MsgConnectionOpenTry _ _ _ _ _ _ => "ibc.core.connection.v1.MsgConnectionOpenTry"
  | .channel_MsgChannelOpenInit _ _ _ => "ibc.core.channel.v1.MsgChannelOpenInit"
  | .channel_MsgChannelOpenConfirm _ _ _ _ => "ibc.core.channel.v1.MsgChannelOpenConfirm"
  | .channel_MsgChannelOpenTry _ _ _ _ => "ibc.core.channel.v1.MsgChannelOpenTry"
  | .channel_MsgAcknowledgement _ _ _ => "ibc.core.channel.v1.MsgAcknowledgement"
  | .channel_MsgChannelOpenAck _ _ _ _ _ => "ibc.core.channel.v1.MsgChannelOpenAck"
  | .channel_MsgRecvPacket _ _ _ => "ibc.core.channel.v1.MsgRecvPacket"
  | .channel_MsgTimeout _ _ _ _ => "ibc.core.channel.v1.MsgTimeout"
  | .channel_MsgTimeoutOnClose _ _ _ _ => "ibc.core.channel.v1.MsgTimeoutOnClose"
  | .slashing_MsgUnjail _ => "cosmos.slashing.v1beta1.MsgUnjail"
  | .staking_MsgCreateValidator _ _ _ _ _ _ => "cosmos.staking.v1beta1.MsgCreateValidator"
  | .staking_MsgEditValidator _ _ _ _ => "cosmos.staking.v1beta1.MsgEditValidator"
  | .staking_MsgDelegate _ _ _ => "cosmos.staking.v1beta1.MsgDelegate"
  | .staking_MsgBeginRedelegate _ _ _ _ => "cosmos.staking.v1beta1.MsgBeginRedelegate"
  | .staking_MsgUndelegate _ _ _ => "cosmos.staking.v1beta1.MsgUndelegate"
  | .staking_MsgCancelUnbondingDelegation _ _ =>
    "cosmos.staking.v1beta1.MsgCancelUnbondingDelegation"
  | .authz_MsgGrant _ _ _ _ => "cosmos.authz.v1beta1.MsgGrant"
  | .authz_MsgExec _ _ => "cosmos.authz.v1beta1.MsgExec"
  | .authz_MsgRevoke _ _ _ => "cosmos.authz.v1beta1.MsgRevoke"
  | .other goType => goType

/-- The text of a Go error, for the sample backends. -/
def sampleErrorText : GoError → String
  | .ErrBadRequest => "bad request"
  | .ErrBadPageNo => "bad page number"
  | .ErrNotSupportedMessageType => "not supported message type"
  | .status .Internal msg => "rpc error: code = Internal desc = " ++ msg
  | .status .NotFound msg => "rpc error: code = NotFound desc = " ++ msg
  | .wrap cause description => description ++ ": " ++ sampleErrorText cause
  | .plain msg => msg

/-- A backend without blocks, transactions, metadata, interceptor or custom
handlers; the samples below override the fields they need. -/
def sampleEnv : Env :=
  { Status := .ok "sample-1"
    GetBlockWithTxs := fun _ => .ok none
    ClientTx := fun _ => .error "tx result unavailable"
    GetTx := fun _ => .ok none
    DenomMetadata := fun _ => .error "metadata unavailable"
    interceptor := none
    messageParsers := fun _ => none
    messageInvolversExtractors := fun _ => none
    IsAccountAddr := fun _ => false
    ProtoMessageName := sampleProtoMessageName
    IsEvmTx := fun _ => false
    GetEvmTransactionHashFromEvent := fun _ => none
    NormalizeTransactionHash := fun hash _ => "0x" ++ hash
    FromAnyToJsonMap := fun any => .ok (JVal.obj [("@type", JVal.str any.TypeUrl)])
    ConvertTxEvent := fun _ => JVal.arr []
    GetIncomingIBCCoin := fun _ _ _ _ _ _ => .error "unknown denomination"
    UnmarshalPacketData := fun data =>
      if data = [123, 125] then .ok ⟨"", "", "", "", ""⟩ else .error "invalid payload"
    CoinsAdd := sampleCoinsAdd
    Finalize := fun res => res
    ErrorText := sampleErrorText }

/-- A bank transfer, packed. -/
def sampleSendAny : AnyMsg :=
  .mk "/cosmos.bank.v1beta1.MsgSend" (.ok (.bank_MsgSend "rax1alice" "rax1bob" [⟨"urax", 5⟩]))

/-- An `Any` that the codec cannot unpack. -/
def sampleBrokenAny : AnyMsg := .mk "/unregistered.Msg" (.error "no concrete type registered")

/-- A block with one transfer transaction. -/
def sampleGoodBlock : GetBlockWithTxsResponse :=
  { Txs := [⟨[sampleSendAny], ""⟩]
    Block_Data_Txs := [⟨[10, 1], [171, 205]⟩]
    Block_Header_Time_Unix := 1700000005 }

/-- A block whose only transaction carries a message that fails to unpack. -/
def sampleBrokenBlock : GetBlockWithTxsResponse :=
  { Txs := [⟨[sampleBrokenAny], ""⟩]
    Block_Data_Txs := [⟨[10, 2], [18, 52]⟩]
    Block_Header_Time_Unix := 1700000006 }

/-- A chain where height 5 holds a good block, height 6 a block with a message
that fails to unpack, and the fetch of every other height fails. -/
def sampleScanEnv : Env :=
  { sampleEnv with
    GetBlockWithTxs := fun h =>
      if h = 5 then .ok (some sampleGoodBlock)
      else if h = 6 then .ok (some sampleBrokenBlock)
      else .error "block unavailable" }

/-- The calls of the scan of heights 5 to 7 on `sampleScanEnv`. -/
def sampleScanCalls : List Call :=
  [Call.Status, Call.GetBlockWithTxs 5, Call.GetBlockWithTxs 6, Call.GetBlockWithTxs 7]

/-- The response of the scan of heights 5 to 7 on `sampleScanEnv`. -/
def sampleScanResponse : BlockRangeResponse :=
  { skippedBlockRange := none
    chainId := "sample-1"
    blocks := [(5, ⟨1700000005, [⟨"ABCD", "cosmos",
      some [("involvers", "rax1alice"), ("involvers", "rax1bob")],
      ["/cosmos.bank.v1beta1.MsgSend"]⟩]⟩)]
    missingBlocks := some [7]
    errorBlocks := some [6] }

/-! ## Notions used to state the properties of the decoder -/

/-- Every message of the list unpacks. -/
def allUnpack (msgs : List AnyMsg) : Bool := msgs.all (fun m => !unpackFails m)

/-- The parser chosen for the message at index `msgIdx` panics on it. -/
def parserPanics (env : Env) (tx : Tx) (txRes : TxResponse) (msgIdx : Nat) (m : AnyMsg) : Bool :=
  match m.UnpackAny with
  | .error _ => false
  | .ok cosmosMsg =>
    match messageParserFor env (env.ProtoMessageName cosmosMsg) cosmosMsg msgIdx tx txRes with
    | .panic => true
    | .ok _ => false
    | .err _ => false

/-- Some message of the list, counted from index `msgIdx`, makes its parser
panic. -/
def anyParserPanics (env : Env) (tx : Tx) (txRes : TxResponse) : List AnyMsg → Nat → Bool
  | [], _ => false
  | m :: rest, msgIdx =>
    parserPanics env tx txRes msgIdx m || anyParserPanics env tx txRes rest (msgIdx + 1)

/-- A message of one of the types named in the type switch of
`defaultMessageParser`. -/
def Msg.listed : Msg → Bool
  | .other _ => false
  | _ => true

/-- A well-formed transaction hash. -/
def sampleHash : String := "00000000000000000000000000000000000000000000000000000000000000ab"

/-- The sample backend with one transaction, stored under `sampleHash`, of the
given messages. -/
def sampleTxEnv (msgs : List AnyMsg) : Env :=
  { sampleEnv with
    GetTx := fun hash =>
      if hash = sampleHash then
        .ok (some ⟨⟨msgs, "memo"⟩, ⟨12, "00AB", 0, 200000, 150000, []⟩⟩)
      else .ok none }

/-- A message of a type outside the type switch, packed. -/
def sampleUnknownAny : AnyMsg := .mk "/custom.v1.MsgCustom" (.ok (.other "custom.v1.MsgCustom"))

/-- The backend with another table of message parsers. -/
def Env.withParsers (env : Env) (parsers : String → Option MessageParser) : Env :=
  { env with messageParsers := parsers }

/-- The entry `e` carries what the parser outcome `parsed` calls for: the
content alone after a result, the error text alone after an error; no entry
follows a panic. -/
def MsgInfo.carries (env : Env) (e : MsgInfo) : Outcome MessageContent → Prop
  | .ok parsedContent => e.content = some parsedContent ∧ e.contentError = none
  | .err err => e.content = none ∧ e.contentError = some (env.ErrorText err)
  | .panic => False

/-- The state of the height loop once the heights `S` have been processed:
which heights each of the three collections holds. -/
structure ScanInv (env : Env) (S : List Int) (st : ScanState) : Prop where
  missing : ∀ x, x ∈ st.missingBlocks ↔ x ∈ S ∧ (fetchedBlock env x).isNone = true
  errors : ∀ x, x ∈ st.errorBlocks ↔
    x ∈ S ∧ ∃ b, fetchedBlock env x = some b ∧ hasUnpackFailure b = true
  blocks : ∀ x, x ∈ st.txsByBlock.map Prod.fst ↔
    x ∈ S ∧ ∃ b, fetchedBlock env x = some b ∧ hasUnpackFailure b = false

/-! ## Notions used to state the properties of the default handlers -/

mutual
/-- The message makes the default parser crash: it makes the parser read a
field of an absent sub-message (a legacy submit-proposal without content, a
grant without authorization), it is a multi-send for whose outputs a call of
`sdk.Coins.Add` panics, or it is an authorization execution with such a message
among the embedded ones. -/
def Msg.crashes (env : Env) : Msg → Bool
  | .govlegacy_MsgSubmitProposal none _ _ => true
  | .authz_MsgGrant _ _ none _ => true
  | .bank_MsgMultiSend _ Outputs => (multiSendAllCoins env Outputs []).isNone
  | .authz_MsgExec _ Msgs => anyCrashes env Msgs
  | _ => false
/-- Some `Any` of the list unpacks to such a message. -/
def anyCrashes (env : Env) : List AnyMsg → Bool
  | [] => false
  | a :: rest => AnyMsg.crashes env a || anyCrashes env rest
/-- The `Any` unpacks to such a message. -/
def AnyMsg.crashes (env : Env) : AnyMsg → Bool
  | .mk _ (.ok m) => Msg.crashes env m
  | .mk _ (.error _) => false
end

/-- The keys of a map value; a value that is not a map has none. -/
def JVal.keys : JVal → List String
  | .obj kvs => kvs.map Prod.fst
  | .response kvs _ => kvs.map Prod.fst
  | _ => []

/-- A transaction without messages and its result, for the samples. -/
def sampleTx : Tx := ⟨[], ""⟩

/-- The result of the sample transaction. -/
def sampleTxResponse : TxResponse := ⟨12, "00AB", 0, 200000, 150000, []⟩

/-- An authorization execution with one embedded message that fails to
unpack. -/
def sampleExecBroken : Msg := .authz_MsgExec "rax1grantee" [sampleBrokenAny]

/-- The sample backend with a transaction-result query that returns no result
and no error. -/
def sampleNilResultEnv : Env := { sampleEnv with ClientTx := fun _ => .ok none }

/-- A raw transaction, for the samples. -/
def sampleTmTx : TmTx := ⟨[10, 1], [171, 205]⟩

/-- The characters of the first list open the second. -/
def startsWith : List Char → List Char → Bool
  | [], _ => true
  | _ :: _, [] => false
  | a :: as, b :: bs => a == b && startsWith as bs

/-- The first list occurs inside the second. -/
def hasSubstring (needle : List Char) : List Char → Bool
  | [] => needle.isEmpty
  | c :: cs => startsWith needle (c :: cs) || hasSubstring needle cs

/-- Some text fragment of the builder contains the given words. -/
def containsText (words : String) (rb : FriendlyResponseContentBuilder) : Bool :=
  rb.any (fun f => match f with
    | .text s => hasSubstring words.toList s.toList
    | .address _ => false
    | .coins _ _ => false)

/-- The packet-bearing messages: the packet, the signer and the words the
parser writes after the signer. -/
def packetMessage : Msg → Option (Packet × String × String)
  | .channel_MsgAcknowledgement p _ s => some (p, s, " acknowledges packet:")
  | .channel_MsgRecvPacket p _ s => some (p, s, " informs receive packet:")
  | .channel_MsgTimeout p _ _ s => some (p, s, " informs packet timed out:")
  | .channel_MsgTimeoutOnClose p _ _ s => some (p, s, " informs closing timed out packet:")
  | _ => none

/-- A packet whose payload is the empty JSON object, the two bytes 123 and
125: it decodes into a payload without denomination and amount, from which no coin can be derived. -/
def samplePacket : Packet :=
  { Sequence := 3
    SourcePort := "transfer"
    SourceChannel := "channel-0"
    DestinationPort := "transfer"
    DestinationChannel := "channel-7"
    Data := [123, 125]
    TimeoutHeight := ⟨1, 1000⟩
    TimeoutTimestamp := 0 }

/-- A packet whose payload, the text `not json`, is no JSON document. -/
def sampleGarbledPacket : Packet :=
  { samplePacket with Data := [110, 111, 116, 32, 106, 115, 111, 110] }

/-- The groups of fragments in order, with the separator written between two
neighbours. -/
def joinFragments (sep : Fragment) : List (List Fragment) → List Fragment
  | [] => []
  | [x] => x
  | x :: y :: rest => x ++ sep :: joinFragments sep (y :: rest)

/-- The fragments the parser writes for one receiver of a multi-send: its
coins, " to " and its address. -/
def receiverFragments (denomsMetadata : List (String × Metadata)) (output : Output) :
    List Fragment :=
  [Fragment.coins output.Coins denomsMetadata, Fragment.text " to ", Fragment.address output.Address]

/-- The metadata fetch for a denomination succeeds: no error and a response. -/
def metadataFetched (env : Env) (denom : String) : Bool :=
  match env.DenomMetadata denom with
  | .ok (some _) => true
  | .ok none => false
  | .error _ => false

/-- The step of the loop of lines 1114-1122. -/
def denomsMetadataStep (env : Env) (acc : List (String × Metadata)) (coin : Coin) :
    List (String × Metadata) :=
  match env.DenomMetadata coin.Denom with
  | .error _ => acc
  | .ok none => acc
  | .ok (some res) => if coin.Denom = "" then acc else setKey acc coin.Denom res

/-- The pattern in the words of the specification, `^(0x)?[0-9a-fA-F]{64}$`,
matched against a whole string. -/
def specPatternTxHash (hashStr : String) : Bool :=
  isHex64 hashStr.toList ||
    (match hashStr.toList with
     | c0 :: c1 :: rest => c0 == '0' && c1 == 'x' && isHex64 rest
     | _ => false)

/-- A collaborator called by `GetTransactionByHash`: the interceptor
(line 163) or the transaction query (line 171). -/
inductive TxCall where
  | Interceptor (hashStr : String)
  | GetTx (hash : String)
  deriving DecidableEq, Repr

/-- The call of the transaction query (lines 169-173), when `hash[2:]` does
not panic. -/
def getTxCalls (env : Env) (hashStr : String) : List TxCall :=
  let hash := env.NormalizeTransactionHash hashStr true
  if hash.length < 2 then [] else [.GetTx (hash.drop 2)]

/-- The calls that `GetTransactionByHash` makes to the interceptor and to the
transaction query, in order (lines 158-173). -/
def GetTransactionByHashCalls (env : Env) (hashStr : String) : List TxCall :=
  if !patternTxHash hashStr then []
  else
    match env.interceptor with
    | none => getTxCalls env hashStr
    | some interceptor =>
      if (interceptor hashStr).intercepted then [.Interceptor hashStr]
      else .Interceptor hashStr :: getTxCalls env hashStr

/-- A hash with the prefix `0X`. -/
def sampleUpperPrefixHash : String :=
  "0X00000000000000000000000000000000000000000000000000000000000000ab"

/-- The record `rec` is the one that the transaction loop appends for the
transaction `tx` with raw form `tmTx` (lines 83-132): hash and type from
lines 83-98, involvers and message types from the message loop. -/
def IsRecordOf (env : Env) (height : Int) (tx : Tx) (tmTx : TmTx) (rec : TxInfo) : Prop :=
  ∃ (st : MessageLoopState) (eb : Tracker),
    messageLoop env height tx tmTx tx.Body_Messages ⟨none, [], eb⟩ = some st ∧
    rec.hash = (txHashAndType env tx tmTx).1 ∧ rec.type = (txHashAndType env tx tmTx).2 ∧
    rec.involvers = st.involvers ∧ rec.messagesType = st.messagesType

/-- The entry `info` stored for a height holds the records of the block
fetched at that height, one per raw transaction and in their order. -/
def BlockRecords (env : Env) (height : Int) (info : BlockInfo) : Prop :=
  ∃ blk, fetchedBlock env height = some blk ∧
    info.timeEpochUTC = blk.Block_Header_Time_Unix ∧
    info.txs.length = blk.Block_Data_Txs.length ∧
    ∀ (k : Nat) (rec : TxInfo), info.txs[k]? = some rec →
      ∃ tx tmTx, blk.Txs[k]? = some tx ∧ blk.Block_Data_Txs[k]? = some tmTx ∧
        IsRecordOf env height tx tmTx rec

/-- A chain like `sampleScanEnv` where every transaction passes the EVM
heuristic and every transaction result carries the EVM hash `feed`. -/
def sampleEvmEnv : Env :=
  { sampleScanEnv with
    IsEvmTx := fun _ => true
    ClientTx := fun _ => .ok (some ⟨[]⟩)
    GetEvmTransactionHashFromEvent := fun _ => some "feed" }

/-- The response of the scan of height 5 on `sampleEvmEnv`. -/
def sampleEvmResponse : BlockRangeResponse :=
  { skippedBlockRange := none
    chainId := "sample-1"
    blocks := [(5, ⟨1700000005, [⟨"0xfeed", "evm",
      some [("involvers", "rax1alice"), ("involvers", "rax1bob")],
      ["/cosmos.bank.v1beta1.MsgSend"]⟩]⟩)]
    missingBlocks := none
    errorBlocks := none }

/-! ## Governance proposals (`gov.go`, lines 12-93) -/

/-- A `*govv1types.TallyResult`. -/
structure TallyResult where
  YesCount : String
  AbstainCount : String
  NoCount : String
  NoWithVetoCount : String

/-- A `*govv1types.Proposal`, with the fields that `GetGovProposals` reads;
`Status` is known by its `String()` rendering. -/
structure Proposal where
  Id : Nat
  Messages : List AnyMsg
  Status : String
  FinalTallyResult : Option TallyResult
  SubmitTime : Option Time
  DepositEndTime : Option Time
  TotalDeposit : List Coin
  VotingStartTime : Option Time
  VotingEndTime : Option Time
  Metadata : String

/-- A `*query.PageRequest`. -/
structure PageRequest where
  Key : List Nat
  Offset : Nat
  Limit : Nat
  CountTotal : Bool
  Reverse : Bool
  deriving DecidableEq, Repr

/-- A `*govv1types.QueryProposalsRequest`. -/
structure QueryProposalsRequest where
  ProposalStatus : Int
  Voter : String
  Depositor : String
  Pagination : PageRequest
  deriving DecidableEq, Repr

/-- The collaborators of `GetGovProposals`, and the helpers it calls that
`gov.go` does not define. -/
structure GovEnv where
  /-- `m.queryClient.GovV1QueryClient.Proposals`: the proposals of the
  response (`none` for a nil response), or the text of the error. -/
  Proposals : QueryProposalsRequest → Except String (Option (List Proposal))
  /-- `getDefaultPagination`. -/
  getDefaultPagination : Int → PageRequest
  /-- `defaultPageSize`. -/
  defaultPageSize : Int
  /-- `m.clientCtx.Codec.MarshalJSON`. -/
  MarshalJSON : AnyMsg → Except String (List Nat)
  /-- `json.Unmarshal` into a `map[string]any`. -/
  jsonUnmarshal : List Nat → Except String JVal

/-- The response of `GetGovProposals` (lines 88-92). -/
structure GovProposalsResponse where
  proposals : List (Nat × GenericBackendResponse)
  pageNo : Int
  pageSize : Int

/-- The map `message` of one message of a proposal (lines 38-54). -/
def proposalMessage (env : GovEnv) (msg : AnyMsg) : GenericBackendResponse :=
  let message : GenericBackendResponse := [("type", .str msg.TypeUrl)]
  match env.MarshalJSON msg with
  | .error err => setKey message "proto_content_error" (.str err)
  | .ok bz =>
    match env.jsonUnmarshal bz with
    | .ok msgContent => setKey message "proto_content" msgContent
    | .error err => setKey message "proto_content_error" (.str err)

/-- The map `proposalInfo` of one proposal (lines 29-83). -/
def proposalInfo (env : GovEnv) (proposal : Proposal) : GenericBackendResponse :=
  let info0 : GenericBackendResponse :=
    [("id", .num proposal.Id), ("metadata", .str proposal.Metadata),
     ("status", .str proposal.Status)]
  let info1 :=
    if proposal.Messages.length > 0 then
      setKey info0 "messages" (.arr (proposal.Messages.map (fun msg => .obj (proposalMessage env msg))))
    else info0
  let info2 :=
    match proposal.FinalTallyResult with
    | some tally =>
      setKey info1 "finalTallyResult"
        (.strMap [("yes", tally.YesCount), ("abstain", tally.AbstainCount),
          ("no", tally.NoCount), ("noWithVeto", tally.NoWithVetoCount)])
    | none => info1
  let info3 :=
    match proposal.SubmitTime with
    | some t => setKey info2 "submitTimeEpochUTC" (.num t.Unix)
    | none => info2
  let info4 :=
    match proposal.DepositEndTime with
    | some t => setKey info3 "depositEndTimeEpochUTC" (.num t.Unix)
    | none => info3
  let info5 :=
    if proposal.TotalDeposit.length > 0 then
      setKey info4 "totalDeposit" (.coinsToMap proposal.TotalDeposit)
    else info4
  let info6 :=
    match proposal.VotingStartTime with
    | some t => setKey info5 "votingStartTimeEpochUTC" (.num t.Unix)
    | none => info5
  match proposal.VotingEndTime with
  | some t => setKey info6 "votingEndTimeEpochUTC" (.num t.Unix)
  | none => info6

/-- Map assignment `proposals[id] = info`. -/
def setProposal (m : List (Nat × GenericBackendResponse)) (id : Nat)
    (info : GenericBackendResponse) : List (Nat × GenericBackendResponse) :=
  if m.any (fun kv => kv.1 == id) then
    m.map (fun kv => if kv.1 == id then (id, info) else kv)
  else m ++ [(id, info)]

/-- The request of lines 17-22. -/
def proposalsRequest (env : GovEnv) (pageNo : Int) : QueryProposalsRequest :=
  { ProposalStatus := 0
    Voter := ""
    Depositor := ""
    Pagination := env.getDefaultPagination pageNo }

/-- The method `GetGovProposals`: the requests sent to the proposals query and
how the call ends.  A nil response without an error makes line 28 panic. -/
def GetGovProposals (env : GovEnv) (pageNo : Int) :
    List QueryProposalsRequest × Outcome GovProposalsResponse :=
  if pageNo < 1 then ([], .err .ErrBadPageNo)
  else
    match env.Proposals (proposalsRequest env pageNo) with
    | .error err => ([proposalsRequest env pageNo], .err (.status .Internal err))
    | .ok none => ([proposalsRequest env pageNo], .panic)
    | .ok (some resProposals) =>
      let proposals := resProposals.foldl
        (fun acc proposal => setProposal acc proposal.Id (proposalInfo env proposal)) []
      ([proposalsRequest env pageNo],
        .ok { proposals := proposals, pageNo := pageNo, pageSize := env.defaultPageSize })

/-- A governance backend with one proposal on every page, ten proposals to a
page. -/
def sampleGovEnv : GovEnv :=
  { Proposals := fun _ =>
      .ok (some [⟨7, [sampleSendAny], "PROPOSAL_STATUS_PASSED", none, none, none, [], none, none, ""⟩])
    getDefaultPagination := fun pageNo => ⟨[], ((pageNo - 1) * 10).toNat, 10, false, false⟩
    defaultPageSize := 10
    MarshalJSON := fun _ => .error "no codec"
    jsonUnmarshal := fun _ => .error "no content" }

/-- The involvers that the extraction of one message yields in the message
loop (lines 106-124), when the message unpacks and its extractor returns
without error: the finalized result. -/
def extractedInvolvers (env : Env) (tx : Tx) (tmTx : TmTx) (msg : AnyMsg) :
    Option MessageInvolversResult :=
  match msg.UnpackAny with
  | .error _ => none
  | .ok cosmosMsg =>
    match messageInvolversExtractorFor env cosmosMsg cosmosMsg tx tmTx with
    | .ok resInvolvers => some (env.Finalize resInvolvers)
    | .err _ => none
    | .panic => none

/-- A second bank transfer, packed. -/
def sampleSecondSendAny : AnyMsg :=
  .mk "/cosmos.bank.v1beta1.MsgSend" (.ok (.bank_MsgSend "rax1carol" "rax1dave" [⟨"urax", 7⟩]))

/-- A chain whose block at height 5 holds one transaction with two transfers,
an unknown message between them. -/
def sampleTwoSendEnv : Env :=
  { sampleEnv with
    GetBlockWithTxs := fun h =>
      if h = 5 then
        .ok (some
          { Txs := [⟨[sampleSendAny, sampleSecondSendAny, sampleUnknownAny], ""⟩]
            Block_Data_Txs := [⟨[10, 1], [171, 205]⟩]
            Block_Header_Time_Unix := 1700000005 })
      else .error "block unavailable" }

/-- The response of the scan of height 5 on `sampleTwoSendEnv`. -/
def sampleTwoSendResponse : BlockRangeResponse :=
  { skippedBlockRange := none
    chainId := "sample-1"
    blocks := [(5, ⟨1700000005, [⟨"ABCD", "cosmos",
      some [("involvers", "rax1carol"), ("involvers", "rax1dave")],
      ["/cosmos.bank.v1beta1.MsgSend", "/cosmos.bank.v1beta1.MsgSend",
        "/custom.v1.MsgCustom"]⟩]⟩)]
    missingBlocks := none
    errorBlocks := none }

/-- The value of a map under a key; a value that is not a map has no fields. -/
def JVal.field (key : String) : JVal → Option JVal
  | .obj kvs => kvs.lookup key
  | .response kvs _ => kvs.lookup key
  | _ => none

/-- The `default` branch of the type switch of
`defaultMessageInvolversExtractor` (lines 1354-1376), for a message with proto
name `name`: the transaction result is queried and its events are scanned. -/
def involversFallback (env : Env) (name : String) (tmTx : TmTx) :
    Outcome MessageInvolversResult :=
  match env.ClientTx tmTx.Hash with
  | .error errTxResult =>
    .err (.status .Internal
      ("failed to get tx result for tx " ++ hexEncodeToString tmTx.Hash ++
        " when processing msg " ++ name ++ ": " ++ errTxResult))
  | .ok none => .panic
  | .ok (some resTxResult) => .ok (involversOfEvents env resTxResult.TxResult_Events [])

/-- The default extractor takes its fallback branch on `msg`: on every backend
and for every transaction, what it does for `msg` is what the `default` branch
does. -/
def takesFallback (msg : Msg) : Prop :=
  ∀ (env : Env) (tx : Tx) (tmTx : TmTx),
    defaultMessageInvolversExtractor env msg tx tmTx
      = involversFallback env (env.ProtoMessageName msg) tmTx

/-- A chain whose reply for height 5 holds one raw transaction and no decoded
one: fewer decoded than raw transactions. -/
def sampleShortBlockEnv : Env :=
  { sampleEnv with
    GetBlockWithTxs := fun h =>
      if h = 5 then
        .ok (some
          { Txs := []
            Block_Data_Txs := [⟨[10, 1], [171, 205]⟩]
            Block_Header_Time_Unix := 1700000005 })
      else .error "block unavailable" }

/-- The governance backend whose proposals query returns neither a response
nor an error. -/
def sampleNilGovEnv : GovEnv := { sampleGovEnv with Proposals := fun _ => .ok none }

/-! # Properties -/

/-! ## Arithmetic of the range -/

theorem wrapInt64_of_isInt64 {x : Int} (h : IsInt64 x) : wrapInt64 x = x := by
  unfold IsInt64 MinInt64 MaxInt64 at h
  unfold wrapInt64
  omega

theorem wrapInt64_le_max (x : Int) : wrapInt64 x ≤ MaxInt64 := by
  unfold wrapInt64 MaxInt64
  omega

theorem wrapInt64_ge_min (x : Int) : MinInt64 ≤ wrapInt64 x := by
  unfold wrapInt64 MinInt64
  omega

theorem exceedsPage_iff {a b : Int} (ha : 1 ≤ a) (hab : a ≤ b) (hb : b ≤ MaxInt64) :
    exceedsPage a b = true ↔ b - a + 1 > 100 := by
  unfold MaxInt64 at hb
  unfold exceedsPage maxPageSize wrapInt64
  simp only [decide_eq_true_eq]
  omega

theorem clampedToHeight_eq {a b : Int} (ha : 1 ≤ a) (hab : a ≤ b) (hb : b ≤ MaxInt64) :
    clampedToHeight a b = if b - a + 1 > 100 then a + 99 else b := by
  unfold clampedToHeight
  by_cases h : b - a + 1 > 100
  · rw [if_pos ((exceedsPage_iff ha hab hb).2 h), if_pos h]
    unfold MaxInt64 at hb
    unfold maxPageSize wrapInt64
    omega
  · have h2 : ¬ exceedsPage a b = true := fun hc => h ((exceedsPage_iff ha hab hb).1 hc)
    rw [if_neg h2, if_neg h]

theorem skippedBlockRange_eq {a b : Int} (ha : 1 ≤ a) (hab : a ≤ b) (hb : b ≤ MaxInt64) :
    skippedBlockRange a b = if b - a + 1 > 100 then some (a + 100, b) else none := by
  unfold skippedBlockRange
  by_cases h : b - a + 1 > 100
  · rw [if_pos ((exceedsPage_iff ha hab hb).2 h), if_pos h, clampedToHeight_eq ha hab hb, if_pos h]
    unfold MaxInt64 at hb
    unfold wrapInt64
    congr 2
    omega
  · have h2 : ¬ exceedsPage a b = true := fun hc => h ((exceedsPage_iff ha hab hb).1 hc)
    rw [if_neg h2, if_neg h]

theorem heightRange_of_gt {lo hi : Int} (h : hi < lo) : heightRange lo hi = [] := by
  unfold heightRange
  have : (hi + 1 - lo).toNat = 0 := by omega
  rw [this]
  rfl

theorem heightRange_cons {lo hi : Int} (h : lo ≤ hi) :
    heightRange lo hi = lo :: heightRange (lo + 1) hi := by
  unfold heightRange
  have : (hi + 1 - lo).toNat = (hi + 1 - (lo + 1)).toNat + 1 := by omega
  rw [this, List.range_succ_eq_map]
  simp only [List.map_cons, List.map_map, Nat.cast_zero, add_zero, List.cons.injEq, true_and]
  apply List.map_congr_left
  intro i _
  simp only [Function.comp_apply, Nat.succ_eq_add_one, Nat.cast_add, Nat.cast_one]
  omega

theorem mem_heightRange {lo hi h : Int} : h ∈ heightRange lo hi ↔ lo ≤ h ∧ h ≤ hi := by
  unfold heightRange
  simp only [List.mem_map, List.mem_range]
  constructor
  · rintro ⟨i, hi1, rfl⟩
    omega
  · rintro ⟨h1, h2⟩
    exact ⟨(h - lo).toNat, by omega, by omega⟩

/-! ## The trackers and the block map -/

theorem Tracker.mem_Add {t : Tracker} {h x : Int} : x ∈ Tracker.Add t h ↔ x ∈ t ∨ x = h := by
  unfold Tracker.Add
  by_cases hm : h ∈ t
  · rw [if_pos hm]
    constructor
    · exact fun hx => Or.inl hx
    · rintro (hx | rfl)
      · exact hx
      · exact hm
  · rw [if_neg hm]
    simp

theorem Tracker.Has_iff {t : Tracker} {h : Int} : Tracker.Has t h = true ↔ h ∈ t := by
  unfold Tracker.Has
  simp

theorem Tracker.mem_ToSortedSlice {t : Tracker} {x : Int} : x ∈ Tracker.ToSortedSlice t ↔ x ∈ t := by
  unfold Tracker.ToSortedSlice
  exact (List.perm_insertionSort _ t).mem_iff

theorem mem_keys_setBlock {m : List (Int × BlockInfo)} {h x : Int} {info : BlockInfo} :
    x ∈ (setBlock m h info).map Prod.fst ↔ x ∈ m.map Prod.fst ∨ x = h := by
  unfold setBlock
  by_cases hany : m.any (fun kv => kv.1 == h) = true
  · rw [if_pos hany]
    have hkeys : (m.map (fun kv => if kv.1 == h then (h, info) else kv)).map Prod.fst
        = m.map Prod.fst := by
      rw [List.map_map]
      apply List.map_congr_left
      intro kv _
      simp only [Function.comp_apply]
      by_cases hk : (kv.1 == h) = true
      · rw [if_pos hk]
        exact (eq_of_beq hk).symm
      · rw [if_neg hk]
    rw [hkeys]
    constructor
    · exact fun hx => Or.inl hx
    · rintro (hx | rfl)
      · exact hx
      · rw [List.any_eq_true] at hany
        obtain ⟨kv, hkv, hk⟩ := hany
        rw [List.mem_map]
        exact ⟨kv, hkv, eq_of_beq hk⟩
  · rw [if_neg hany]
    simp

/-! ## The loops of the scan -/

theorem messageLoop_errorBlocks (env : Env) (height : Int) (tx : Tx) (tmTx : TmTx) :
    ∀ (msgs : List AnyMsg) (st st' : MessageLoopState),
      messageLoop env height tx tmTx msgs st = some st' →
      ∀ x, x ∈ st'.errorBlocks ↔
        x ∈ st.errorBlocks ∨ (x = height ∧ msgs.any unpackFails = true) := by
  intro msgs
  induction msgs with
  | nil =>
    intro st st' h x
    simp only [messageLoop, Option.some.injEq] at h
    subst h
    simp
  | cons msg rest ih =>
    intro st st' h x
    rw [messageLoop] at h
    simp only [List.any_cons, Bool.or_eq_true]
    cases hu : msg.UnpackAny with
    | error e =>
      rw [hu] at h
      simp only [Option.some.injEq] at h
      subst h
      have hf : unpackFails msg = true := by unfold unpackFails; rw [hu]
      simp only [Tracker.mem_Add, hf, true_or, and_true]
    | ok cosmosMsg =>
      rw [hu] at h
      dsimp only at h
      have hf : unpackFails msg = false := by unfold unpackFails; rw [hu]
      simp only [hf, Bool.false_eq_true, false_or]
      cases hx : messageInvolversExtractorFor env cosmosMsg cosmosMsg tx tmTx with
      | panic => rw [hx] at h; simp at h
      | err e =>
        rw [hx] at h
        exact ih _ _ h x
      | ok r =>
        rw [hx] at h
        exact ih _ _ h x

theorem txLoop_errorBlocks (env : Env) (height : Int) (Txs : List Tx) :
    ∀ (dataTxs : List TmTx) (i : Nat) (infos : List TxInfo) (eb : Tracker)
      (r : List TxInfo × Tracker),
      txLoop env height Txs dataTxs i infos eb = some r →
      ∀ x, x ∈ r.2 ↔ x ∈ eb ∨ (x = height ∧
        ((Txs.drop i).take dataTxs.length).any (fun tx => tx.Body_Messages.any unpackFails)
          = true) := by
  intro dataTxs
  induction dataTxs with
  | nil =>
    intro i infos eb r h x
    simp only [txLoop, Option.some.injEq] at h
    subst h
    simp
  | cons tmTx rest ih =>
    intro i infos eb r h x
    rw [txLoop] at h
    cases hget : Txs[i]? with
    | none => rw [hget] at h; simp at h
    | some tx =>
      rw [hget] at h
      simp only at h
      have hlt : i < Txs.length := by
        rcases List.getElem?_eq_some_iff.1 hget with ⟨hi, _⟩
        exact hi
      have htx : Txs[i] = tx := by
        rcases List.getElem?_eq_some_iff.1 hget with ⟨_, he⟩
        exact he
      have hdrop : Txs.drop i = tx :: Txs.drop (i + 1) := by
        rw [List.drop_eq_getElem_cons hlt, htx]
      cases hm : messageLoop env height tx tmTx tx.Body_Messages ⟨none, [], eb⟩ with
      | none => rw [hm] at h; simp at h
      | some st =>
        rw [hm] at h
        simp only at h
        have h1 := ih _ _ _ _ h x
        have h2 := messageLoop_errorBlocks env height tx tmTx _ _ _ hm x
        simp only at h2
        rw [h1, h2, hdrop]
        simp only [List.length_cons, List.take_succ_cons, List.any_cons, Bool.or_eq_true]
        tauto

theorem ScanInv.init (env : Env) (calls : List Call) : ScanInv env [] ⟨calls, [], [], []⟩ := by
  constructor <;> intro x <;> simp

theorem ScanInv.missing_step {env : Env} {S : List Int} {st : ScanState} {h : Int}
    (hinv : ScanInv env S st) (hF : fetchedBlock env h = none) (calls : List Call) :
    ScanInv env (S ++ [h]) ⟨calls, st.missingBlocks.Add h, st.errorBlocks, st.txsByBlock⟩ := by
  constructor
  · intro x
    simp only [Tracker.mem_Add, hinv.missing x, List.mem_append, List.mem_singleton]
    by_cases hx : x = h
    · subst hx
      simp [hF]
    · simp [hx]
  · intro x
    simp only [hinv.errors x, List.mem_append, List.mem_singleton]
    by_cases hx : x = h
    · subst hx
      simp [hF]
    · simp [hx]
  · intro x
    simp only [hinv.blocks x, List.mem_append, List.mem_singleton]
    by_cases hx : x = h
    · subst hx
      simp [hF]
    · simp [hx]

theorem scanHeight_inv {env : Env} {S : List Int} {st st' : ScanState} {h : Int}
    (hinv : ScanInv env S st) (hs : scanHeight env h st = some st') :
    ScanInv env (S ++ [h]) st' := by
  unfold scanHeight at hs
  cases hg : env.GetBlockWithTxs h with
  | error e =>
    rw [hg] at hs
    simp only [Option.some.injEq] at hs
    subst hs
    exact hinv.missing_step (by unfold fetchedBlock; rw [hg]) _
  | ok ob =>
    cases ob with
    | none =>
      rw [hg] at hs
      simp only [Option.some.injEq] at hs
      subst hs
      exact hinv.missing_step (by unfold fetchedBlock; rw [hg]) _
    | some b =>
      rw [hg] at hs
      dsimp only at hs
      have hF : fetchedBlock env h = some b := by unfold fetchedBlock; rw [hg]
      cases ht : txLoop env h b.Txs b.Block_Data_Txs 0 [] st.errorBlocks with
      | none => rw [ht] at hs; simp at hs
      | some r =>
        rw [ht] at hs
        dsimp only at hs
        have hr := txLoop_errorBlocks env h b.Txs _ _ _ _ _ ht
        have hfail : ∀ x, x ∈ r.2 ↔ x ∈ st.errorBlocks ∨ (x = h ∧ hasUnpackFailure b = true) := by
          intro x
          rw [hr x]
          simp only [List.drop_zero, hasUnpackFailure, GetBlockWithTxsResponse.transactions]
        have hh : h ∈ r.2 ↔ hasUnpackFailure b = true := by
          rw [hfail h, hinv.errors h]
          constructor
          · rintro (⟨_, b2, hb2, hf⟩ | ⟨_, hf⟩)
            · rw [hF] at hb2
              cases hb2
              exact hf
            · exact hf
          · exact fun hf => Or.inr ⟨rfl, hf⟩
        by_cases hhas : Tracker.Has r.2 h = true
        · rw [if_pos hhas] at hs
          simp only [Option.some.injEq] at hs
          subst hs
          have hf : hasUnpackFailure b = true := hh.1 (Tracker.Has_iff.1 hhas)
          constructor
          · intro x
            simp only [hinv.missing x, List.mem_append, List.mem_singleton]
            by_cases hx : x = h
            · subst hx
              simp [hF]
            · simp [hx]
          · intro x
            simp only [hfail x, hinv.errors x, List.mem_append, List.mem_singleton]
            by_cases hx : x = h
            · subst hx
              simp [hF, hf]
            · simp [hx]
          · intro x
            simp only [hinv.blocks x, List.mem_append, List.mem_singleton]
            by_cases hx : x = h
            · subst hx
              simp [hF, hf]
            · simp [hx]
        · rw [if_neg hhas] at hs
          simp only [Option.some.injEq] at hs
          subst hs
          have hf : hasUnpackFailure b = false := by
            cases hc : hasUnpackFailure b with
            | false => rfl
            | true => exact absurd (Tracker.Has_iff.2 (hh.2 hc)) hhas
          constructor
          · intro x
            simp only [hinv.missing x, List.mem_append, List.mem_singleton]
            by_cases hx : x = h
            · subst hx
              simp [hF]
            · simp [hx]
          · intro x
            simp only [hfail x, hinv.errors x, List.mem_append, List.mem_singleton]
            by_cases hx : x = h
            · subst hx
              simp [hF, hf]
            · simp [hx]
          · intro x
            simp only [mem_keys_setBlock, hinv.blocks x, List.mem_append, List.mem_singleton]
            by_cases hx : x = h
            · subst hx
              simp [hF, hf]
            · simp [hx]

theorem scanHeights_inv (env : Env) :
    ∀ (L S : List Int) (st st' : ScanState), ScanInv env S st →
      scanHeights env L st = some st' → ScanInv env (S ++ L) st' := by
  intro L
  induction L with
  | nil =>
    intro S st st' hinv hs
    simp only [scanHeights, Option.some.injEq] at hs
    subst hs
    simpa using hinv
  | cons h rest ih =>
    intro S st st' hinv hs
    rw [scanHeights] at hs
    cases h1 : scanHeight env h st with
    | none => rw [h1] at hs; simp at hs
    | some st1 =>
      rw [h1] at hs
      dsimp only at hs
      have := ih (S ++ [h]) st1 st' (scanHeight_inv hinv h1) hs
      simpa using this

/-- With the last height at the largest `int64`, the height loop never
exits: the wrapped increment keeps the counter at or below the bound. -/
theorem heightLoop_max_not_exited (env : Env) :
    ∀ (fuel : Nat) (height : Int) (st st' : ScanState), height ≤ MaxInt64 →
      heightLoop env MaxInt64 fuel height st ≠ .exited st' := by
  intro fuel
  induction fuel with
  | zero =>
    intro height st st' hle
    rw [heightLoop, if_pos hle]
    simp
  | succ n ih =>
    intro height st st' hle
    rw [heightLoop, if_pos hle]
    cases h1 : scanHeight env height st with
    | none => simp
    | some st1 =>
      dsimp only
      exact ih _ _ _ (wrapInt64_le_max _)

/-- Below the largest `int64`, a height loop that exits has run the body over
the heights from the start to the last one, each once and in order. -/
theorem heightLoop_exited (env : Env) (toH : Int) (hto : toH < MaxInt64) :
    ∀ (fuel : Nat) (height : Int) (st st' : ScanState), MinInt64 ≤ height →
      heightLoop env toH fuel height st = .exited st' →
      scanHeights env (heightRange height toH) st = some st' := by
  intro fuel
  induction fuel with
  | zero =>
    intro height st st' hmin hl
    rw [heightLoop] at hl
    by_cases hle : height ≤ toH
    · rw [if_pos hle] at hl
      simp at hl
    · rw [if_neg hle] at hl
      simp only [LoopResult.exited.injEq] at hl
      subst hl
      rw [heightRange_of_gt (by omega)]
      rfl
  | succ n ih =>
    intro height st st' hmin hl
    rw [heightLoop] at hl
    by_cases hle : height ≤ toH
    · rw [if_pos hle] at hl
      rw [heightRange_cons hle, scanHeights]
      cases h1 : scanHeight env height st with
      | none => rw [h1] at hl; simp at hl
      | some st1 =>
        rw [h1] at hl
        dsimp only at hl ⊢
        have hw : wrapInt64 (height + 1) = height + 1 := by
          apply wrapInt64_of_isInt64
          unfold IsInt64
          unfold MinInt64 at hmin ⊢
          unfold MaxInt64 at hto ⊢
          omega
        rw [hw] at hl
        exact ih _ _ _ (by unfold MinInt64 at hmin ⊢; omega) hl
    · rw [if_neg hle] at hl
      simp only [LoopResult.exited.injEq] at hl
      subst hl
      rw [heightRange_of_gt (by omega)]
      rfl

theorem mem_missing_buildResponse {sk : Option (Int × Int)} {n : String} {st : ScanState} {x : Int} :
    x ∈ (buildResponse sk n st).missing ↔ x ∈ st.missingBlocks := by
  unfold BlockRangeResponse.missing buildResponse
  by_cases hl : st.missingBlocks.length > 0
  · simp only [if_pos hl, Option.getD_some, Tracker.mem_ToSortedSlice]
  · have : st.missingBlocks = [] := List.eq_nil_of_length_eq_zero (by omega)
    simp [this]

theorem mem_errors_buildResponse {sk : Option (Int × Int)} {n : String} {st : ScanState} {x : Int} :
    x ∈ (buildResponse sk n st).errors ↔ x ∈ st.errorBlocks := by
  unfold BlockRangeResponse.errors buildResponse
  by_cases hl : st.errorBlocks.length > 0
  · simp only [if_pos hl, Option.getD_some, Tracker.mem_ToSortedSlice]
  · have : st.errorBlocks = [] := List.eq_nil_of_length_eq_zero (by omega)
    simp [this]

theorem lastHeight_le_max {a b : Int} (ha : IsInt64 a) (hb : IsInt64 b) (h1 : 1 ≤ a)
    (hab : a ≤ defaultToHeight a b) : lastHeight a b ≤ MaxInt64 := by
  have hd : defaultToHeight a b ≤ MaxInt64 := by
    unfold defaultToHeight
    split
    · exact ha.2
    · exact hb.2
  unfold lastHeight
  rw [clampedToHeight_eq h1 hab hd]
  split <;> omega

/-- A call that returns a response has passed the validation, got the chain
status, and run the body of the loop over the heights of the range, each once
and in order. -/
theorem GetTransactionsInBlockRange_response {env : Env} {fuel : Nat} {a b : Int}
    {calls : List Call} {res : BlockRangeResponse} (ha : IsInt64 a) (hb : IsInt64 b)
    (hrun : GetTransactionsInBlockRange env fuel a b = .done calls (.ok res)) :
    1 ≤ a ∧ a ≤ defaultToHeight a b ∧ lastHeight a b < MaxInt64 ∧
    ∃ network st, env.Status = .ok network ∧
      scanHeights env (heightRange a (lastHeight a b)) ⟨[Call.Status], [], [], []⟩ = some st ∧
      calls = st.calls ∧
      res = buildResponse (skippedBlockRange a (defaultToHeight a b)) network st := by
  unfold GetTransactionsInBlockRange at hrun
  dsimp only at hrun
  by_cases hbad : a ≤ 0 ∨ defaultToHeight a b ≤ 0 ∨ a > defaultToHeight a b
  · rw [if_pos hbad] at hrun
    simp at hrun
  · rw [if_neg hbad] at hrun
    have h1 : 1 ≤ a := by omega
    have hab : a ≤ defaultToHeight a b := by omega
    have hle := lastHeight_le_max ha hb h1 hab
    cases hs : env.Status with
    | error e => rw [hs] at hrun; simp at hrun
    | ok network =>
      rw [hs] at hrun
      dsimp only at hrun
      cases hl : heightLoop env (clampedToHeight a (defaultToHeight a b)) fuel a
          ⟨[Call.Status], [], [], []⟩ with
      | outOfFuel h st => rw [hl] at hrun; simp at hrun
      | panicked st => rw [hl] at hrun; simp at hrun
      | exited st =>
        rw [hl] at hrun
        simp only [Run.done.injEq, Outcome.ok.injEq] at hrun
        have hlt : lastHeight a b < MaxInt64 := by
          rcases lt_or_eq_of_le hle with hlt | heq
          · exact hlt
          · exfalso
            unfold lastHeight at heq
            rw [heq] at hl
            exact heightLoop_max_not_exited env fuel a _ st ha.2 hl
        refine ⟨h1, hab, hlt, network, st, rfl, ?_, hrun.1.symm, hrun.2.symm⟩
        exact heightLoop_exited env _ hlt fuel a _ st ha.1 hl

/-! ## Termination of the height loop below the largest `int64` -/

theorem scanHeights_isSome (env : Env) :
    ∀ (L : List Int) (st : ScanState),
      (∀ h, h ∈ L → ∀ s, (scanHeight env h s).isSome = true) →
      ∃ st', scanHeights env L st = some st' := by
  intro L
  induction L with
  | nil => exact fun st _ => ⟨st, rfl⟩
  | cons h rest ih =>
    intro st hsafe
    rw [scanHeights]
    cases h1 : scanHeight env h st with
    | none =>
      have := hsafe h (List.mem_cons_self h rest) st
      rw [h1] at this
      simp at this
    | some st1 =>
      exact ih st1 (fun x hx s => hsafe x (List.mem_cons_of_mem h hx) s)

theorem heightLoop_of_scanHeights (env : Env) (toH : Int) (hto : toH < MaxInt64) :
    ∀ (fuel : Nat) (height : Int) (st st' : ScanState), MinInt64 ≤ height →
      scanHeights env (heightRange height toH) st = some st' →
      (toH + 1 - height).toNat ≤ fuel →
      heightLoop env toH fuel height st = .exited st' := by
  intro fuel
  induction fuel with
  | zero =>
    intro height st st' hmin hs hf
    have hgt : toH < height := by omega
    rw [heightRange_of_gt hgt] at hs
    simp only [scanHeights, Option.some.injEq] at hs
    subst hs
    rw [heightLoop, if_neg (by omega)]
  | succ n ih =>
    intro height st st' hmin hs hf
    rw [heightLoop]
    by_cases hle : height ≤ toH
    · rw [if_pos hle]
      rw [heightRange_cons hle, scanHeights] at hs
      cases h1 : scanHeight env height st with
      | none => rw [h1] at hs; simp at hs
      | some st1 =>
        rw [h1] at hs
        dsimp only at hs ⊢
        have hw : wrapInt64 (height + 1) = height + 1 := by
          apply wrapInt64_of_isInt64
          unfold IsInt64
          unfold MinInt64 at hmin ⊢
          unfold MaxInt64 at hto ⊢
          omega
        rw [hw]
        exact ih _ _ _ (by unfold MinInt64 at hmin ⊢; omega) hs (by omega)
    · rw [if_neg hle]
      rw [heightRange_of_gt (by omega)] at hs
      simp only [scanHeights, Option.some.injEq] at hs
      subst hs
      rfl

/-- Below the largest `int64`, with the chain status available and a loop body
that panics at no height of the range, the call returns a response after at
most 100 iterations. -/
theorem GetTransactionsInBlockRange_returns {env : Env} {fuel : Nat} {a b : Int} {network : String}
    (ha : IsInt64 a) (hb : IsInt64 b) (h1 : 1 ≤ a) (hab : a ≤ defaultToHeight a b)
    (hlast : lastHeight a b < MaxInt64) (hstatus : env.Status = .ok network)
    (hsafe : ∀ h, a ≤ h → h ≤ lastHeight a b → ∀ s, (scanHeight env h s).isSome = true)
    (hfuel : 100 ≤ fuel) :
    ∃ st, scanHeights env (heightRange a (lastHeight a b)) ⟨[Call.Status], [], [], []⟩ = some st ∧
      GetTransactionsInBlockRange env fuel a b
        = .done st.calls
            (.ok (buildResponse (skippedBlockRange a (defaultToHeight a b)) network st)) := by
  obtain ⟨st, hst⟩ := scanHeights_isSome env (heightRange a (lastHeight a b))
    ⟨[Call.Status], [], [], []⟩ (fun h hh s => hsafe h (mem_heightRange.1 hh).1 (mem_heightRange.1 hh).2 s)
  refine ⟨st, hst, ?_⟩
  have hd : defaultToHeight a b ≤ MaxInt64 := by
    unfold defaultToHeight
    split
    · exact ha.2
    · exact hb.2
  have hlen : (lastHeight a b + 1 - a).toNat ≤ fuel := by
    unfold lastHeight
    rw [clampedToHeight_eq h1 hab hd]
    split <;> omega
  have hloop := heightLoop_of_scanHeights env _ hlast fuel a _ st ha.1 hst hlen
  unfold GetTransactionsInBlockRange
  dsimp only
  rw [if_neg (by omega), hstatus]
  dsimp only
  unfold lastHeight at hloop
  rw [hloop]

/-! ## The partition of the scanned heights -/

theorem GetTransactionsInBlockRange_inv {env : Env} {fuel : Nat} {a b : Int}
    {calls : List Call} {res : BlockRangeResponse} (ha : IsInt64 a) (hb : IsInt64 b)
    (hrun : GetTransactionsInBlockRange env fuel a b = .done calls (.ok res)) (x : Int) :
    (x ∈ res.missing ↔ (a ≤ x ∧ x ≤ lastHeight a b) ∧ (fetchedBlock env x).isNone = true) ∧
    (x ∈ res.errors ↔ (a ≤ x ∧ x ≤ lastHeight a b) ∧
      ∃ blk, fetchedBlock env x = some blk ∧ hasUnpackFailure blk = true) ∧
    (x ∈ res.heights ↔ (a ≤ x ∧ x ≤ lastHeight a b) ∧
      ∃ blk, fetchedBlock env x = some blk ∧ hasUnpackFailure blk = false) := by
  obtain ⟨_, _, _, network, st, _, hscan, _, hres⟩ := GetTransactionsInBlockRange_response ha hb hrun
  have hinv := scanHeights_inv env _ [] _ _ (ScanInv.init env _) hscan
  simp only [List.nil_append] at hinv
  subst hres
  refine ⟨?_, ?_, ?_⟩
  · rw [mem_missing_buildResponse, hinv.missing x, mem_heightRange]
  · rw [mem_errors_buildResponse, hinv.errors x, mem_heightRange]
  · have := hinv.blocks x
    rw [mem_heightRange] at this
    exact this

/-- C2: in a successful response of `GetTransactionsInBlockRange`, no height
is both a key of `blocks` and in `missingBlocks`, or both a key of `blocks` and
in `errorBlocks`, or both in `missingBlocks` and in `errorBlocks`; and a height
that appears in any of the three lies in the scanned range. -/
theorem GetTransactionsInBlockRange_exclusive (env : Env) (fuel : Nat) (a b : Int)
    (calls : List Call) (res : BlockRangeResponse) (ha : IsInt64 a) (hb : IsInt64 b)
    (hrun : GetTransactionsInBlockRange env fuel a b = .done calls (.ok res)) (h : Int) :
    ¬ (h ∈ res.heights ∧ h ∈ res.missing) ∧
    ¬ (h ∈ res.heights ∧ h ∈ res.errors) ∧
    ¬ (h ∈ res.missing ∧ h ∈ res.errors) ∧
    (h ∈ res.heights ∨ h ∈ res.missing ∨ h ∈ res.errors → a ≤ h ∧ h ≤ lastHeight a b) := by
  obtain ⟨hm, he, hk⟩ := GetTransactionsInBlockRange_inv ha hb hrun h
  refine ⟨?_, ?_, ?_, ?_⟩
  · rintro ⟨h1, h2⟩
    obtain ⟨_, blk, hblk, _⟩ := hk.1 h1
    have := (hm.1 h2).2
    rw [hblk] at this
    simp at this
  · rintro ⟨h1, h2⟩
    obtain ⟨_, blk, hblk, hok⟩ := hk.1 h1
    obtain ⟨_, blk2, hblk2, hfail⟩ := he.1 h2
    rw [hblk] at hblk2
    cases hblk2
    rw [hok] at hfail
    cases hfail
  · rintro ⟨h1, h2⟩
    obtain ⟨_, blk, hblk, _⟩ := he.1 h2
    have := (hm.1 h1).2
    rw [hblk] at this
    simp at this
  · rintro (h1 | h1 | h1)
    · exact (hk.1 h1).1
    · exact (hm.1 h1).1
    · exact (he.1 h1).1

/-- Witness of C2: the sample scan of heights 5 to 7, at height 7. -/
theorem GetTransactionsInBlockRange_exclusive_witness :
    (IsInt64 5 ∧ IsInt64 7 ∧
      GetTransactionsInBlockRange sampleScanEnv 3 5 7
        = .done sampleScanCalls (.ok sampleScanResponse)) ∧
    (¬ (7 ∈ sampleScanResponse.heights ∧ 7 ∈ sampleScanResponse.missing) ∧
     ¬ (7 ∈ sampleScanResponse.heights ∧ 7 ∈ sampleScanResponse.errors) ∧
     ¬ (7 ∈ sampleScanResponse.missing ∧ 7 ∈ sampleScanResponse.errors) ∧
     (7 ∈ sampleScanResponse.heights ∨ 7 ∈ sampleScanResponse.missing ∨
        7 ∈ sampleScanResponse.errors → (5 : Int) ≤ 7 ∧ (7 : Int) ≤ lastHeight 5 7)) :=
  ⟨⟨by decide, by decide, by rfl⟩,
    GetTransactionsInBlockRange_exclusive sampleScanEnv 3 5 7 sampleScanCalls sampleScanResponse
      (by decide) (by decide) (by rfl) 7⟩

/-! ## Validation of the range -/

/-- C4: `GetTransactionsInBlockRange(from, to)` fails with `ErrBadRequest`
exactly when, after a `to` of 0 has been replaced by `from`, `from < 1` or
`to < from`; the failing call has queried no collaborator; `(5, 2)` fails; and
for `from >= 1` the request `(from, 0)` is accepted and runs as
`(from, from)`. -/
theorem GetTransactionsInBlockRange_badRequest (env : Env) (fuel : Nat) (a b : Int) :
    ((∃ calls, GetTransactionsInBlockRange env fuel a b = .done calls (.err .ErrBadRequest)) ↔
      (a < 1 ∨ defaultToHeight a b < a)) ∧
    (∀ calls, GetTransactionsInBlockRange env fuel a b = .done calls (.err .ErrBadRequest) →
      calls = []) ∧
    GetTransactionsInBlockRange env fuel 5 2 = .done [] (.err .ErrBadRequest) ∧
    (1 ≤ a →
      GetTransactionsInBlockRange env fuel a 0 = GetTransactionsInBlockRange env fuel a a ∧
      ∀ calls, GetTransactionsInBlockRange env fuel a 0 ≠ .done calls (.err .ErrBadRequest)) := by
  have key : ∀ (x y : Int) (calls : List Call),
      GetTransactionsInBlockRange env fuel x y = .done calls (.err .ErrBadRequest) →
      (x < 1 ∨ defaultToHeight x y < x) ∧ calls = [] := by
    intro x y calls hrun
    unfold GetTransactionsInBlockRange at hrun
    dsimp only at hrun
    by_cases hbad : x ≤ 0 ∨ defaultToHeight x y ≤ 0 ∨ x > defaultToHeight x y
    · rw [if_pos hbad] at hrun
      simp only [Run.done.injEq] at hrun
      exact ⟨by omega, hrun.1.symm⟩
    · rw [if_neg hbad] at hrun
      exfalso
      cases hs : env.Status with
      | error e => rw [hs] at hrun; simp at hrun
      | ok network =>
        rw [hs] at hrun
        dsimp only at hrun
        cases hl : heightLoop env (clampedToHeight x (defaultToHeight x y)) fuel x
            ⟨[Call.Status], [], [], []⟩ with
        | outOfFuel h st => rw [hl] at hrun; simp at hrun
        | panicked st => rw [hl] at hrun; simp at hrun
        | exited st => rw [hl] at hrun; simp at hrun
  have bad : ∀ (x y : Int), (x < 1 ∨ defaultToHeight x y < x) →
      GetTransactionsInBlockRange env fuel x y = .done [] (.err .ErrBadRequest) := by
    intro x y hc
    unfold GetTransactionsInBlockRange
    dsimp only
    rw [if_pos (by omega)]
  refine ⟨⟨?_, ?_⟩, ?_, ?_, ?_⟩
  · rintro ⟨calls, hrun⟩
    exact (key a b calls hrun).1
  · exact fun hc => ⟨[], bad a b hc⟩
  · exact fun calls hrun => (key a b calls hrun).2
  · exact bad 5 2 (Or.inr (by decide))
  · intro h1
    have e0 : defaultToHeight a 0 = a := by unfold defaultToHeight; simp
    have ea : defaultToHeight a a = a := by unfold defaultToHeight; simp
    constructor
    · unfold GetTransactionsInBlockRange
      rw [e0, ea]
    · intro calls hrun
      have := (key a 0 calls hrun).1
      rw [e0] at this
      omega

/-! ## The height loop at the largest `int64` -/

theorem fetchedHeights_append (xs ys : List Call) :
    fetchedHeights (xs ++ ys) = fetchedHeights xs ++ fetchedHeights ys := by
  unfold fetchedHeights
  exact List.filterMap_append _ _ _

theorem scanHeight_sampleEnv (h : Int) (st : ScanState) :
    scanHeight sampleEnv h st
      = some ⟨st.calls ++ [Call.GetBlockWithTxs h], st.missingBlocks.Add h, st.errorBlocks,
          st.txsByBlock⟩ := rfl

/-- On a chain without blocks, a scan whose last height is the largest `int64`
is still inside the loop after any number of iterations, and every iteration
has fetched one more block. -/
theorem heightLoop_sampleEnv_running :
    ∀ (fuel : Nat) (height : Int) (st : ScanState), height ≤ MaxInt64 →
      ∃ h' st', heightLoop sampleEnv MaxInt64 fuel height st = .outOfFuel h' st' ∧
        (fetchedHeights st'.calls).length = (fetchedHeights st.calls).length + fuel := by
  intro fuel
  induction fuel with
  | zero =>
    intro height st hle
    refine ⟨height, st, ?_, rfl⟩
    rw [heightLoop, if_pos hle]
  | succ n ih =>
    intro height st hle
    rw [heightLoop, if_pos hle, scanHeight_sampleEnv]
    dsimp only
    obtain ⟨h', st', hl, hlen⟩ := ih (wrapInt64 (height + 1))
      ⟨st.calls ++ [Call.GetBlockWithTxs height], st.missingBlocks.Add height, st.errorBlocks,
        st.txsByBlock⟩ (wrapInt64_le_max _)
    refine ⟨h', st', hl, ?_⟩
    rw [hlen, fetchedHeights_append]
    simp only [List.length_append]
    have : (fetchedHeights [Call.GetBlockWithTxs height]).length = 1 := rfl
    omega

theorem GetTransactionsInBlockRange_sampleEnv_max (fuel : Nat) :
    ∃ h' st', GetTransactionsInBlockRange sampleEnv fuel MaxInt64 MaxInt64 = .running h' st' ∧
      (fetchedHeights st'.calls).length = fuel := by
  obtain ⟨h', st', hl, hlen⟩ := heightLoop_sampleEnv_running fuel MaxInt64
    ⟨[Call.Status], [], [], []⟩ (le_refl _)
  refine ⟨h', st', ?_, ?_⟩
  · have hc : clampedToHeight MaxInt64 (defaultToHeight MaxInt64 MaxInt64) = MaxInt64 := by decide
    unfold GetTransactionsInBlockRange
    dsimp only
    rw [if_neg (by decide), hc]
    have hs : sampleEnv.Status = .ok "sample-1" := rfl
    rw [hs]
    dsimp only
    rw [hl]
  · rw [hlen]
    have h0 : (fetchedHeights (ScanState.mk [Call.Status] [] [] []).calls).length = 0 := rfl
    rw [h0]
    omega

theorem scanHeight_calls {env : Env} {h : Int} {st st' : ScanState}
    (hs : scanHeight env h st = some st') : st'.calls = st.calls ++ [Call.GetBlockWithTxs h] := by
  unfold scanHeight at hs
  cases hg : env.GetBlockWithTxs h with
  | error e =>
    rw [hg] at hs
    simp only [Option.some.injEq] at hs
    subst hs
    rfl
  | ok ob =>
    cases ob with
    | none =>
      rw [hg] at hs
      simp only [Option.some.injEq] at hs
      subst hs
      rfl
    | some blk =>
      rw [hg] at hs
      dsimp only at hs
      cases ht : txLoop env h blk.Txs blk.Block_Data_Txs 0 [] st.errorBlocks with
      | none => rw [ht] at hs; simp at hs
      | some r =>
        rw [ht] at hs
        dsimp only at hs
        by_cases hhas : Tracker.Has r.2 h = true
        · rw [if_pos hhas] at hs
          simp only [Option.some.injEq] at hs
          subst hs
          rfl
        · rw [if_neg hhas] at hs
          simp only [Option.some.injEq] at hs
          subst hs
          rfl

theorem scanHeights_calls (env : Env) :
    ∀ (L : List Int) (st st' : ScanState), scanHeights env L st = some st' →
      fetchedHeights st'.calls = fetchedHeights st.calls ++ L := by
  intro L
  induction L with
  | nil =>
    intro st st' hs
    simp only [scanHeights, Option.some.injEq] at hs
    subst hs
    simp
  | cons h rest ih =>
    intro st st' hs
    rw [scanHeights] at hs
    cases h1 : scanHeight env h st with
    | none => rw [h1] at hs; simp at hs
    | some st1 =>
      rw [h1] at hs
      dsimp only at hs
      rw [ih st1 st' hs, scanHeight_calls h1, fetchedHeights_append]
      have : fetchedHeights [Call.GetBlockWithTxs h] = [h] := rfl
      rw [this, List.append_assoc]
      rfl

/-- A response comes with block fetches for exactly the heights of the clamped
range, in order, and carries the skipped range exactly when the span exceeds
the page cap. -/
theorem GetTransactionsInBlockRange_scanned {env : Env} {fuel : Nat} {a b : Int}
    {calls : List Call} {res : BlockRangeResponse} (ha : IsInt64 a) (hb : IsInt64 b)
    (hrun : GetTransactionsInBlockRange env fuel a b = .done calls (.ok res)) :
    fetchedHeights calls
      = heightRange a (if defaultToHeight a b - a + 1 > 100 then a + 99 else defaultToHeight a b) ∧
    res.skippedBlockRange
      = (if defaultToHeight a b - a + 1 > 100 then some (a + 100, defaultToHeight a b)
         else none) := by
  obtain ⟨h1, hab, _, network, st, _, hscan, hcalls, hres⟩ :=
    GetTransactionsInBlockRange_response ha hb hrun
  have hd : defaultToHeight a b ≤ MaxInt64 := by
    unfold defaultToHeight
    split
    · exact ha.2
    · exact hb.2
  constructor
  · rw [hcalls, scanHeights_calls env _ _ _ hscan]
    unfold lastHeight
    rw [clampedToHeight_eq h1 hab hd]
    rfl
  · rw [hres]
    exact skippedBlockRange_eq h1 hab hd

/-- C1 (the code at the failing input): not every accepted request has its
heights reported.  For the accepted request
`(9223372036854775807, 9223372036854775807)` the fetch of the one height of the
range fails, yet the height is never reported in `missingBlocks`: the `int64`
increment of the loop counter wraps around and the call is still inside the
height loop after any number of iterations, so no response is built.  And when
the reply for a height holds fewer decoded than raw transactions, the index
`resBlock.Txs[txIdx]` panics and no response is built either.  What holds is
the claim for every response that is returned: a height `h` of the scanned range
is in `missingBlocks` exactly when its block fetch fails or returns no block, in
`errorBlocks` exactly when the block was fetched and some message of one of its
transactions fails to unpack, and a key of `blocks` exactly when the block was
fetched and every message unpacked; a height whose fetch fails is absent from
`blocks`, and a height with a decode failure is absent from `blocks` and from
`missingBlocks`.  The response is returned within 100 iterations when the chain
status is available, the last height is below the largest `int64` and the loop
body panics at no height of the range, as in the sample scan of heights 5
to 7. -/
theorem GetTransactionsInBlockRange_partition :
    ((1 ≤ MaxInt64 ∧ MaxInt64 ≤ defaultToHeight MaxInt64 MaxInt64) ∧
      (fetchedBlock sampleEnv MaxInt64).isNone = true ∧
      ∀ fuel : Nat, ∃ height st,
        GetTransactionsInBlockRange sampleEnv fuel MaxInt64 MaxInt64 = .running height st) ∧
    (fetchedBlock sampleShortBlockEnv 5
        = some ⟨[], [⟨[10, 1], [171, 205]⟩], 1700000005⟩ ∧
      GetTransactionsInBlockRange sampleShortBlockEnv 1 5 5
        = .done [Call.Status, Call.GetBlockWithTxs 5] .panic) ∧
    (∀ (env : Env) (fuel : Nat) (a b : Int), IsInt64 a → IsInt64 b →
      (∀ (calls : List Call) (res : BlockRangeResponse),
        GetTransactionsInBlockRange env fuel a b = .done calls (.ok res) →
        ∀ h : Int, a ≤ h → h ≤ lastHeight a b →
          (h ∈ res.missing ↔ (fetchedBlock env h).isNone = true) ∧
          (h ∈ res.errors ↔
            ∃ blk, fetchedBlock env h = some blk ∧ hasUnpackFailure blk = true) ∧
          (h ∈ res.heights ↔
            ∃ blk, fetchedBlock env h = some blk ∧ hasUnpackFailure blk = false) ∧
          ((fetchedBlock env h).isNone = true → h ∉ res.heights) ∧
          (∀ blk, fetchedBlock env h = some blk → hasUnpackFailure blk = true →
            h ∉ res.heights ∧ h ∉ res.missing)) ∧
      (∀ network : String, env.Status = .ok network → 1 ≤ a → a ≤ defaultToHeight a b →
        lastHeight a b < MaxInt64 →
        (∀ h, a ≤ h → h ≤ lastHeight a b → ∀ s, (scanHeight env h s).isSome = true) →
        100 ≤ fuel →
        ∃ calls res, GetTransactionsInBlockRange env fuel a b = .done calls (.ok res))) ∧
    (GetTransactionsInBlockRange sampleScanEnv 3 5 7
        = .done sampleScanCalls (.ok sampleScanResponse) ∧
      sampleScanResponse.heights = [5] ∧ sampleScanResponse.errors = [6] ∧
      sampleScanResponse.missing = [7]) := by
  refine ⟨⟨by decide, by rfl, ?_⟩, ⟨by rfl, by rfl⟩, ?_, ⟨by rfl, by rfl, by rfl, by rfl⟩⟩
  · intro fuel
    obtain ⟨height, st, hrun, _⟩ := GetTransactionsInBlockRange_sampleEnv_max fuel
    exact ⟨height, st, hrun⟩
  · intro env fuel a b ha hb
    constructor
    · intro calls res hrun h hlo hhi
      obtain ⟨hm, he, hk⟩ := GetTransactionsInBlockRange_inv ha hb hrun h
      have hr : a ≤ h ∧ h ≤ lastHeight a b := ⟨hlo, hhi⟩
      refine ⟨?_, ?_, ?_, ?_, ?_⟩
      · rw [hm]
        exact and_iff_right hr
      · rw [he]
        exact and_iff_right hr
      · rw [hk]
        exact and_iff_right hr
      · intro hnone hin
        obtain ⟨_, blk, hblk, _⟩ := hk.1 hin
        rw [hblk] at hnone
        simp at hnone
      · intro blk hblk hfail
        constructor
        · intro hin
          obtain ⟨_, blk2, hblk2, hok⟩ := hk.1 hin
          rw [hblk] at hblk2
          cases hblk2
          rw [hfail] at hok
          cases hok
        · intro hin
          have := (hm.1 hin).2
          rw [hblk] at this
          simp at this
    · intro network hstatus h1 hab hlast hsafe hfuel
      obtain ⟨st, _, hrun⟩ :=
        GetTransactionsInBlockRange_returns ha hb h1 hab hlast hstatus hsafe hfuel
      exact ⟨_, _, hrun⟩

/-- C3 (the code at the failing input): a response of the scan comes with
block fetches for exactly `from .. from+99` and the skipped range
`[from+100, to]` when the span exceeds 100, and for exactly `from .. to` without
a skipped range otherwise; `(10, 250)` scans `10 .. 109` and reports
`[110, 250]`.  But the request
`(9223372036854775807, 9223372036854775807)`, with `from >= 1`, `to >= from`
and a span of one height, does not stop after height `from`: the `int64`
increment wraps around, the second block fetched is the one of height
`-9223372036854775808`, outside `from .. to`, and no response is built. -/
theorem GetTransactionsInBlockRange_scans_outside_range :
    (∀ (env : Env) (fuel : Nat) (a b : Int) (calls : List Call) (res : BlockRangeResponse),
      IsInt64 a → IsInt64 b →
      GetTransactionsInBlockRange env fuel a b = .done calls (.ok res) →
      fetchedHeights calls
        = heightRange a
            (if defaultToHeight a b - a + 1 > 100 then a + 99 else defaultToHeight a b) ∧
      res.skippedBlockRange
        = (if defaultToHeight a b - a + 1 > 100 then some (a + 100, defaultToHeight a b)
           else none)) ∧
    (∀ fuel : Nat, 100 ≤ fuel →
      ∃ calls res, GetTransactionsInBlockRange sampleEnv fuel 10 250 = .done calls (.ok res) ∧
        fetchedHeights calls = heightRange 10 109 ∧ res.skippedBlockRange = some (110, 250)) ∧
    (1 ≤ MaxInt64 ∧ MaxInt64 ≤ MaxInt64 ∧ MaxInt64 - MaxInt64 + 1 ≤ 100) ∧
    GetTransactionsInBlockRange sampleEnv 2 MaxInt64 MaxInt64
      = .running (MinInt64 + 1)
          ⟨[Call.Status, Call.GetBlockWithTxs MaxInt64, Call.GetBlockWithTxs MinInt64],
            [MaxInt64, MinInt64], [], []⟩ ∧
    heightRange MaxInt64 MaxInt64 = [MaxInt64] ∧
    MinInt64 ∉ heightRange MaxInt64 MaxInt64 := by
  refine ⟨?_, ?_, by decide, by rfl, by decide, by decide⟩
  · intro env fuel a b calls res ha hb hrun
    exact GetTransactionsInBlockRange_scanned ha hb hrun
  · intro fuel hfuel
    have ha : IsInt64 10 := by decide
    have hb : IsInt64 250 := by decide
    obtain ⟨st, _, hrun⟩ := @GetTransactionsInBlockRange_returns sampleEnv fuel 10 250
      "sample-1" ha hb (by decide) (by decide) (by decide) rfl
      (fun h _ _ s => by rw [scanHeight_sampleEnv]; rfl) hfuel
    refine ⟨_, _, hrun, ?_⟩
    have := GetTransactionsInBlockRange_scanned ha hb hrun
    simpa [defaultToHeight] using this

/-- C5 (the code at the failing input): for a valid range the call returns an
error exactly when the chain status query fails, and then an Internal error
after the status query alone; but a successful status query does not bring a
response: for the valid request `(9223372036854775807, 9223372036854775807)`
the status query succeeds and the caller gets neither a response nor an error,
the call is inside the height loop after any number of iterations. -/
theorem GetTransactionsInBlockRange_no_response (fuel : Nat) :
    (∀ (env : Env) (a b : Int) (calls : List Call) (e : GoError),
      1 ≤ a → a ≤ defaultToHeight a b →
      (GetTransactionsInBlockRange env fuel a b = .done calls (.err e) ↔
        ∃ text, env.Status = .error text ∧ e = .status .Internal text ∧ calls = [Call.Status])) ∧
    sampleEnv.Status = .ok "sample-1" ∧
    (∀ calls result,
      GetTransactionsInBlockRange sampleEnv fuel MaxInt64 MaxInt64 ≠ .done calls result) := by
  refine ⟨?_, rfl, ?_⟩
  · intro env a b calls e h1 hab
    unfold GetTransactionsInBlockRange
    dsimp only
    rw [if_neg (by omega)]
    cases hs : env.Status with
    | error text =>
      dsimp only
      constructor
      · intro h
        simp only [Run.done.injEq, Outcome.err.injEq] at h
        exact ⟨text, rfl, h.2.symm, h.1.symm⟩
      · rintro ⟨t, ht, he, hc⟩
        cases ht
        rw [he, hc]
    | ok network =>
      dsimp only
      constructor
      · intro h
        exfalso
        cases hl : heightLoop env (clampedToHeight a (defaultToHeight a b)) fuel a
            ⟨[Call.Status], [], [], []⟩ with
        | outOfFuel h' st => rw [hl] at h; simp at h
        | panicked st => rw [hl] at h; simp at h
        | exited st => rw [hl] at h; simp at h
      · rintro ⟨t, ht, _, _⟩
        cases ht
  · intro calls result hrun
    obtain ⟨h', st', hr, _⟩ := GetTransactionsInBlockRange_sampleEnv_max fuel
    rw [hr] at hrun
    cases hrun

/-- C6 (the code at the failing input): for the accepted request
`(9223372036854775807, 9223372036854775807)` the height loop does not end
after 100 block fetches: after `fuel` iterations, for every `fuel`, it has
fetched `fuel` blocks and is still running; after 101 iterations it has
fetched 101 blocks. -/
theorem GetTransactionsInBlockRange_loop_unbounded (fuel : Nat) :
    (∃ h' st', GetTransactionsInBlockRange sampleEnv fuel MaxInt64 MaxInt64 = .running h' st' ∧
      (fetchedHeights st'.calls).length = fuel) ∧
    (∃ h' st', GetTransactionsInBlockRange sampleEnv 101 MaxInt64 MaxInt64 = .running h' st' ∧
      (fetchedHeights st'.calls).length = 101) :=
  ⟨GetTransactionsInBlockRange_sampleEnv_max fuel, GetTransactionsInBlockRange_sampleEnv_max 101⟩

/-! ## The message loop of the decoder -/

theorem buildMsgInfo_some {env : Env} {i : Nat} {m : AnyMsg} {name : String}
    {parsed : Outcome MessageContent} {e : MsgInfo} (h : buildMsgInfo env i m name parsed = some e) :
    e.idx = i ∧ e.type = name ∧ e.carries env parsed := by
  unfold buildMsgInfo at h
  cases parsed with
  | panic => simp at h
  | err err =>
    simp only [Option.some.injEq] at h
    subst h
    exact ⟨rfl, rfl, rfl, rfl⟩
  | ok pc =>
    simp only [Option.some.injEq] at h
    subst h
    exact ⟨rfl, rfl, rfl, rfl⟩

/-- A message loop that returns entries has unpacked every message, and entry
`k` is the entry built from message `k` alone, with the parser chosen for it. -/
theorem msgsLoop_ok (env : Env) (tx : Tx) (txRes : TxResponse) :
    ∀ (msgs : List AnyMsg) (i : Nat) (infos : List MsgInfo),
      msgsLoop env tx txRes msgs i = .ok infos →
      allUnpack msgs = true ∧ infos.length = msgs.length ∧
      ∀ k e, infos[k]? = some e →
        ∃ m c, msgs[k]? = some m ∧ m.UnpackAny = .ok c ∧
          buildMsgInfo env (i + k) m (env.ProtoMessageName c)
            (messageParserFor env (env.ProtoMessageName c) c (i + k) tx txRes) = some e := by
  intro msgs
  induction msgs with
  | nil =>
    intro i infos h
    simp only [msgsLoop, Outcome.ok.injEq] at h
    subst h
    simp [allUnpack]
  | cons msg rest ih =>
    intro i infos h
    rw [msgsLoop] at h
    cases hu : msg.UnpackAny with
    | error err => rw [hu] at h; simp at h
    | ok c =>
      rw [hu] at h
      dsimp only at h
      cases hb : buildMsgInfo env i msg (env.ProtoMessageName c)
          (messageParserFor env (env.ProtoMessageName c) c i tx txRes) with
      | none => rw [hb] at h; simp at h
      | some info =>
        rw [hb] at h
        dsimp only at h
        cases hr : msgsLoop env tx txRes rest (i + 1) with
        | err e => rw [hr] at h; simp at h
        | panic => rw [hr] at h; simp at h
        | ok more =>
          rw [hr] at h
          simp only [Outcome.ok.injEq] at h
          subst h
          obtain ⟨hall, hlen, hent⟩ := ih (i + 1) more hr
          have hf : unpackFails msg = false := by unfold unpackFails; rw [hu]
          refine ⟨?_, ?_, ?_⟩
          · unfold allUnpack at hall ⊢
            simp only [List.all_cons, hf, Bool.not_false, Bool.true_and]
            exact hall
          · simp [hlen]
          · intro k e hk
            cases k with
            | zero =>
              simp only [List.getElem?_cons_zero, Option.some.injEq] at hk
              subst hk
              exact ⟨msg, c, by simp, hu, by simpa using hb⟩
            | succ k =>
              simp only [List.getElem?_cons_succ] at hk
              obtain ⟨m, c2, hm, hc2, hb2⟩ := hent k e hk
              refine ⟨m, c2, by simpa using hm, hc2, ?_⟩
              have : i + (k + 1) = i + 1 + k := by omega
              rw [this]
              exact hb2

theorem msgsLoop_returns (env : Env) (tx : Tx) (txRes : TxResponse) :
    ∀ (msgs : List AnyMsg) (i : Nat), allUnpack msgs = true →
      anyParserPanics env tx txRes msgs i = false →
      ∃ infos, msgsLoop env tx txRes msgs i = .ok infos := by
  intro msgs
  induction msgs with
  | nil => exact fun i _ _ => ⟨[], rfl⟩
  | cons msg rest ih =>
    intro i hall hpan
    unfold allUnpack at hall
    simp only [List.all_cons, Bool.and_eq_true, Bool.not_eq_true'] at hall
    rw [anyParserPanics] at hpan
    simp only [Bool.or_eq_false_iff] at hpan
    obtain ⟨infos, hi⟩ := ih (i + 1) (by unfold allUnpack; exact hall.2) hpan.2
    rw [msgsLoop]
    cases hu : msg.UnpackAny with
    | error err =>
      have := hall.1
      unfold unpackFails at this
      rw [hu] at this
      simp at this
    | ok c =>
      dsimp only
      have hp := hpan.1
      unfold parserPanics at hp
      rw [hu] at hp
      dsimp only at hp
      cases hparse : messageParserFor env (env.ProtoMessageName c) c i tx txRes with
      | panic => rw [hparse] at hp; simp at hp
      | err e =>
        rw [hi]
        exact ⟨_, rfl⟩
      | ok pc =>
        rw [hi]
        exact ⟨_, rfl⟩

theorem msgsLoop_unpack_failure (env : Env) (tx : Tx) (txRes : TxResponse) :
    ∀ (msgs : List AnyMsg) (i : Nat), allUnpack msgs = false →
      anyParserPanics env tx txRes msgs i = false →
      ∃ text, msgsLoop env tx txRes msgs i = .err (.status .Internal text) := by
  intro msgs
  induction msgs with
  | nil =>
    intro i hall _
    simp [allUnpack] at hall
  | cons msg rest ih =>
    intro i hall hpan
    rw [anyParserPanics] at hpan
    simp only [Bool.or_eq_false_iff] at hpan
    rw [msgsLoop]
    cases hu : msg.UnpackAny with
    | error err => exact ⟨_, rfl⟩
    | ok c =>
      dsimp only
      have hf : unpackFails msg = false := by unfold unpackFails; rw [hu]
      have hrest : allUnpack rest = false := by
        unfold allUnpack at hall ⊢
        simpa [hf] using hall
      obtain ⟨text, ht⟩ := ih (i + 1) hrest hpan.2
      have hp := hpan.1
      unfold parserPanics at hp
      rw [hu] at hp
      dsimp only at hp
      cases hparse : messageParserFor env (env.ProtoMessageName c) c i tx txRes with
      | panic => rw [hparse] at hp; simp at hp
      | err e =>
        rw [ht]
        exact ⟨_, rfl⟩
      | ok pc =>
        rw [ht]
        exact ⟨_, rfl⟩

/-- The call for a well-formed hash that no interceptor handles and whose
transaction the chain returns: the outcome of the message loop, wrapped into
the response. -/
theorem GetTransactionByHash_found {env : Env} {hashStr : String} {res : GetTxResponse}
    (hpat : patternTxHash hashStr = true) (hint : runInterceptor env hashStr = none)
    (hlen : 2 ≤ (env.NormalizeTransactionHash hashStr true).length)
    (hget : env.GetTx ((env.NormalizeTransactionHash hashStr true).drop 2) = .ok (some res)) :
    GetTransactionByHash env hashStr =
      match msgsLoop env res.Tx res.TxResponse res.Tx.Body_Messages 0 with
      | .err e => .err e
      | .panic => .panic
      | .ok msgsInfo =>
        .response
          { height := res.TxResponse.Height
            hash := res.TxResponse.TxHash
            msgs := msgsInfo
            code := res.TxResponse.Code
            success := decide (res.TxResponse.Code = 0)
            gasLimit := res.TxResponse.GasWanted
            gasUsed := res.TxResponse.GasUsed
            events := env.ConvertTxEvent res.TxResponse.Events
            memo := if res.Tx.Body_Memo.length > 0 then some res.Tx.Body_Memo else none } := by
  unfold GetTransactionByHash
  rw [hpat, hint]
  dsimp only
  rw [if_neg (by simp), if_neg (by omega), hget]

theorem GetTransactionByHash_response {env : Env} {hashStr : String} {res : GetTxResponse}
    (hpat : patternTxHash hashStr = true) (hint : runInterceptor env hashStr = none)
    (hlen : 2 ≤ (env.NormalizeTransactionHash hashStr true).length)
    (hget : env.GetTx ((env.NormalizeTransactionHash hashStr true).drop 2) = .ok (some res))
    {r : TxByHashResponse} (hr : GetTransactionByHash env hashStr = .response r) :
    msgsLoop env res.Tx res.TxResponse res.Tx.Body_Messages 0 = .ok r.msgs := by
  rw [GetTransactionByHash_found hpat hint hlen hget] at hr
  cases hl : msgsLoop env res.Tx res.TxResponse res.Tx.Body_Messages 0 with
  | err e => rw [hl] at hr; simp at hr
  | panic => rw [hl] at hr; simp at hr
  | ok infos =>
    rw [hl] at hr
    simp only [TxByHashResult.response.injEq] at hr
    subst hr
    rfl

/-! ## One entry per message -/

/-- C7 (counterexample): a transaction found by `GetTransactionByHash` with
two messages, the second of which fails to unpack, yields no response at all:
the call fails with an Internal error, and the entry of the first message is
lost with it. -/
theorem GetTransactionByHash_unpack_failure_aborts :
    patternTxHash sampleHash = true ∧
    runInterceptor (sampleTxEnv [sampleSendAny, sampleBrokenAny]) sampleHash = none ∧
    (∃ res, (sampleTxEnv [sampleSendAny, sampleBrokenAny]).GetTx sampleHash = .ok (some res) ∧
      res.Tx.Body_Messages.length = 2) ∧
    GetTransactionByHash (sampleTxEnv [sampleSendAny, sampleBrokenAny]) sampleHash
      = .err (.status .Internal "failed to unpack message: no concrete type registered") ∧
    ∀ r, GetTransactionByHash (sampleTxEnv [sampleSendAny, sampleBrokenAny]) sampleHash
      ≠ .response r := by
  have hrun : GetTransactionByHash (sampleTxEnv [sampleSendAny, sampleBrokenAny]) sampleHash
      = .err (.status .Internal "failed to unpack message: no concrete type registered") := by rfl
  refine ⟨by decide, rfl, ⟨_, rfl, rfl⟩, hrun, ?_⟩
  intro r hr
  rw [hrun] at hr
  cases hr

/-- C7 (amended): for a transaction found by `GetTransactionByHash`, a
response is returned only if every message unpacks, and then its message list
has exactly one entry per message, in order, entry `i` carrying index `i` and
the type name of message `i`; it is returned whenever every message unpacks and
no message parser panics.  When a message fails to unpack no response is
returned, and the call then fails with an Internal error provided no message
parser panics. -/
theorem GetTransactionByHash_msgs (env : Env) (hashStr : String) (res : GetTxResponse)
    (hpat : patternTxHash hashStr = true) (hint : runInterceptor env hashStr = none)
    (hlen : 2 ≤ (env.NormalizeTransactionHash hashStr true).length)
    (hget : env.GetTx ((env.NormalizeTransactionHash hashStr true).drop 2) = .ok (some res)) :
    (∀ r, GetTransactionByHash env hashStr = .response r →
      allUnpack res.Tx.Body_Messages = true ∧
      r.msgs.length = res.Tx.Body_Messages.length ∧
      ∀ (i : Nat) (e : MsgInfo), r.msgs[i]? = some e →
        e.idx = i ∧ ∃ m c, res.Tx.Body_Messages[i]? = some m ∧ m.UnpackAny = .ok c ∧
          e.type = env.ProtoMessageName c) ∧
    (allUnpack res.Tx.Body_Messages = true →
      anyParserPanics env res.Tx res.TxResponse res.Tx.Body_Messages 0 = false →
      ∃ r, GetTransactionByHash env hashStr = .response r) ∧
    (allUnpack res.Tx.Body_Messages = false →
      ∀ r, GetTransactionByHash env hashStr ≠ .response r) ∧
    (allUnpack res.Tx.Body_Messages = false →
      anyParserPanics env res.Tx res.TxResponse res.Tx.Body_Messages 0 = false →
      ∃ text, GetTransactionByHash env hashStr = .err (.status .Internal text)) := by
  have hfound := GetTransactionByHash_found hpat hint hlen hget
  have part1 : ∀ r, GetTransactionByHash env hashStr = .response r →
      allUnpack res.Tx.Body_Messages = true ∧
      r.msgs.length = res.Tx.Body_Messages.length ∧
      ∀ (i : Nat) (e : MsgInfo), r.msgs[i]? = some e →
        e.idx = i ∧ ∃ m c, res.Tx.Body_Messages[i]? = some m ∧ m.UnpackAny = .ok c ∧
          e.type = env.ProtoMessageName c := by
    intro r hr
    obtain ⟨hall, hl, hent⟩ := msgsLoop_ok env _ _ _ _ _
      (GetTransactionByHash_response hpat hint hlen hget hr)
    refine ⟨hall, hl, ?_⟩
    intro i e hi
    obtain ⟨m, c, hm, hc, hb⟩ := hent i e hi
    obtain ⟨hidx, htype, _⟩ := buildMsgInfo_some hb
    exact ⟨by omega, m, c, hm, hc, htype⟩
  refine ⟨part1, ?_, ?_, ?_⟩
  · intro hall hpan
    obtain ⟨infos, hi⟩ := msgsLoop_returns env _ _ _ 0 hall hpan
    rw [hfound, hi]
    exact ⟨_, rfl⟩
  · intro hall r hr
    have := (part1 r hr).1
    rw [hall] at this
    cases this
  · intro hall hpan
    obtain ⟨text, ht⟩ := msgsLoop_unpack_failure env _ _ _ 0 hall hpan
    rw [hfound, ht]
    exact ⟨text, rfl⟩

/-- Witness of C7 (amended): a found transaction of two messages that both
unpack, the second of a type the default parser does not support; the response
is returned. -/
theorem GetTransactionByHash_msgs_witness :
    (patternTxHash sampleHash = true ∧
      runInterceptor (sampleTxEnv [sampleSendAny, sampleUnknownAny]) sampleHash = none ∧
      2 ≤ ((sampleTxEnv [sampleSendAny, sampleUnknownAny]).NormalizeTransactionHash
        sampleHash true).length) ∧
    ∃ r, GetTransactionByHash (sampleTxEnv [sampleSendAny, sampleUnknownAny]) sampleHash
      = .response r :=
  ⟨⟨by decide, rfl, by decide⟩,
    (GetTransactionByHash_msgs (sampleTxEnv [sampleSendAny, sampleUnknownAny]) sampleHash
      ⟨⟨[sampleSendAny, sampleUnknownAny], "memo"⟩, ⟨12, "00AB", 0, 200000, 150000, []⟩⟩
      (by decide) rfl (by decide) (by rfl)).2.1 (by rfl) (by rfl)⟩

/-! ## Content and content error -/

/-- C8: in a response of `GetTransactionByHash`, entry `i` carries exactly one
of `content` and `contentError`: the error text when the parser chosen for
message `i` returned an error, the parser's result when it returned one.  A
parser error aborts nothing: when every message unpacks and no parser panics the
response is returned with all entries.  And the entry of message `j` depends on
the parser outcome for message `j` only: replacing the parser table by one that
gives the same outcome on message `j` leaves entry `j` unchanged, whatever it
does to the other messages. -/
theorem GetTransactionByHash_content (env : Env) (hashStr : String) (res : GetTxResponse)
    (hpat : patternTxHash hashStr = true) (hint : runInterceptor env hashStr = none)
    (hlen : 2 ≤ (env.NormalizeTransactionHash hashStr true).length)
    (hget : env.GetTx ((env.NormalizeTransactionHash hashStr true).drop 2) = .ok (some res)) :
    (∀ r, GetTransactionByHash env hashStr = .response r →
      ∀ (i : Nat) (e : MsgInfo), r.msgs[i]? = some e →
        (e.content.isSome = true ↔ e.contentError.isNone = true) ∧
        ∃ m c, res.Tx.Body_Messages[i]? = some m ∧ m.UnpackAny = .ok c ∧
          e.carries env
            (messageParserFor env (env.ProtoMessageName c) c i res.Tx res.TxResponse)) ∧
    (allUnpack res.Tx.Body_Messages = true →
      anyParserPanics env res.Tx res.TxResponse res.Tx.Body_Messages 0 = false →
      ∃ r, GetTransactionByHash env hashStr = .response r ∧
        r.msgs.length = res.Tx.Body_Messages.length) ∧
    (∀ (parsers : String → Option MessageParser) (r r2 : TxByHashResponse),
      GetTransactionByHash env hashStr = .response r →
      GetTransactionByHash (env.withParsers parsers) hashStr = .response r2 →
      ∀ j m c, res.Tx.Body_Messages[j]? = some m → m.UnpackAny = .ok c →
        messageParserFor (env.withParsers parsers) (env.ProtoMessageName c) c j res.Tx
            res.TxResponse
          = messageParserFor env (env.ProtoMessageName c) c j res.Tx res.TxResponse →
        r2.msgs[j]? = r.msgs[j]?) := by
  have hfound := GetTransactionByHash_found hpat hint hlen hget
  refine ⟨?_, ?_, ?_⟩
  · intro r hr i e hi
    obtain ⟨_, _, hent⟩ := msgsLoop_ok env _ _ _ _ _
      (GetTransactionByHash_response hpat hint hlen hget hr)
    obtain ⟨m, c, hm, hc, hb⟩ := hent i e hi
    rw [Nat.zero_add] at hb
    have hcar := (buildMsgInfo_some hb).2.2
    refine ⟨?_, m, c, hm, hc, hcar⟩
    cases hp : messageParserFor env (env.ProtoMessageName c) c i res.Tx res.TxResponse with
    | ok pc =>
      rw [hp] at hcar
      obtain ⟨h1, h2⟩ := hcar
      simp [h1, h2]
    | err err =>
      rw [hp] at hcar
      obtain ⟨h1, h2⟩ := hcar
      simp [h1, h2]
    | panic =>
      rw [hp] at hcar
      exact hcar.elim
  · intro hall hpan
    obtain ⟨infos, hi⟩ := msgsLoop_returns env _ _ _ 0 hall hpan
    have hr : GetTransactionByHash env hashStr = .response
        { height := res.TxResponse.Height
          hash := res.TxResponse.TxHash
          msgs := infos
          code := res.TxResponse.Code
          success := decide (res.TxResponse.Code = 0)
          gasLimit := res.TxResponse.GasWanted
          gasUsed := res.TxResponse.GasUsed
          events := env.ConvertTxEvent res.TxResponse.Events
          memo := if res.Tx.Body_Memo.length > 0 then some res.Tx.Body_Memo else none } := by
      rw [hfound, hi]
    exact ⟨_, hr, (msgsLoop_ok env _ _ _ _ _ hi).2.1⟩
  · intro parsers r r2 hr hr2 j m c hm hc hsame
    have hint2 : runInterceptor (env.withParsers parsers) hashStr = none := hint
    obtain ⟨_, hl, hent⟩ := msgsLoop_ok env _ _ _ _ _
      (GetTransactionByHash_response hpat hint hlen hget hr)
    obtain ⟨_, hl2, hent2⟩ := msgsLoop_ok (env.withParsers parsers) _ _ _ _ _
      (@GetTransactionByHash_response (env.withParsers parsers) hashStr res hpat hint2 hlen hget r2 hr2)
    have hj : j < res.Tx.Body_Messages.length := by
      rcases List.getElem?_eq_some_iff.1 hm with ⟨hj, _⟩
      exact hj
    have he : ∃ e, r.msgs[j]? = some e :=
      ⟨r.msgs[j], List.getElem?_eq_getElem (by omega)⟩
    have he2 : ∃ e, r2.msgs[j]? = some e :=
      ⟨r2.msgs[j], List.getElem?_eq_getElem (by omega)⟩
    obtain ⟨e, hje⟩ := he
    obtain ⟨e2, hje2⟩ := he2
    obtain ⟨m1, c1, hm1, hc1, hb1⟩ := hent j e hje
    obtain ⟨m2, c2, hm2, hc2, hb2⟩ := hent2 j e2 hje2
    rw [hm] at hm1 hm2
    cases hm1
    cases hm2
    rw [hc] at hc1 hc2
    cases hc1
    cases hc2
    rw [Nat.zero_add] at hb1 hb2
    have hb2' : buildMsgInfo env j m (env.ProtoMessageName c)
        (messageParserFor (env.withParsers parsers) (env.ProtoMessageName c) c j res.Tx
          res.TxResponse) = some e2 := hb2
    rw [hsame, hb1] at hb2'
    rw [hje, hje2]
    exact hb2'.symm

/-- Witness of C8: a found transaction whose first message is of a type the
default parser does not support (its parser fails) and whose second message is
a transfer; the response is returned with both entries. -/
theorem GetTransactionByHash_content_witness :
    (patternTxHash sampleHash = true ∧
      runInterceptor (sampleTxEnv [sampleUnknownAny, sampleSendAny]) sampleHash = none ∧
      2 ≤ ((sampleTxEnv [sampleUnknownAny, sampleSendAny]).NormalizeTransactionHash
        sampleHash true).length) ∧
    ∃ r, GetTransactionByHash (sampleTxEnv [sampleUnknownAny, sampleSendAny]) sampleHash
      = .response r ∧ r.msgs.length = 2 :=
  ⟨⟨by decide, rfl, by decide⟩,
    (GetTransactionByHash_content (sampleTxEnv [sampleUnknownAny, sampleSendAny]) sampleHash
      ⟨⟨[sampleUnknownAny, sampleSendAny], "memo"⟩, ⟨12, "00AB", 0, 200000, 150000, []⟩⟩
      (by decide) rfl (by decide) (by rfl)).2.1 (by rfl) (by rfl)⟩

/-! ## The kinds the default parser knows -/

/-- C9 (the code at the failing input): the default parser returns an error
only for a message of none of the listed kinds, and then
`ErrNotSupportedMessageType`; but for a message of a listed kind it does not
always return a content map: on a legacy submit-proposal message without
content, and on a grant message without authorization, it dereferences the
absent field and panics. -/
theorem defaultMessageParser_listed_kind_panics (env : Env) (msgIdx : Nat) (tx : Tx)
    (txResponse : TxResponse) (deposit : List Coin) (proposer granter grantee : String)
    (expiration : Option Time) :
    (∀ msg, defaultMessageParser env msg msgIdx tx txResponse = .err .ErrNotSupportedMessageType ↔
      msg.listed = false) ∧
    (∀ msg e, defaultMessageParser env msg msgIdx tx txResponse = .err e →
      e = .ErrNotSupportedMessageType) ∧
    (Msg.govlegacy_MsgSubmitProposal none deposit proposer).listed = true ∧
    defaultMessageParser env (.govlegacy_MsgSubmitProposal none deposit proposer) msgIdx tx
      txResponse = .panic ∧
    (Msg.authz_MsgGrant granter grantee none expiration).listed = true ∧
    defaultMessageParser env (.authz_MsgGrant granter grantee none expiration) msgIdx tx
      txResponse = .panic := by
  refine ⟨?_, ?_, rfl, ?_, rfl, ?_⟩
  · intro msg
    cases msg <;> simp [defaultMessageParser, Msg.listed, buildPacketResponse] <;>
      (repeat' split) <;> simp
  · intro msg e
    cases msg <;> simp [defaultMessageParser, buildPacketResponse] <;>
      (repeat' split) <;> first | exact fun h => h.symm | simp
  · simp [defaultMessageParser]
  · simp [defaultMessageParser]

/-! ## Handler resolution -/

/-- C10: the parser used for a message type name is the entry of the parsers
table under that name when there is one and the default parser otherwise, and
the message loop of `GetTransactionByHash` builds the entry of a message from
the outcome of that parser; the involvers extractor used for a message is the
entry of the extractors table under its type name when there is one and the
default extractor otherwise, and the message loop of
`GetTransactionsInBlockRange` applies that extractor.  A name without an entry
resolves to the default handler, never to an error. -/
theorem handler_resolution (env : Env) :
    (∀ name p, env.messageParsers name = some p → messageParserFor env name = p) ∧
    (∀ name, env.messageParsers name = none →
      messageParserFor env name = defaultMessageParser env) ∧
    (∀ msg x, env.messageInvolversExtractors (env.ProtoMessageName msg) = some x →
      messageInvolversExtractorFor env msg = x) ∧
    (∀ msg, env.messageInvolversExtractors (env.ProtoMessageName msg) = none →
      messageInvolversExtractorFor env msg = defaultMessageInvolversExtractor env) ∧
    (∀ (tx : Tx) (txRes : TxResponse) (m : AnyMsg) (rest : List AnyMsg) (i : Nat) (c : Msg),
      m.UnpackAny = .ok c →
      msgsLoop env tx txRes (m :: rest) i =
        match buildMsgInfo env i m (env.ProtoMessageName c)
            (((env.messageParsers (env.ProtoMessageName c)).getD (defaultMessageParser env))
              c i tx txRes) with
        | none => .panic
        | some msgInfo =>
          match msgsLoop env tx txRes rest (i + 1) with
          | .ok more => .ok (msgInfo :: more)
          | .err e => .err e
          | .panic => .panic) ∧
    (∀ (height : Int) (tx : Tx) (tmTx : TmTx) (m : AnyMsg) (rest : List AnyMsg)
      (st : MessageLoopState) (c : Msg), m.UnpackAny = .ok c →
      messageLoop env height tx tmTx (m :: rest) st =
        match ((env.messageInvolversExtractors (env.ProtoMessageName c)).getD
            (defaultMessageInvolversExtractor env)) c tx tmTx with
        | .panic => none
        | .err _ =>
          messageLoop env height tx tmTx rest
            ⟨st.involvers, st.messagesType ++ [m.TypeUrl], st.errorBlocks⟩
        | .ok resInvolvers =>
          messageLoop env height tx tmTx rest
            ⟨some (env.Finalize resInvolvers), st.messagesType ++ [m.TypeUrl],
              st.errorBlocks⟩) := by
  have hp : ∀ name, messageParserFor env name
      = (env.messageParsers name).getD (defaultMessageParser env) := by
    intro name
    unfold messageParserFor
    cases env.messageParsers name <;> rfl
  have hx : ∀ msg, messageInvolversExtractorFor env msg
      = (env.messageInvolversExtractors (env.ProtoMessageName msg)).getD
          (defaultMessageInvolversExtractor env) := by
    intro msg
    unfold messageInvolversExtractorFor
    cases env.messageInvolversExtractors (env.ProtoMessageName msg) <;> rfl
  refine ⟨?_, ?_, ?_, ?_, ?_, ?_⟩
  · intro name p h
    rw [hp, h]
    rfl
  · intro name h
    rw [hp, h]
    rfl
  · intro msg x h
    rw [hx, h]
    rfl
  · intro msg h
    rw [hx, h]
    rfl
  · intro tx txRes m rest i c hc
    rw [msgsLoop, hc]
    dsimp only
    rw [hp]
  · intro height tx tmTx m rest st c hc
    rw [messageLoop, hc]
    dsimp only
    rw [hx]

/-! ## Where the default parser panics -/

mutual
theorem defaultMessageParser_panic_iff (env : Env) (tx : Tx) (txResponse : TxResponse) :
    ∀ (msg : Msg) (msgIdx : Nat),
      defaultMessageParser env msg msgIdx tx txResponse = .panic ↔ msg.crashes env = true
  | .bank_MsgSend _ _ _, _ => by
    simp [defaultMessageParser, Msg.crashes, buildPacketResponse]
  | .bank_MsgMultiSend _ Outputs, _ => by
    rw [defaultMessageParser, Msg.crashes]
    cases multiSendAllCoins env Outputs [] <;> simp
  | .crisis_MsgVerifyInvariant _ _ _, _ => by
    simp [defaultMessageParser, Msg.crashes, buildPacketResponse]
  | .dist_MsgSetWithdrawAddress _ _, _ => by
    simp [defaultMessageParser, Msg.crashes, buildPacketResponse]
  | .dist_MsgWithdrawDelegatorReward _ _, _ => by
    simp [defaultMessageParser, Msg.crashes, buildPacketResponse]
  | .dist_MsgWithdrawValidatorCommission _, _ => by
    simp [defaultMessageParser, Msg.crashes, buildPacketResponse]
  | .dist_MsgFundCommunityPool _ _, _ => by
    simp [defaultMessageParser, Msg.crashes, buildPacketResponse]
  | .evidence_MsgSubmitEvidence _, _ => by
    simp [defaultMessageParser, Msg.crashes, buildPacketResponse]
  | .govv1_MsgSubmitProposal _ _ _ _, _ => by
    simp [defaultMessageParser, Msg.crashes, buildPacketResponse]
  | .govlegacy_MsgSubmitProposal Content _ _, _ => by
    cases Content <;> simp [defaultMessageParser, Msg.crashes]
  | .govv1_MsgDeposit _ _ _, _ => by
    simp [defaultMessageParser, Msg.crashes, buildPacketResponse]
  | .govlegacy_MsgDeposit _ _ _, _ => by
    simp [defaultMessageParser, Msg.crashes, buildPacketResponse]
  | .govv1_MsgVote _ _ _ _, _ => by
    simp [defaultMessageParser, Msg.crashes, buildPacketResponse]
  | .govlegacy_MsgVote _ _ _, _ => by
    simp [defaultMessageParser, Msg.crashes, buildPacketResponse]
  | .govv1_MsgVoteWeighted _ _ _, _ => by
    simp [defaultMessageParser, Msg.crashes, buildPacketResponse]
  | .govlegacy_MsgVoteWeighted _ _, _ => by
    simp [defaultMessageParser, Msg.crashes, buildPacketResponse]
  | .ibc_MsgCreateClient _, _ => by
    simp [defaultMessageParser, Msg.crashes, buildPacketResponse]
  | .ibc_MsgUpdateClient _ _, _ => by
    simp [defaultMessageParser, Msg.crashes, buildPacketResponse]
  | .ibc_MsgUpgradeClient _ _, _ => by
    simp [defaultMessageParser, Msg.crashes, buildPacketResponse]
  | .ibc_MsgSubmitMisbehaviour _ _, _ => by
    simp [defaultMessageParser, Msg.crashes, buildPacketResponse]
  | .ibctransfer_MsgTransfer _ _ _ _ _ _ _ _, _ => by
    simp [defaultMessageParser, Msg.crashes, buildPacketResponse]
  | .connection_MsgConnectionOpenAck _ _ _ _ _, _ => by
    simp [defaultMessageParser, Msg.crashes, buildPacketResponse]
  | .connection_MsgConnectionOpenInit _ _ _ _, _ => by
    simp [defaultMessageParser, Msg.crashes, buildPacketResponse]
  | .connection_MsgConnectionOpenConfirm _ _ _, _ => by
    simp [defaultMessageParser, Msg.crashes, buildPacketResponse]
  | .connection_MsgConnectionOpenTry _ _ _ _ _ _, _ => by
    simp [defaultMessageParser, Msg.crashes, buildPacketResponse]
  | .channel_MsgChannelOpenInit _ _ _, _ => by
    simp [defaultMessageParser, Msg.crashes, buildPacketResponse]
  | .channel_MsgChannelOpenConfirm _ _ _ _, _ => by
    simp [defaultMessageParser, Msg.crashes, buildPacketResponse]
  | .channel_MsgChannelOpenTry _ _ _ _, _ => by
    simp [defaultMessageParser, Msg.crashes, buildPacketResponse]
  | .channel_MsgAcknowledgement _ _ _, _ => by
    simp [defaultMessageParser, Msg.crashes, buildPacketResponse]
  | .channel_MsgChannelOpenAck _ _ _ _ _, _ => by
    simp [defaultMessageParser, Msg.crashes, buildPacketResponse]
  | .channel_MsgRecvPacket _ _ _, _ => by
    simp [defaultMessageParser, Msg.crashes, buildPacketResponse]
  | .channel_MsgTimeout _ _ _ _, _ => by
    simp [defaultMessageParser, Msg.crashes, buildPacketResponse]
  | .channel_MsgTimeoutOnClose _ _ _ _, _ => by
    simp [defaultMessageParser, Msg.crashes, buildPacketResponse]
  | .slashing_MsgUnjail _, _ => by
    simp [defaultMessageParser, Msg.crashes, buildPacketResponse]
  | .staking_MsgCreateValidator _ _ _ _ _ _, _ => by
    simp [defaultMessageParser, Msg.crashes, buildPacketResponse]
  | .staking_MsgEditValidator _ _ _ _, _ => by
    simp [defaultMessageParser, Msg.crashes, buildPacketResponse]
  | .staking_MsgDelegate _ _ _, _ => by
    simp [defaultMessageParser, Msg.crashes, buildPacketResponse]
  | .staking_MsgBeginRedelegate _ _ _ _, _ => by
    simp [defaultMessageParser, Msg.crashes, buildPacketResponse]
  | .staking_MsgUndelegate _ _ _, _ => by
    simp [defaultMessageParser, Msg.crashes, buildPacketResponse]
  | .staking_MsgCancelUnbondingDelegation _ _, _ => by
    simp [defaultMessageParser, Msg.crashes, buildPacketResponse]
  | .authz_MsgGrant _ _ Grant_Authorization Grant_Expiration, _ => by
    cases Grant_Authorization <;> cases Grant_Expiration <;>
      simp [defaultMessageParser, Msg.crashes]
  | .authz_MsgExec Grantee Msgs, msgIdx => by
    have ih := authorizedMessagesContent_none_iff env tx txResponse Msgs
      (env.ProtoMessageName (.authz_MsgExec Grantee Msgs))
    rw [defaultMessageParser, Msg.crashes, ← ih]
    by_cases hl : Msgs.length > 0
    · rw [if_pos hl]
      cases authorizedMessagesContent env
        (env.ProtoMessageName (.authz_MsgExec Grantee Msgs)) tx txResponse Msgs <;> simp
    · rw [if_neg hl]
      have : Msgs = [] := List.eq_nil_of_length_eq_zero (by omega)
      subst this
      simp [authorizedMessagesContent]
  | .authz_MsgRevoke _ _ _, _ => by
    simp [defaultMessageParser, Msg.crashes, buildPacketResponse]
  | .other _, _ => by
    simp [defaultMessageParser, Msg.crashes, buildPacketResponse]
theorem authorizedMessagesContent_none_iff (env : Env) (tx : Tx) (txResponse : TxResponse) :
    ∀ (msgs : List AnyMsg) (outerType : String),
      authorizedMessagesContent env outerType tx txResponse msgs = none ↔
        anyCrashes env msgs = true
  | [], _ => by simp [authorizedMessagesContent, anyCrashes]
  | a :: rest, outerType => by
    have h1 := authorizedMessageContent_none_iff env tx txResponse a outerType
    have h2 := authorizedMessagesContent_none_iff env tx txResponse rest outerType
    rw [authorizedMessagesContent, anyCrashes, Bool.or_eq_true, ← h1, ← h2]
    cases authorizedMessageContent env outerType tx txResponse a with
    | none => simp
    | some innerRes =>
      cases authorizedMessagesContent env outerType tx txResponse rest <;> simp
theorem authorizedMessageContent_none_iff (env : Env) (tx : Tx) (txResponse : TxResponse) :
    ∀ (a : AnyMsg) (outerType : String),
      authorizedMessageContent env outerType tx txResponse a = none ↔ a.crashes env = true
  | .mk _ (.error _), _ => by simp [authorizedMessageContent, AnyMsg.crashes]
  | .mk _ (.ok cosmosMsg), _ => by
    have ih := defaultMessageParser_panic_iff env tx txResponse cosmosMsg 0
    rw [authorizedMessageContent, AnyMsg.crashes, ← ih]
    cases defaultMessageParser env cosmosMsg 0 tx txResponse <;> simp
end

/-- C11 (the code at the failing input): the default parser does crash.  On a
legacy submit-proposal message without content it reads `msg.Content.TypeUrl`,
on a grant message without authorization `msg.Grant.Authorization.TypeUrl`,
and the nil dereference panics: neither a content map nor an error is
returned.  The panic escapes an enclosing authorization execution as well.
The parser crashes besides on a multi-send message for whose outputs a call of
`sdk.Coins.Add` panics, as for an output whose coins are not sorted.  The
parser crashes exactly on the messages that `Msg.crashes` describes; on every
other message it returns a content map or an error. -/
theorem defaultMessageParser_crashes (env : Env) (msgIdx : Nat) (tx : Tx)
    (txResponse : TxResponse) (deposit : List Coin) (proposer granter grantee url : String)
    (expiration : Option Time) :
    defaultMessageParser env (.govlegacy_MsgSubmitProposal none deposit proposer) msgIdx tx
      txResponse = .panic ∧
    defaultMessageParser env (.authz_MsgGrant granter grantee none expiration) msgIdx tx
      txResponse = .panic ∧
    defaultMessageParser env
      (.authz_MsgExec grantee [.mk url (.ok (.govlegacy_MsgSubmitProposal none deposit proposer))])
      msgIdx tx txResponse = .panic ∧
    (∀ Inputs Outputs, multiSendAllCoins env Outputs [] = none →
      defaultMessageParser env (.bank_MsgMultiSend Inputs Outputs) msgIdx tx txResponse
        = .panic) ∧
    (sampleEnv.CoinsAdd [] [⟨"urax", 5⟩, ⟨"aaa", 1⟩] = none ∧
      defaultMessageParser sampleEnv
        (.bank_MsgMultiSend [⟨"rax1alice", [⟨"aaa", 1⟩, ⟨"urax", 5⟩]⟩]
          [⟨"rax1bob", [⟨"urax", 5⟩, ⟨"aaa", 1⟩]⟩]) 0 sampleTx sampleTxResponse = .panic) ∧
    (∀ msg, defaultMessageParser env msg msgIdx tx txResponse = .panic ↔ msg.crashes env = true) ∧
    (∀ msg, msg.crashes env = false →
      (∃ res, defaultMessageParser env msg msgIdx tx txResponse = .ok res) ∨
      (∃ err, defaultMessageParser env msg msgIdx tx txResponse = .err err)) := by
  have hiff := fun msg => defaultMessageParser_panic_iff env tx txResponse msg msgIdx
  refine ⟨(hiff _).2 rfl, (hiff _).2 rfl, (hiff _).2 rfl, ?_, ⟨by rfl, by rfl⟩, hiff, ?_⟩
  · intro Inputs Outputs hnone
    apply (hiff _).2
    rw [Msg.crashes, hnone]
    rfl
  intro msg hsafe
  cases hp : defaultMessageParser env msg msgIdx tx txResponse with
  | ok res => exact Or.inl ⟨res, rfl⟩
  | err err => exact Or.inr ⟨err, rfl⟩
  | panic =>
    have := (hiff msg).1 hp
    rw [hsafe] at this
    cases this

/-! ## Nested messages of an authorization execution -/

theorem authorizedMessagesContent_some (env : Env) (outerType : String) (tx : Tx)
    (txResponse : TxResponse) :
    ∀ (msgs : List AnyMsg), anyCrashes env msgs = false →
      ∃ content, authorizedMessagesContent env outerType tx txResponse msgs = some content ∧
        content.length = msgs.length ∧
        ∀ (i : Nat) (a : AnyMsg), msgs[i]? = some a →
          authorizedMessageContent env outerType tx txResponse a = content[i]? := by
  intro msgs
  induction msgs with
  | nil =>
    intro _
    exact ⟨[], rfl, rfl, by simp⟩
  | cons a rest ih =>
    intro hsafe
    rw [anyCrashes, Bool.or_eq_false_iff] at hsafe
    obtain ⟨content, hc, hlen, hent⟩ := ih hsafe.2
    cases ha : authorizedMessageContent env outerType tx txResponse a with
    | none =>
      have := (authorizedMessageContent_none_iff env tx txResponse a outerType).1 ha
      rw [hsafe.1] at this
      cases this
    | some innerRes =>
      refine ⟨innerRes :: content, ?_, by simp [hlen], ?_⟩
      · rw [authorizedMessagesContent, ha, hc]
      · intro i x hx
        cases i with
        | zero =>
          simp only [List.getElem?_cons_zero, Option.some.injEq] at hx
          subst hx
          simpa using ha
        | succ k =>
          simp only [List.getElem?_cons_succ] at hx ⊢
          exact hent k x hx

/-- C12 (counterexample): the nested entry of an embedded message that fails
to unpack does not carry only an error field; it carries the `type` field
written first and the `error` field. -/
theorem defaultMessageParser_exec_error_entry_has_type :
    defaultMessageParser sampleEnv sampleExecBroken 0 sampleTx sampleTxResponse
      = .ok ⟨[("grantee", .str "rax1grantee"),
              ("authorized-messages", .arr
                [.obj [("type", .str "cosmos.authz.v1beta1.MsgExec"),
                       ("error", .str
                         "failed to unpack authorized message: no concrete type registered")]])],
             [Fragment.address "rax1grantee", Fragment.text " executes authorized messages"]⟩ ∧
    (JVal.obj [("type", .str "cosmos.authz.v1beta1.MsgExec"),
        ("error", .str "failed to unpack authorized message: no concrete type registered")]).keys
      = ["type", "error"] ∧
    (JVal.obj [("type", .str "cosmos.authz.v1beta1.MsgExec"),
        ("error", .str "failed to unpack authorized message: no concrete type registered")]).keys
      ≠ ["error"] := by
  refine ⟨by rfl, by rfl, by decide⟩

/-- C12 (amended): for an authorization execution with `n` embedded messages,
none of which makes the nested parser call panic, the default parser returns
success; for `n > 0` the content holds, under `authorized-messages`, exactly `n`
nested entries in the order of the embedded messages.  Every entry carries a
`type` field; the entry of a message that unpacks and parses carries besides it
only `content`, the result of the same default parser; the entry of a message
that fails to unpack or to parse carries besides it only `error`.  Entry `i` is
decided by embedded message `i` alone, and no such failure fails the enclosing
message. -/
theorem defaultMessageParser_exec (env : Env) (msgIdx : Nat) (tx : Tx) (txResponse : TxResponse)
    (Grantee : String) (Msgs : List AnyMsg) (hsafe : anyCrashes env Msgs = false) :
    ∃ content : List JVal,
      defaultMessageParser env (.authz_MsgExec Grantee Msgs) msgIdx tx txResponse
        = .ok ⟨if Msgs.length > 0 then
                 [("grantee", .str Grantee), ("authorized-messages", .arr content)]
               else [("grantee", .str Grantee)],
               [Fragment.address Grantee, Fragment.text " executes authorized messages"]⟩ ∧
      content.length = Msgs.length ∧
      ∀ (i : Nat) (a : AnyMsg), Msgs[i]? = some a →
        (∀ err, a.UnpackAny = .error err →
          content[i]? = some (.obj
            [("type", .str (env.ProtoMessageName (.authz_MsgExec Grantee Msgs))),
             ("error", .str (env.ErrorText
               (.wrap (.plain err) "failed to unpack authorized message")))])) ∧
        (∀ cosmosMsg err, a.UnpackAny = .ok cosmosMsg →
          defaultMessageParser env cosmosMsg 0 tx txResponse = .err err →
          content[i]? = some (.obj
            [("type", .str (env.ProtoMessageName (.authz_MsgExec Grantee Msgs))),
             ("error", .str (env.ErrorText
               (.wrap err "failed to parse authorized message")))])) ∧
        (∀ cosmosMsg parsedInnerRes, a.UnpackAny = .ok cosmosMsg →
          defaultMessageParser env cosmosMsg 0 tx txResponse = .ok parsedInnerRes →
          content[i]? = some (.obj
            [("type", .str (env.ProtoMessageName (.authz_MsgExec Grantee Msgs))),
             ("content", parsedInnerRes.toJVal)])) := by
  obtain ⟨content, hc, hlen, hent⟩ := authorizedMessagesContent_some env
    (env.ProtoMessageName (.authz_MsgExec Grantee Msgs)) tx txResponse Msgs hsafe
  refine ⟨content, ?_, hlen, ?_⟩
  · rw [defaultMessageParser, hc]
    by_cases hl : Msgs.length > 0
    · rw [if_pos hl, if_pos hl]
      rfl
    · rw [if_neg hl, if_neg hl]
      rfl
  · intro i a ha
    have hi := hent i a ha
    refine ⟨?_, ?_, ?_⟩
    · intro err hu
      rw [← hi]
      cases a with
      | mk url unpacked =>
        simp only [AnyMsg.UnpackAny] at hu
        subst hu
        rfl
    · intro cosmosMsg err hu hp
      rw [← hi]
      cases a with
      | mk url unpacked =>
        simp only [AnyMsg.UnpackAny] at hu
        subst hu
        rw [authorizedMessageContent, hp]
    · intro cosmosMsg parsedInnerRes hu hp
      rw [← hi]
      cases a with
      | mk url unpacked =>
        simp only [AnyMsg.UnpackAny] at hu
        subst hu
        rw [authorizedMessageContent, hp]

/-- Witness of C12 (amended): an authorization execution with a transfer and a
message that fails to unpack. -/
theorem defaultMessageParser_exec_witness :
    anyCrashes sampleEnv [sampleSendAny, sampleBrokenAny] = false ∧
    ∃ res, defaultMessageParser sampleEnv
      (.authz_MsgExec "rax1grantee" [sampleSendAny, sampleBrokenAny]) 0 sampleTx sampleTxResponse
        = .ok res := by
  refine ⟨rfl, ?_⟩
  obtain ⟨content, h, _⟩ := defaultMessageParser_exec sampleEnv 0 sampleTx sampleTxResponse
    "rax1grantee" [sampleSendAny, sampleBrokenAny] rfl
  exact ⟨_, h⟩

/-! ## Involvers -/

theorem MessageInvolversResult.mem_add1 {res : MessageInvolversResult} {role addr : String}
    {p : String × String} :
    p ∈ MessageInvolversResult.add1 res role addr ↔ p ∈ res ∨ p = (role, addr) := by
  unfold MessageInvolversResult.add1
  by_cases hm : (role, addr) ∈ res
  · rw [if_pos hm]
    constructor
    · exact fun h => Or.inl h
    · rintro (h | rfl)
      · exact h
      · exact hm
  · rw [if_neg hm]
    simp

theorem MessageInvolversResult.mem_AddAll {role : String} {p : String × String} :
    ∀ (addrs : List String) (res : MessageInvolversResult),
      p ∈ MessageInvolversResult.Add res role addrs ↔
        p ∈ res ∨ ∃ a, a ∈ addrs ∧ p = (role, a) := by
  intro addrs
  induction addrs with
  | nil =>
    intro res
    simp [MessageInvolversResult.Add]
  | cons a rest ih =>
    intro res
    have h := ih (MessageInvolversResult.add1 res role a)
    unfold MessageInvolversResult.Add at h ⊢
    rw [List.foldl_cons, h, MessageInvolversResult.mem_add1]
    constructor
    · rintro ((h1 | h1) | ⟨x, hx, hp⟩)
      · exact Or.inl h1
      · exact Or.inr ⟨a, List.mem_cons_self a rest, h1⟩
      · exact Or.inr ⟨x, List.mem_cons_of_mem a hx, hp⟩
    · rintro (h1 | ⟨x, hx, hp⟩)
      · exact Or.inl (Or.inl h1)
      · rcases List.mem_cons.1 hx with rfl | hx
        · exact Or.inl (Or.inr hp)
        · exact Or.inr ⟨x, hx, hp⟩

theorem MessageInvolversResult.mem_Merge {p : String × String} :
    ∀ (other res : MessageInvolversResult),
      p ∈ MessageInvolversResult.Merge res other ↔ p ∈ res ∨ p ∈ other := by
  intro other
  induction other with
  | nil =>
    intro res
    simp [MessageInvolversResult.Merge]
  | cons q rest ih =>
    intro res
    have h := ih (MessageInvolversResult.add1 res q.1 q.2)
    unfold MessageInvolversResult.Merge at h ⊢
    rw [List.foldl_cons, h, MessageInvolversResult.mem_add1, List.mem_cons]
    constructor
    · rintro ((h1 | h1) | h1)
      · exact Or.inl h1
      · exact Or.inr (Or.inl h1)
      · exact Or.inr (Or.inr h1)
    · rintro (h1 | h1 | h1)
      · exact Or.inl (Or.inl h1)
      · exact Or.inl (Or.inr h1)
      · exact Or.inr h1

theorem mem_involversOfEvents (env : Env) {p : String × String} :
    ∀ (events : List Event) (res : MessageInvolversResult),
      p ∈ involversOfEvents env events res ↔
        p ∈ res ∨ ∃ event, event ∈ events ∧ ∃ attr, attr ∈ event.Attributes ∧
          env.IsAccountAddr attr.Value = true ∧ p = (MessageInvolvers, attr.Value) := by
  have inner : ∀ (attrs : List EventAttribute) (res : MessageInvolversResult),
      p ∈ attrs.foldl (fun acc2 attr =>
          if env.IsAccountAddr attr.Value then acc2.Add MessageInvolvers [attr.Value]
          else acc2) res ↔
        p ∈ res ∨ ∃ attr, attr ∈ attrs ∧
          env.IsAccountAddr attr.Value = true ∧ p = (MessageInvolvers, attr.Value) := by
    intro attrs
    induction attrs with
    | nil =>
      intro res
      simp
    | cons x rest ih =>
      intro res
      rw [List.foldl_cons, ih]
      by_cases hx : env.IsAccountAddr x.Value = true
      · rw [if_pos hx, MessageInvolversResult.mem_AddAll]
        constructor
        · rintro ((h1 | ⟨a, ha, hp⟩) | ⟨y, hy, hacc, hp⟩)
          · exact Or.inl h1
          · simp only [List.mem_singleton] at ha
            subst ha
            exact Or.inr ⟨x, List.mem_cons_self x rest, hx, hp⟩
          · exact Or.inr ⟨y, List.mem_cons_of_mem x hy, hacc, hp⟩
        · rintro (h1 | ⟨y, hy, hacc, hp⟩)
          · exact Or.inl (Or.inl h1)
          · rcases List.mem_cons.1 hy with rfl | hy
            · exact Or.inl (Or.inr ⟨y.Value, by simp, hp⟩)
            · exact Or.inr ⟨y, hy, hacc, hp⟩
      · rw [if_neg hx]
        constructor
        · rintro (h1 | ⟨y, hy, hacc, hp⟩)
          · exact Or.inl h1
          · exact Or.inr ⟨y, List.mem_cons_of_mem x hy, hacc, hp⟩
        · rintro (h1 | ⟨y, hy, hacc, hp⟩)
          · exact Or.inl h1
          · rcases List.mem_cons.1 hy with rfl | hy
            · exact absurd hacc hx
            · exact Or.inr ⟨y, hy, hacc, hp⟩
  intro events
  induction events with
  | nil =>
    intro res
    simp [involversOfEvents]
  | cons ev rest ih =>
    intro res
    unfold involversOfEvents at ih ⊢
    rw [List.foldl_cons, ih, inner]
    constructor
    · rintro ((h1 | ⟨a, ha, hacc, hp⟩) | ⟨e, he, a, ha, hacc, hp⟩)
      · exact Or.inl h1
      · exact Or.inr ⟨ev, List.mem_cons_self ev rest, a, ha, hacc, hp⟩
      · exact Or.inr ⟨e, List.mem_cons_of_mem ev he, a, ha, hacc, hp⟩
    · rintro (h1 | ⟨e, he, a, ha, hacc, hp⟩)
      · exact Or.inl (Or.inl h1)
      · rcases List.mem_cons.1 he with rfl | he
        · exact Or.inl (Or.inr ⟨a, ha, hacc, hp⟩)
        · exact Or.inr ⟨e, he, a, ha, hacc, hp⟩

theorem mergeAuthorizedInvolvers_some (env : Env) (tx : Tx) (tmTx : TmTx) {p : String × String} :
    ∀ (msgs : List AnyMsg) (res : MessageInvolversResult),
      (∀ a, a ∈ msgs → ∀ c, a.UnpackAny = .ok c →
        defaultMessageInvolversExtractor env c tx tmTx ≠ .panic) →
      ∃ res', mergeAuthorizedInvolvers env tx tmTx msgs res = some res' ∧
        (p ∈ res' ↔ p ∈ res ∨ ∃ a, a ∈ msgs ∧ ∃ c resChild, a.UnpackAny = .ok c ∧
          defaultMessageInvolversExtractor env c tx tmTx = .ok resChild ∧ p ∈ resChild) := by
  intro msgs
  induction msgs with
  | nil =>
    intro res _
    exact ⟨res, rfl, by simp⟩
  | cons a rest ih =>
    intro res hsafe
    have hrest : ∀ x, x ∈ rest → ∀ c, x.UnpackAny = .ok c →
        defaultMessageInvolversExtractor env c tx tmTx ≠ .panic :=
      fun x hx => hsafe x (List.mem_cons_of_mem a hx)
    cases a with
    | mk url unpacked =>
      cases unpacked with
      | error err =>
        obtain ⟨res', h1, h2⟩ := ih res hrest
        refine ⟨res', ?_, ?_⟩
        · rw [mergeAuthorizedInvolvers, authorizedInvolvers]
          exact h1
        · rw [h2]
          constructor
          · rintro (h | ⟨x, hx, hc⟩)
            · exact Or.inl h
            · exact Or.inr ⟨x, List.mem_cons_of_mem _ hx, hc⟩
          · rintro (h | ⟨x, hx, c, child, hu, hc⟩)
            · exact Or.inl h
            · rcases List.mem_cons.1 hx with rfl | hx
              · simp [AnyMsg.UnpackAny] at hu
              · exact Or.inr ⟨x, hx, c, child, hu, hc⟩
      | ok cosmosMsg =>
        have hnp := hsafe (AnyMsg.mk url (.ok cosmosMsg)) (List.mem_cons_self _ _) cosmosMsg rfl
        cases hx : defaultMessageInvolversExtractor env cosmosMsg tx tmTx with
        | panic => exact absurd hx hnp
        | err e =>
          obtain ⟨res', h1, h2⟩ := ih res hrest
          refine ⟨res', ?_, ?_⟩
          · rw [mergeAuthorizedInvolvers, authorizedInvolvers, hx]
            exact h1
          · rw [h2]
            constructor
            · rintro (h | ⟨x, hx2, hc⟩)
              · exact Or.inl h
              · exact Or.inr ⟨x, List.mem_cons_of_mem _ hx2, hc⟩
            · rintro (h | ⟨x, hx2, c, child, hu, hc, hp⟩)
              · exact Or.inl h
              · rcases List.mem_cons.1 hx2 with rfl | hx2
                · simp only [AnyMsg.UnpackAny, Except.ok.injEq] at hu
                  subst hu
                  rw [hx] at hc
                  cases hc
                · exact Or.inr ⟨x, hx2, c, child, hu, hc, hp⟩
        | ok resChild =>
          obtain ⟨res', h1, h2⟩ := ih (res.Merge resChild) hrest
          refine ⟨res', ?_, ?_⟩
          · rw [mergeAuthorizedInvolvers, authorizedInvolvers, hx]
            exact h1
          · rw [h2, MessageInvolversResult.mem_Merge]
            constructor
            · rintro ((h | h) | ⟨x, hx2, hc⟩)
              · exact Or.inl h
              · exact Or.inr ⟨_, List.mem_cons_self _ _, cosmosMsg, resChild, rfl, hx, h⟩
              · exact Or.inr ⟨x, List.mem_cons_of_mem _ hx2, hc⟩
            · rintro (h | ⟨x, hx2, c, child, hu, hc, hp⟩)
              · exact Or.inl (Or.inl h)
              · rcases List.mem_cons.1 hx2 with rfl | hx2
                · simp only [AnyMsg.UnpackAny, Except.ok.injEq] at hu
                  subst hu
                  rw [hx] at hc
                  cases hc
                  exact Or.inl (Or.inr hp)
                · exact Or.inr ⟨x, hx2, c, child, hu, hc, hp⟩

/-- C13 (the code at the failing input): when no nested extraction panics, the
default extractor returns for an authorization execution, without error, the
union of the grantee with the involvers the same extractor returns for each
embedded message; an embedded message that fails to unpack or whose extraction
returns an error contributes nothing.  But the nested extraction can panic: an
embedded message of a kind outside the type switch, with a transaction-result
query that returns neither a result nor an error, makes the nested call
dereference the nil result, and the enclosing extraction panics with it. -/
theorem defaultMessageInvolversExtractor_exec :
    (∀ (env : Env) (tx : Tx) (tmTx : TmTx) (Grantee : String) (Msgs : List AnyMsg),
      (∀ a, a ∈ Msgs → ∀ c, a.UnpackAny = .ok c →
        defaultMessageInvolversExtractor env c tx tmTx ≠ .panic) →
      ∃ res, defaultMessageInvolversExtractor env (.authz_MsgExec Grantee Msgs) tx tmTx = .ok res ∧
        ∀ p : String × String, p ∈ res ↔
          p = (MessageInvolvers, Grantee) ∨
          ∃ a, a ∈ Msgs ∧ ∃ c resChild, a.UnpackAny = .ok c ∧
            defaultMessageInvolversExtractor env c tx tmTx = .ok resChild ∧ p ∈ resChild) ∧
    sampleNilResultEnv.ClientTx sampleTmTx.Hash = .ok none ∧
    defaultMessageInvolversExtractor sampleNilResultEnv
      (.authz_MsgExec "rax1grantee" [sampleUnknownAny]) sampleTx sampleTmTx = .panic := by
  refine ⟨?_, rfl, by rfl⟩
  intro env tx tmTx Grantee Msgs hsafe
  have hg : ∀ p : String × String,
      p ∈ MessageInvolversResult.Add [] MessageInvolvers [Grantee] ↔
        p = (MessageInvolvers, Grantee) := by
    intro p
    rw [MessageInvolversResult.mem_AddAll]
    simp
  by_cases hl : Msgs.length > 0
  · have key : ∃ res, mergeAuthorizedInvolvers env tx tmTx Msgs
        (MessageInvolversResult.Add [] MessageInvolvers [Grantee]) = some res ∧
        ∀ p : String × String, p ∈ res ↔
          p = (MessageInvolvers, Grantee) ∨
          ∃ a, a ∈ Msgs ∧ ∃ c resChild, a.UnpackAny = .ok c ∧
            defaultMessageInvolversExtractor env c tx tmTx = .ok resChild ∧ p ∈ resChild := by
      cases hm : mergeAuthorizedInvolvers env tx tmTx Msgs
          (MessageInvolversResult.Add [] MessageInvolvers [Grantee]) with
      | none =>
        obtain ⟨r, hr, _⟩ := @mergeAuthorizedInvolvers_some env tx tmTx
          (MessageInvolvers, Grantee) Msgs _ hsafe
        rw [hm] at hr
        cases hr
      | some res =>
        refine ⟨res, rfl, ?_⟩
        intro p
        obtain ⟨r, hr, hp⟩ := @mergeAuthorizedInvolvers_some env tx tmTx p Msgs
          (MessageInvolversResult.Add [] MessageInvolvers [Grantee]) hsafe
        rw [hm] at hr
        cases hr
        rw [hp, hg]
    obtain ⟨res, hm, hp⟩ := key
    refine ⟨res, ?_, hp⟩
    rw [defaultMessageInvolversExtractor]
    try dsimp only
    rw [if_pos hl, hm]
  · have hnil : Msgs = [] := List.eq_nil_of_length_eq_zero (by omega)
    subst hnil
    refine ⟨MessageInvolversResult.Add [] MessageInvolvers [Grantee], ?_, ?_⟩
    · rw [defaultMessageInvolversExtractor]
      rfl
    · intro p
      rw [hg]
      simp

/-- C14 (the code at the failing input): for a message of a kind outside the
type switch the default extractor returns an error exactly when the
transaction-result query returns one, and then an Internal error; when the
query returns a result it returns exactly the event attribute values that the
address classifier accepts, under the generic role, and a rejected value is
skipped.  But when the query succeeds without a result (nil result, nil
error), the case that the scan guards against at its own call of the same
query, the extractor dereferences the nil result and panics. -/
theorem defaultMessageInvolversExtractor_fallback (env : Env) (goType : String) (tx : Tx)
    (tmTx : TmTx) :
    (∀ e, defaultMessageInvolversExtractor env (.other goType) tx tmTx = .err e ↔
      ∃ errTxResult, env.ClientTx tmTx.Hash = .error errTxResult ∧
        e = .status .Internal
          ("failed to get tx result for tx " ++ hexEncodeToString tmTx.Hash ++
            " when processing msg " ++ env.ProtoMessageName (.other goType) ++ ": " ++
            errTxResult)) ∧
    (∀ resTxResult, env.ClientTx tmTx.Hash = .ok (some resTxResult) →
      ∃ res, defaultMessageInvolversExtractor env (.other goType) tx tmTx = .ok res ∧
        ∀ p : String × String, p ∈ res ↔
          ∃ event, event ∈ resTxResult.TxResult_Events ∧ ∃ attr, attr ∈ event.Attributes ∧
            env.IsAccountAddr attr.Value = true ∧ p = (MessageInvolvers, attr.Value)) ∧
    (env.ClientTx tmTx.Hash = .ok none →
      defaultMessageInvolversExtractor env (.other goType) tx tmTx = .panic) ∧
    sampleNilResultEnv.ClientTx sampleTmTx.Hash = .ok none ∧
    defaultMessageInvolversExtractor sampleNilResultEnv (.other "custom.v1.MsgCustom") sampleTx
      sampleTmTx = .panic := by
  refine ⟨?_, ?_, ?_, rfl, by rfl⟩
  · intro e
    rw [defaultMessageInvolversExtractor]
    try dsimp only
    cases hq : env.ClientTx tmTx.Hash with
    | error errTxResult =>
      try dsimp only
      constructor
      · intro h
        simp only [Outcome.err.injEq] at h
        exact ⟨errTxResult, rfl, h.symm⟩
      · rintro ⟨t, ht, he⟩
        cases ht
        rw [he]
    | ok r =>
      cases r with
      | none =>
        try dsimp only
        constructor
        · intro h
          cases h
        · rintro ⟨t, ht, _⟩
          cases ht
      | some r =>
        try dsimp only
        constructor
        · intro h
          cases h
        · rintro ⟨t, ht, _⟩
          cases ht
  · intro resTxResult hq
    refine ⟨involversOfEvents env resTxResult.TxResult_Events [], ?_, ?_⟩
    · rw [defaultMessageInvolversExtractor]
      try dsimp only
      rw [hq]
    · intro p
      rw [mem_involversOfEvents]
      simp
  · intro hq
    rw [defaultMessageInvolversExtractor]
    try dsimp only
    rw [hq]

/-! ## Packet-bearing messages -/

theorem addIbcPacketInfoIntoResponse_undecoded {env : Env} {packet : Packet}
    {res : GenericBackendResponse} {rb : FriendlyResponseContentBuilder} {err : String}
    (hd : env.UnmarshalPacketData packet.Data = .error err) :
    addIbcPacketInfoIntoResponse env packet res rb = (res, rb) := by
  unfold addIbcPacketInfoIntoResponse
  rw [hd]

theorem addIbcPacketInfoIntoResponse_unknown_amount {env : Env} {packet : Packet}
    {res : GenericBackendResponse} {rb : FriendlyResponseContentBuilder}
    {data : FungibleTokenPacketData} {err : String}
    (hd : env.UnmarshalPacketData packet.Data = .ok data)
    (hc : env.GetIncomingIBCCoin packet.SourcePort packet.SourceChannel packet.DestinationPort
      packet.DestinationChannel data.Denom data.Amount = .error err) :
    Fragment.text " transfers unknown amount (parse error)"
      ∈ (addIbcPacketInfoIntoResponse env packet res rb).2 := by
  unfold addIbcPacketInfoIntoResponse
  rw [hd]
  dsimp only
  rw [hc]
  by_cases hm : data.Memo ≠ ""
  · rw [if_pos hm]
    simp [FriendlyResponseContentBuilder.WriteText, FriendlyResponseContentBuilder.WriteAddress]
  · rw [if_neg hm]
    simp [FriendlyResponseContentBuilder.WriteText, FriendlyResponseContentBuilder.WriteAddress]

/-- C15 (counterexample): an acknowledgement whose packet payload is the text
`not json`, which does not decode, is parsed with success, but the friendly
text is only the signer and the words " acknowledges packet:"; no sentence
about an unknown amount is written. -/
theorem defaultMessageParser_undecoded_packet_text :
    sampleGarbledPacket.Data = [110, 111, 116, 32, 106, 115, 111, 110] ∧
    sampleEnv.UnmarshalPacketData sampleGarbledPacket.Data = .error "invalid payload" ∧
    ∃ res, defaultMessageParser sampleEnv
        (.channel_MsgAcknowledgement sampleGarbledPacket ⟨1, 5⟩ "rax1relayer") 0 sampleTx
        sampleTxResponse = .ok res ∧
      res.friendly = [Fragment.address "rax1relayer", Fragment.text " acknowledges packet:"] ∧
      containsText "unknown" res.friendly = false := by
  refine ⟨rfl, by rfl, _, by rfl, by rfl, by decide⟩

/-- C15 (amended): for every packet-bearing message (acknowledgement,
receive-packet, timeout, timeout-on-close) the default parser returns success
whatever the packet data is.  When the fungible-token payload decodes but the
incoming coin cannot be derived from it, the friendly text contains the
sentence " transfers unknown amount (parse error)".  When the payload itself
fails to decode, nothing about the transfer is written: the friendly text is
the signer and the words of the message kind. -/
theorem defaultMessageParser_packet (env : Env) (msg : Msg) (msgIdx : Nat) (tx : Tx)
    (txResponse : TxResponse) (packet : Packet) (signer words : String)
    (hmsg : packetMessage msg = some (packet, signer, words)) :
    ∃ res, defaultMessageParser env msg msgIdx tx txResponse = .ok res ∧
      (∀ data err, env.UnmarshalPacketData packet.Data = .ok data →
        env.GetIncomingIBCCoin packet.SourcePort packet.SourceChannel packet.DestinationPort
          packet.DestinationChannel data.Denom data.Amount = .error err →
        Fragment.text " transfers unknown amount (parse error)" ∈ res.friendly) ∧
      (∀ err, env.UnmarshalPacketData packet.Data = .error err →
        res.friendly = [Fragment.address signer, Fragment.text words]) := by
  have key : ∀ (entries : GenericBackendResponse),
      ∃ res, buildPacketResponse env packet entries
          ((NewFriendlyResponseContentBuilder.WriteAddress signer).WriteText words) = .ok res ∧
        (∀ data err, env.UnmarshalPacketData packet.Data = .ok data →
          env.GetIncomingIBCCoin packet.SourcePort packet.SourceChannel packet.DestinationPort
            packet.DestinationChannel data.Denom data.Amount = .error err →
          Fragment.text " transfers unknown amount (parse error)" ∈ res.friendly) ∧
        (∀ err, env.UnmarshalPacketData packet.Data = .error err →
          res.friendly = [Fragment.address signer, Fragment.text words]) := by
    intro entries
    refine ⟨_, rfl, ?_, ?_⟩
    · intro data err hd hc
      exact addIbcPacketInfoIntoResponse_unknown_amount hd hc
    · intro err hd
      show (addIbcPacketInfoIntoResponse env packet entries _).2 = _
      rw [addIbcPacketInfoIntoResponse_undecoded hd]
      rfl
  cases msg <;> simp only [packetMessage, reduceCtorEq, Option.some.injEq, Prod.mk.injEq] at hmsg
  all_goals
    obtain ⟨rfl, rfl, rfl⟩ := hmsg
    rw [defaultMessageParser]
    exact key _

/-- Witness of C15 (amended): a timeout message whose payload is the empty
JSON object; it decodes, no coin can be derived from it, and the sentence about
the unknown amount is written. -/
theorem defaultMessageParser_packet_witness :
    packetMessage (.channel_MsgTimeout samplePacket ⟨1, 5⟩ 4 "rax1relayer")
      = some (samplePacket, "rax1relayer", " informs packet timed out:") ∧
    sampleEnv.UnmarshalPacketData samplePacket.Data = .ok ⟨"", "", "", "", ""⟩ ∧
    ∃ res, defaultMessageParser sampleEnv
      (.channel_MsgTimeout samplePacket ⟨1, 5⟩ 4 "rax1relayer") 0 sampleTx sampleTxResponse
        = .ok res ∧
      Fragment.text " transfers unknown amount (parse error)" ∈ res.friendly := by
  refine ⟨rfl, by rfl, ?_⟩
  obtain ⟨res, h, hunknown, _⟩ := defaultMessageParser_packet sampleEnv
    (.channel_MsgTimeout samplePacket ⟨1, 5⟩ 4 "rax1relayer") 0 sampleTx sampleTxResponse
    samplePacket "rax1relayer" " informs packet timed out:" rfl
  exact ⟨res, h, hunknown _ "unknown denomination" (by rfl) rfl⟩

/-! ## Multi-send -/

theorem joinFragments_cons (sep : Fragment) (x : List Fragment) :
    ∀ rest : List (List Fragment),
      joinFragments sep (x :: rest) = x ++ rest.flatMap (fun g => sep :: g) := by
  intro rest
  induction rest generalizing x with
  | nil => simp [joinFragments]
  | cons y more ih =>
    rw [joinFragments, ih y]
    simp

theorem count_joinFragments (sep : Fragment) :
    ∀ groups : List (List Fragment), (∀ g, g ∈ groups → sep ∉ g) →
      (joinFragments sep groups).count sep = groups.length - 1 := by
  intro groups hg
  cases groups with
  | nil => rfl
  | cons x rest =>
    rw [joinFragments_cons, List.count_append,
      List.count_eq_zero_of_not_mem (hg x (List.mem_cons_self x rest))]
    have hrest : ∀ g, g ∈ rest → sep ∉ g := fun g h => hg g (List.mem_cons_of_mem x h)
    clear hg
    induction rest with
    | nil => rfl
    | cons y more ih =>
      rw [List.flatMap_cons, List.count_append, List.count_cons_self,
        List.count_eq_zero_of_not_mem (hrest y (List.mem_cons_self y more))]
      have := ih (fun g h => hrest g (List.mem_cons_of_mem y h))
      simp only [List.length_cons] at this ⊢
      omega

theorem multiSendInputs_pos :
    ∀ (inputs : List Input) (i : Nat) (fromAddresses : List String)
      (rb : FriendlyResponseContentBuilder), 0 < i →
      multiSendInputs inputs i fromAddresses rb
        = (fromAddresses ++ inputs.map (fun x => x.Address),
            rb ++ (inputs.map (fun x => [Fragment.address x.Address])).flatMap
              (fun g => Fragment.text ", " :: g)) := by
  intro inputs
  induction inputs with
  | nil =>
    intro i acc rb _
    simp [multiSendInputs]
  | cons x rest ih =>
    intro i acc rb hi
    rw [multiSendInputs]
    rw [if_pos hi, ih (i + 1) _ _ (by omega)]
    simp [FriendlyResponseContentBuilder.WriteText, FriendlyResponseContentBuilder.WriteAddress]

theorem multiSendInputs_zero (inputs : List Input) :
    multiSendInputs inputs 0 [] NewFriendlyResponseContentBuilder
      = (inputs.map (fun x => x.Address),
          joinFragments (Fragment.text ", ")
            (inputs.map (fun x => [Fragment.address x.Address]))) := by
  cases inputs with
  | nil => rfl
  | cons x rest =>
    rw [multiSendInputs]
    rw [if_neg (by omega), multiSendInputs_pos rest 1 _ _ (by omega)]
    simp only [List.map_cons, joinFragments_cons]
    simp [FriendlyResponseContentBuilder.WriteAddress, NewFriendlyResponseContentBuilder]

theorem multiSendOutputs_pos (env : Env) (allCoins : List Coin) :
    ∀ (outputs : List Output) (i : Nat) (toInfo : List (String × List Coin))
      (rb : FriendlyResponseContentBuilder), 0 < i →
      multiSendOutputs env allCoins outputs i toInfo rb
        = (toInfo ++ outputs.map (fun o => (o.Address, o.Coins)),
            rb ++ (outputs.map (receiverFragments (getBankDenomsMetadata env allCoins))).flatMap
              (fun g => Fragment.text ", " :: g)) := by
  intro outputs
  induction outputs with
  | nil =>
    intro i acc rb _
    simp [multiSendOutputs]
  | cons x rest ih =>
    intro i acc rb hi
    rw [multiSendOutputs]
    rw [if_pos hi, ih (i + 1) _ _ (by omega)]
    simp [FriendlyResponseContentBuilder.WriteText, FriendlyResponseContentBuilder.WriteAddress,
      FriendlyResponseContentBuilder.WriteCoins, receiverFragments]

theorem multiSendOutputs_zero (env : Env) (allCoins : List Coin) (outputs : List Output)
    (rb : FriendlyResponseContentBuilder) :
    multiSendOutputs env allCoins outputs 0 [] rb
      = (outputs.map (fun o => (o.Address, o.Coins)),
          rb ++ joinFragments (Fragment.text ", ")
            (outputs.map (receiverFragments (getBankDenomsMetadata env allCoins)))) := by
  cases outputs with
  | nil => simp [multiSendOutputs, joinFragments]
  | cons x rest =>
    rw [multiSendOutputs]
    rw [if_neg (by omega), multiSendOutputs_pos env allCoins rest 1 _ _ (by omega)]
    simp only [List.map_cons, joinFragments_cons]
    simp [FriendlyResponseContentBuilder.WriteText, FriendlyResponseContentBuilder.WriteAddress,
      FriendlyResponseContentBuilder.WriteCoins, receiverFragments]

/-- The multi-send case of the parser when the sum of the output coins does
not panic: the content in closed form. -/
theorem defaultMessageParser_multiSend_some (env : Env) (msgIdx : Nat) (tx : Tx)
    (txResponse : TxResponse) (ins : List Input) (outs : List Output) (allCoins : List Coin)
    (hall : multiSendAllCoins env outs [] = some allCoins) :
    defaultMessageParser env (.bank_MsgMultiSend ins outs) msgIdx tx txResponse
      = .ok ⟨[("transfer", .obj
              [("from", .strs (ins.map (fun x => x.Address))),
               ("to", .arr (outs.map (fun o =>
                 .obj [("address", .str o.Address), ("amount", .coinsToMap o.Coins)])))])],
            joinFragments (Fragment.text ", ")
                (ins.map (fun x => [Fragment.address x.Address])) ++
              [Fragment.text " transfer "] ++
              joinFragments (Fragment.text ", ")
                (outs.map (receiverFragments (getBankDenomsMetadata env allCoins)))⟩ := by
  rw [defaultMessageParser, hall]
  dsimp only
  rw [multiSendInputs_zero, multiSendOutputs_zero]
  simp [FriendlyResponseContentBuilder.WriteText, FriendlyResponseContentBuilder.BuildIntoResponse,
    transferValue, List.map_map, Function.comp_def]

theorem defaultMessageParser_multiSend_none (env : Env) (msgIdx : Nat) (tx : Tx)
    (txResponse : TxResponse) (ins : List Input) (outs : List Output)
    (hall : multiSendAllCoins env outs [] = none) :
    defaultMessageParser env (.bank_MsgMultiSend ins outs) msgIdx tx txResponse = .panic := by
  rw [defaultMessageParser, hall]

theorem receiverFragments_no_separator (md : List (String × Metadata)) (outs : List Output)
    (g : List Fragment) (hg : g ∈ outs.map (receiverFragments md)) :
    Fragment.text ", " ∉ g := by
  rw [List.mem_map] at hg
  obtain ⟨o, _, rfl⟩ := hg
  simp [receiverFragments]

/-- C16 (the code at the failing input): the default parser does not return
content for every multi-send message.  The sum of the output coins (line 289,
`allCoins.Add`) panics on a list of coins that is not sorted by denomination:
on the multi-send with one input and the one output of `5urax, 1aaa` the parser
panics.  In general the parser panics exactly when a call of `Add` panics;
whenever none does, it returns content whose `transfer.from` lists the `k`
input addresses in order and whose `transfer.to` has exactly `n`
`address`/`amount` entries in output order, and the friendly text is the `k`
sender addresses separated by ", ", then " transfer ", then for each output its
coins, " to " and its address, with exactly `n - 1` separators ", " written
between the receivers; with one input and 3 outputs there are exactly 3 entries
and exactly 2 separators in the whole text. -/
theorem defaultMessageParser_multiSend (env : Env) (msgIdx : Nat) (tx : Tx)
    (txResponse : TxResponse) (Inputs : List Input) (Outputs : List Output) :
    (Coins.isSorted [⟨"urax", 5⟩, ⟨"aaa", 1⟩] = false ∧
      sampleEnv.CoinsAdd [] [⟨"urax", 5⟩, ⟨"aaa", 1⟩] = none ∧
      defaultMessageParser sampleEnv
        (.bank_MsgMultiSend [⟨"rax1alice", [⟨"aaa", 1⟩, ⟨"urax", 5⟩]⟩]
          [⟨"rax1bob", [⟨"urax", 5⟩, ⟨"aaa", 1⟩]⟩]) 0 sampleTx sampleTxResponse = .panic) ∧
    (defaultMessageParser env (.bank_MsgMultiSend Inputs Outputs) msgIdx tx txResponse = .panic ↔
      multiSendAllCoins env Outputs [] = none) ∧
    (∀ allCoins, multiSendAllCoins env Outputs [] = some allCoins →
      defaultMessageParser env (.bank_MsgMultiSend Inputs Outputs) msgIdx tx txResponse
        = .ok ⟨[("transfer", .obj
                [("from", .strs (Inputs.map (fun x => x.Address))),
                 ("to", .arr (Outputs.map (fun o =>
                   .obj [("address", .str o.Address), ("amount", .coinsToMap o.Coins)])))])],
              joinFragments (Fragment.text ", ")
                  (Inputs.map (fun x => [Fragment.address x.Address])) ++
                [Fragment.text " transfer "] ++
                joinFragments (Fragment.text ", ")
                  (Outputs.map (receiverFragments (getBankDenomsMetadata env allCoins)))⟩ ∧
      (Inputs.map (fun x => x.Address)).length = Inputs.length ∧
      (Outputs.map (fun o =>
          JVal.obj [("address", .str o.Address), ("amount", .coinsToMap o.Coins)])).length
        = Outputs.length ∧
      (joinFragments (Fragment.text ", ")
          (Outputs.map (receiverFragments (getBankDenomsMetadata env allCoins)))).count
        (Fragment.text ", ") = Outputs.length - 1) ∧
    (∀ (i1 : Input) (o1 o2 o3 : Output) (res : MessageContent),
      defaultMessageParser env (.bank_MsgMultiSend [i1] [o1, o2, o3]) msgIdx tx txResponse
        = .ok res →
      res.friendly.count (Fragment.text ", ") = 2 ∧
      ∃ e1 e2 e3, res.entries =
        [("transfer", .obj [("from", .strs [i1.Address]), ("to", .arr [e1, e2, e3])])]) := by
  refine ⟨⟨by rfl, by rfl, by rfl⟩, ⟨?_, ?_⟩, ?_, ?_⟩
  · intro hp
    cases hall : multiSendAllCoins env Outputs [] with
    | none => rfl
    | some allCoins =>
      rw [defaultMessageParser_multiSend_some env msgIdx tx txResponse Inputs Outputs allCoins
        hall] at hp
      cases hp
  · exact defaultMessageParser_multiSend_none env msgIdx tx txResponse Inputs Outputs
  · intro allCoins hall
    refine ⟨defaultMessageParser_multiSend_some env msgIdx tx txResponse Inputs Outputs allCoins
      hall, List.length_map _ _, List.length_map _ _, ?_⟩
    rw [count_joinFragments _ _ (receiverFragments_no_separator _ Outputs), List.length_map]
  · intro i1 o1 o2 o3 res hres
    cases hall : multiSendAllCoins env [o1, o2, o3] [] with
    | none =>
      rw [defaultMessageParser_multiSend_none env msgIdx tx txResponse [i1] [o1, o2, o3]
        hall] at hres
      cases hres
    | some allCoins =>
      rw [defaultMessageParser_multiSend_some env msgIdx tx txResponse [i1] [o1, o2, o3]
        allCoins hall] at hres
      simp only [Outcome.ok.injEq] at hres
      subst hres
      refine ⟨?_, _, _, _, rfl⟩
      simp only [List.count_append]
      rw [count_joinFragments _ _ (receiverFragments_no_separator _ [o1, o2, o3])]
      simp [joinFragments]

/-! ## Votes -/

theorem writeVoteOption_words (rb : FriendlyResponseContentBuilder) (option : VoteOption) :
    ∃ words : List Fragment, writeVoteOption rb option = rb ++ words ∧
      (option = OptionYes → words = [Fragment.text " votes YES"]) ∧
      (option = OptionNo → words = [Fragment.text " votes NO"]) ∧
      (option = OptionAbstain → words = [Fragment.text " votes Abstains"]) ∧
      (option = OptionNoWithVeto → words = [Fragment.text " votes NO with VETO"]) ∧
      (option ≠ OptionYes → option ≠ OptionNo → option ≠ OptionAbstain →
        option ≠ OptionNoWithVeto →
        words = [Fragment.text " votes ", Fragment.text (VoteOption.String option)]) := by
  unfold writeVoteOption
  by_cases h1 : option = OptionYes
  · rw [if_pos h1]
    refine ⟨[Fragment.text " votes YES"], rfl, fun _ => rfl, ?_, ?_, ?_, ?_⟩
    · intro h; rw [h1] at h; exact absurd h (by decide)
    · intro h; rw [h1] at h; exact absurd h (by decide)
    · intro h; rw [h1] at h; exact absurd h (by decide)
    · intro h; exact absurd h1 h
  · rw [if_neg h1]
    by_cases h2 : option = OptionNo
    · rw [if_pos h2]
      refine ⟨[Fragment.text " votes NO"], rfl, fun h => absurd h h1, fun _ => rfl, ?_, ?_, ?_⟩
      · intro h; rw [h2] at h; exact absurd h (by decide)
      · intro h; rw [h2] at h; exact absurd h (by decide)
      · intro _ h; exact absurd h2 h
    · rw [if_neg h2]
      by_cases h3 : option = OptionAbstain
      · rw [if_pos h3]
        refine ⟨[Fragment.text " votes Abstains"], rfl, fun h => absurd h h1,
          fun h => absurd h h2, fun _ => rfl, ?_, ?_⟩
        · intro h; rw [h3] at h; exact absurd h (by decide)
        · intro _ _ h; exact absurd h3 h
      · rw [if_neg h3]
        by_cases h4 : option = OptionNoWithVeto
        · rw [if_pos h4]
          exact ⟨[Fragment.text " votes NO with VETO"], rfl, fun h => absurd h h1,
            fun h => absurd h h2, fun h => absurd h h3, fun _ => rfl,
            fun _ _ _ h => absurd h4 h⟩
        · rw [if_neg h4]
          refine ⟨[Fragment.text " votes ", Fragment.text (VoteOption.String option)], ?_,
            fun h => absurd h h1, fun h => absurd h h2, fun h => absurd h h3,
            fun h => absurd h h4, fun _ _ _ _ => rfl⟩
          simp [FriendlyResponseContentBuilder.WriteText]

/-- C17 (counterexample): for a vote with the abstain option the words written
after the voter are " votes Abstains", and for the no-with-veto option
" votes NO with VETO"; neither text contains the literal `ABSTAIN` resp.
`NO WITH VETO`. -/
theorem defaultMessageParser_vote_literals :
    (∃ res, defaultMessageParser sampleEnv (.govv1_MsgVote 7 "rax1voter" OptionAbstain "") 0
        sampleTx sampleTxResponse = .ok res ∧
      res.friendly = [Fragment.address "rax1voter", Fragment.text " votes Abstains",
        Fragment.text " to proposal ", Fragment.text "7"] ∧
      containsText "ABSTAIN" res.friendly = false) ∧
    (∃ res, defaultMessageParser sampleEnv (.govlegacy_MsgVote 7 "rax1voter" OptionNoWithVeto) 0
        sampleTx sampleTxResponse = .ok res ∧
      res.friendly = [Fragment.address "rax1voter", Fragment.text " votes NO with VETO",
        Fragment.text " to proposal ", Fragment.text "7"] ∧
      containsText "NO WITH VETO" res.friendly = false) := by
  refine ⟨⟨_, by rfl, by rfl, by decide⟩, ⟨_, by rfl, by rfl, by decide⟩⟩

/-- C17 (amended): for every vote message (gov v1 and legacy v1beta1) the
friendly text written by the default parser is the voter address, then
" votes YES", " votes NO", " votes Abstains" or " votes NO with VETO" for the
four named options respectively, and " votes " followed by the raw option
string for every other option value, then " to proposal " and the proposal
id. -/
theorem defaultMessageParser_vote (env : Env) (msgIdx : Nat) (tx : Tx) (txResponse : TxResponse)
    (ProposalId : Nat) (Voter Metadata : String) (option : VoteOption) :
    ∃ (words : List Fragment) (res1 res2 : MessageContent),
      defaultMessageParser env (.govv1_MsgVote ProposalId Voter option Metadata) msgIdx tx
        txResponse = .ok res1 ∧
      defaultMessageParser env (.govlegacy_MsgVote ProposalId Voter option) msgIdx tx
        txResponse = .ok res2 ∧
      res1.friendly = Fragment.address Voter :: words ++
        [Fragment.text " to proposal ", Fragment.text (toString ProposalId)] ∧
      res2.friendly = res1.friendly ∧
      (option = OptionYes → words = [Fragment.text " votes YES"]) ∧
      (option = OptionNo → words = [Fragment.text " votes NO"]) ∧
      (option = OptionAbstain → words = [Fragment.text " votes Abstains"]) ∧
      (option = OptionNoWithVeto → words = [Fragment.text " votes NO with VETO"]) ∧
      (option ≠ OptionYes → option ≠ OptionNo → option ≠ OptionAbstain →
        option ≠ OptionNoWithVeto →
        words = [Fragment.text " votes ", Fragment.text (VoteOption.String option)]) := by
  obtain ⟨words, hw, h1, h2, h3, h4, h5⟩ :=
    writeVoteOption_words (NewFriendlyResponseContentBuilder.WriteAddress Voter) option
  refine ⟨words, _, _, by rw [defaultMessageParser], by rw [defaultMessageParser], ?_, ?_,
    h1, h2, h3, h4, h5⟩
  · simp only [FriendlyResponseContentBuilder.BuildIntoResponse,
      FriendlyResponseContentBuilder.WriteText]
    rw [hw]
    simp [FriendlyResponseContentBuilder.WriteAddress, NewFriendlyResponseContentBuilder]
  · rfl

/-! ## Denomination metadata -/

theorem mem_keys_setKey {β : Type} {m : List (String × β)} {k x : String} {v : β} :
    x ∈ (setKey m k v).map Prod.fst ↔ x ∈ m.map Prod.fst ∨ x = k := by
  unfold setKey
  by_cases hany : m.any (fun kv => kv.1 == k) = true
  · rw [if_pos hany]
    have hkeys : (m.map (fun kv => if kv.1 == k then (k, v) else kv)).map Prod.fst
        = m.map Prod.fst := by
      rw [List.map_map]
      apply List.map_congr_left
      intro kv _
      simp only [Function.comp_apply]
      by_cases hk : (kv.1 == k) = true
      · rw [if_pos hk]
        exact (eq_of_beq hk).symm
      · rw [if_neg hk]
    rw [hkeys]
    constructor
    · exact fun hx => Or.inl hx
    · rintro (hx | rfl)
      · exact hx
      · rw [List.any_eq_true] at hany
        obtain ⟨kv, hkv, hk⟩ := hany
        rw [List.mem_map]
        exact ⟨kv, hkv, eq_of_beq hk⟩
  · rw [if_neg hany]
    simp

theorem mem_keys_denomsMetadataStep (env : Env) (acc : List (String × Metadata)) (coin : Coin)
    (d : String) :
    d ∈ (denomsMetadataStep env acc coin).map Prod.fst ↔
      d ∈ acc.map Prod.fst ∨ (coin.Denom = d ∧ d ≠ "" ∧ metadataFetched env d = true) := by
  unfold denomsMetadataStep
  cases hq : env.DenomMetadata coin.Denom with
  | error e =>
    constructor
    · exact fun h => Or.inl h
    · rintro (h | ⟨rfl, _, hf⟩)
      · exact h
      · unfold metadataFetched at hf
        rw [hq] at hf
        cases hf
  | ok r =>
    cases r with
    | none =>
      constructor
      · exact fun h => Or.inl h
      · rintro (h | ⟨rfl, _, hf⟩)
        · exact h
        · unfold metadataFetched at hf
          rw [hq] at hf
          cases hf
    | some md =>
      have hf : metadataFetched env coin.Denom = true := by
        unfold metadataFetched
        rw [hq]
      by_cases he : coin.Denom = ""
      · dsimp only
        rw [if_pos he]
        constructor
        · exact fun h => Or.inl h
        · rintro (h | ⟨rfl, hne, _⟩)
          · exact h
          · exact absurd he hne
      · dsimp only
        rw [if_neg he, mem_keys_setKey]
        constructor
        · rintro (h | rfl)
          · exact Or.inl h
          · exact Or.inr ⟨rfl, he, hf⟩
        · rintro (h | ⟨rfl, _, _⟩)
          · exact Or.inl h
          · exact Or.inr rfl

theorem mem_keys_denomsMetadataFold (env : Env) (d : String) :
    ∀ (coins : List Coin) (acc : List (String × Metadata)),
      d ∈ (coins.foldl (denomsMetadataStep env) acc).map Prod.fst ↔
        d ∈ acc.map Prod.fst ∨
          (d ≠ "" ∧ metadataFetched env d = true ∧ ∃ c, c ∈ coins ∧ c.Denom = d) := by
  intro coins
  induction coins with
  | nil =>
    intro acc
    simp
  | cons c rest ih =>
    intro acc
    rw [List.foldl_cons, ih, mem_keys_denomsMetadataStep]
    constructor
    · rintro ((h | ⟨hc, hne, hf⟩) | ⟨hne, hf, x, hx, hxd⟩)
      · exact Or.inl h
      · exact Or.inr ⟨hne, hf, c, List.mem_cons_self c rest, hc⟩
      · exact Or.inr ⟨hne, hf, x, List.mem_cons_of_mem c hx, hxd⟩
    · rintro (h | ⟨hne, hf, x, hx, hxd⟩)
      · exact Or.inl (Or.inl h)
      · rcases List.mem_cons.1 hx with rfl | hx
        · exact Or.inl (Or.inr ⟨hxd, hne, hf⟩)
        · exact Or.inr ⟨hne, hf, x, hx, hxd⟩

theorem getBankDenomsMetadata_eq (env : Env) (coins : List Coin) :
    getBankDenomsMetadata env coins =
      if (coins.foldl (denomsMetadataStep env) []).length = 0 then
        if Coins.Find coins "urax" then
          setKey (coins.foldl (denomsMetadataStep env) []) "urax"
            { Description := ""
              DenomUnits := [⟨"urax", 0⟩, ⟨"RAX", 18⟩]
              Base := "urax"
              Display := "RAX"
              Name := "RAX"
              Symbol := "RAX" }
        else coins.foldl (denomsMetadataStep env) []
      else coins.foldl (denomsMetadataStep env) [] := rfl

/-! ### The binary search of `sdk.Coins.Find` -/

theorem charsLt_irrefl : ∀ a : List Char, charsLt a a = false
  | [] => rfl
  | a :: as => by
    rw [charsLt, if_neg (lt_irrefl a), if_neg (lt_irrefl a)]
    exact charsLt_irrefl as

theorem charsLt_trans : ∀ a b c : List Char, charsLt a b = true → charsLt b c = true →
    charsLt a c = true
  | _, [], _, h, _ => by simp [charsLt] at h
  | _, _ :: _, [], _, h => by simp [charsLt] at h
  | [], _ :: _, _ :: _, _, _ => rfl
  | x :: xs, y :: ys, z :: zs, h1, h2 => by
    rw [charsLt] at h1 h2 ⊢
    by_cases hxy : x < y
    · by_cases hyz : y < z
      · rw [if_pos (lt_trans hxy hyz)]
      · rw [if_neg hyz] at h2
        by_cases hzy : z < y
        · rw [if_pos hzy] at h2
          cases h2
        · have : y = z := le_antisymm (not_lt.1 hzy) (not_lt.1 hyz)
          subst this
          rw [if_pos hxy]
    · rw [if_neg hxy] at h1
      by_cases hyx : y < x
      · rw [if_pos hyx] at h1
        cases h1
      · rw [if_neg hyx] at h1
        have : x = y := le_antisymm (not_lt.1 hyx) (not_lt.1 hxy)
        subst this
        by_cases hyz : x < z
        · rw [if_pos hyz]
        · rw [if_neg hyz] at h2 ⊢
          by_cases hzy : z < x
          · rw [if_pos hzy] at h2
            cases h2
          · rw [if_neg hzy] at h2 ⊢
            exact charsLt_trans xs ys zs h1 h2

theorem charsLt_total : ∀ a b : List Char, charsLt a b = false → charsLt b a = false → a = b
  | [], [], _, _ => rfl
  | [], _ :: _, h, _ => by simp [charsLt] at h
  | _ :: _, [], _, h => by simp [charsLt] at h
  | x :: xs, y :: ys, h1, h2 => by
    rw [charsLt] at h1 h2
    by_cases hxy : x < y
    · rw [if_pos hxy] at h1
      cases h1
    · rw [if_neg hxy] at h1
      by_cases hyx : y < x
      · rw [if_pos hyx] at h2
        cases h2
      · rw [if_neg hyx] at h1 h2
        rw [if_neg hxy] at h2
        have : x = y := le_antisymm (not_lt.1 hyx) (not_lt.1 hxy)
        subst this
        rw [charsLt_total xs ys h1 h2]

theorem stringLt_irrefl (a : String) : stringLt a a = false := charsLt_irrefl _

theorem stringLt_trans {a b c : String} (h1 : stringLt a b = true) (h2 : stringLt b c = true) :
    stringLt a c = true := charsLt_trans _ _ _ h1 h2

theorem stringLt_total {a b : String} (h1 : stringLt a b = false) (h2 : stringLt b a = false) :
    a = b := String.ext (charsLt_total _ _ h1 h2)

theorem stringLe_trans {a b c : String} (h1 : stringLt b a = false) (h2 : stringLt c b = false) :
    stringLt c a = false := by
  cases hca : stringLt c a with
  | false => rfl
  | true =>
    exfalso
    cases hab : stringLt a b with
    | true =>
      have := stringLt_trans hca hab
      rw [h2] at this
      cases this
    | false =>
      have : a = b := stringLt_total hab h1
      subst this
      rw [h2] at hca
      cases hca

theorem Coins.pairwise_of_isSorted :
    ∀ coins : List Coin, Coins.isSorted coins = true →
      coins.Pairwise (fun x y => stringLt y.Denom x.Denom = false)
  | [], _ => List.Pairwise.nil
  | [_], _ => by simp
  | c0 :: c1 :: rest, h => by
    rw [Coins.isSorted, Bool.and_eq_true, Bool.not_eq_true'] at h
    have ih := Coins.pairwise_of_isSorted (c1 :: rest) h.2
    refine List.Pairwise.cons ?_ ih
    intro x hx
    rcases List.mem_cons.1 hx with rfl | hx
    · exact h.1
    · exact stringLe_trans h.1 ((List.pairwise_cons.1 ih).1 x hx)

theorem Coins.FindAux_sound :
    ∀ (fuel : Nat) (coins : List Coin) (denom : String),
      Coins.FindAux fuel coins denom = true → ∃ c, c ∈ coins ∧ c.Denom = denom := by
  intro fuel
  induction fuel with
  | zero =>
    intro coins denom h
    simp [Coins.FindAux] at h
  | succ n ih =>
    intro coins denom h
    match coins, h with
    | [], h => simp [Coins.FindAux] at h
    | [coin], h =>
      simp only [Coins.FindAux, decide_eq_true_eq] at h
      exact ⟨coin, List.mem_cons_self _ _, h⟩
    | c0 :: c1 :: rest, h =>
      rw [Coins.FindAux] at h
      try dsimp only at h
      cases hm : (c0 :: c1 :: rest)[(c0 :: c1 :: rest).length / 2]? with
      | none => rw [hm] at h; simp at h
      | some coin =>
        rw [hm] at h
        dsimp only at h
        by_cases hlt : stringLt denom coin.Denom = true
        · rw [if_pos hlt] at h
          obtain ⟨c, hc, hd⟩ := ih _ _ h
          exact ⟨c, List.mem_of_mem_take hc, hd⟩
        · rw [if_neg hlt] at h
          by_cases heq : denom = coin.Denom
          · exact ⟨coin, List.getElem?_mem hm, heq.symm⟩
          · rw [if_neg heq] at h
            obtain ⟨c, hc, hd⟩ := ih _ _ h
            exact ⟨c, List.mem_of_mem_drop hc, hd⟩

theorem Coins.FindAux_complete :
    ∀ (fuel : Nat) (coins : List Coin) (denom : String), coins.length ≤ fuel →
      coins.Pairwise (fun x y => stringLt y.Denom x.Denom = false) →
      (∃ c, c ∈ coins ∧ c.Denom = denom) → Coins.FindAux fuel coins denom = true := by
  intro fuel
  induction fuel with
  | zero =>
    intro coins denom hlen _ hex
    obtain ⟨c, hc, _⟩ := hex
    have : coins = [] := List.eq_nil_of_length_eq_zero (by omega)
    subst this
    simp at hc
  | succ n ih =>
    intro coins denom hlen hsorted hex
    match coins, hlen, hsorted, hex with
    | [], _, _, hex =>
      obtain ⟨c, hc, _⟩ := hex
      simp at hc
    | [coin], _, _, hex =>
      obtain ⟨c, hc, hd⟩ := hex
      simp only [List.mem_singleton] at hc
      subst hc
      simp [Coins.FindAux, hd]
    | c0 :: c1 :: rest, hlen, hsorted, hex =>
      obtain ⟨c, hc, hd⟩ := hex
      rw [Coins.FindAux]
      try dsimp only
      have hmid : (c0 :: c1 :: rest).length / 2 < (c0 :: c1 :: rest).length := by
        simp only [List.length_cons]
        omega
      rw [List.getElem?_eq_getElem hmid]
      dsimp only
      have hsplit : c0 :: c1 :: rest
          = (c0 :: c1 :: rest).take ((c0 :: c1 :: rest).length / 2) ++
            ((c0 :: c1 :: rest)[(c0 :: c1 :: rest).length / 2] ::
              (c0 :: c1 :: rest).drop ((c0 :: c1 :: rest).length / 2 + 1)) := by
        rw [← List.drop_eq_getElem_cons hmid, List.take_append_drop]
      generalize hL : c0 :: c1 :: rest = L at *
      generalize hcoin : L[L.length / 2] = coin at *
      rw [hsplit] at hsorted hc
      rw [List.pairwise_append] at hsorted
      obtain ⟨hleft, hright, hcross⟩ := hsorted
      rw [List.pairwise_cons] at hright
      rw [List.mem_append, List.mem_cons] at hc
      by_cases hlt : stringLt denom coin.Denom = true
      · rw [if_pos hlt]
        apply ih _ _ (by rw [List.length_take]; omega) hleft
        rcases hc with hc | rfl | hc
        · exact ⟨c, hc, hd⟩
        · rw [← hd, stringLt_irrefl] at hlt
          cases hlt
        · have := hright.1 c hc
          rw [hd, hlt] at this
          cases this
      · rw [if_neg hlt]
        by_cases heq : denom = coin.Denom
        · rw [if_pos heq]
        · rw [if_neg heq]
          apply ih _ _ (by rw [List.length_drop]; omega) hright.2
          rcases hc with hc | rfl | hc
          · exfalso
            have h1 := hcross c hc coin (List.mem_cons_self _ _)
            rw [hd] at h1
            exact heq (stringLt_total (by simpa using hlt) h1)
          · exact absurd hd.symm heq
          · exact ⟨c, hc, hd⟩

theorem Coins.Find_sound {coins : List Coin} {denom : String} (h : Coins.Find coins denom = true) :
    ∃ c, c ∈ coins ∧ c.Denom = denom := Coins.FindAux_sound _ _ _ h

theorem Coins.Find_of_isSorted {coins : List Coin} {denom : String}
    (hs : Coins.isSorted coins = true) :
    Coins.Find coins denom = true ↔ ∃ c, c ∈ coins ∧ c.Denom = denom :=
  ⟨Coins.Find_sound, Coins.FindAux_complete _ _ _ (le_refl _) (Coins.pairwise_of_isSorted _ hs)⟩

theorem getBankDenomsMetadata_keys_find (env : Env) (coins : List Coin) (d : String) :
    d ∈ (getBankDenomsMetadata env coins).map Prod.fst ↔
      (d ≠ "" ∧ metadataFetched env d = true ∧ ∃ c, c ∈ coins ∧ c.Denom = d) ∨
      ((∀ c, c ∈ coins → ¬ (c.Denom ≠ "" ∧ metadataFetched env c.Denom = true)) ∧
        d = "urax" ∧ Coins.Find coins "urax" = true) := by
  have hfold := fun d => mem_keys_denomsMetadataFold env d coins []
  have hempty : (coins.foldl (denomsMetadataStep env) []).length = 0 ↔
      ∀ c, c ∈ coins → ¬ (c.Denom ≠ "" ∧ metadataFetched env c.Denom = true) := by
    constructor
    · intro hl c hc hcond
      have hnil : coins.foldl (denomsMetadataStep env) [] = [] :=
        List.eq_nil_of_length_eq_zero hl
      have := (hfold c.Denom).2 (Or.inr ⟨hcond.1, hcond.2, c, hc, rfl⟩)
      rw [hnil] at this
      simp at this
    · intro hall
      cases hl : coins.foldl (denomsMetadataStep env) [] with
      | nil => rfl
      | cons kv rest =>
        exfalso
        have hk : kv.1 ∈ (coins.foldl (denomsMetadataStep env) []).map Prod.fst := by
          rw [hl]
          simp
        rcases (hfold kv.1).1 hk with h | ⟨hne, hf, c, hc, hcd⟩
        · simp at h
        · exact hall c hc ⟨by rw [hcd]; exact hne, by rw [hcd]; exact hf⟩
  rw [getBankDenomsMetadata_eq]
  by_cases hl : (coins.foldl (denomsMetadataStep env) []).length = 0
  · rw [if_pos hl]
    have hall := hempty.1 hl
    have hnone : ¬ (d ≠ "" ∧ metadataFetched env d = true ∧ ∃ c, c ∈ coins ∧ c.Denom = d) := by
      rintro ⟨hne, hf, c, hc, hcd⟩
      exact hall c hc ⟨by rw [hcd]; exact hne, by rw [hcd]; exact hf⟩
    by_cases hfd : Coins.Find coins "urax" = true
    · rw [if_pos hfd, mem_keys_setKey, hfold d]
      constructor
      · rintro ((h | h) | rfl)
        · simp at h
        · exact absurd h hnone
        · exact Or.inr ⟨hall, rfl, hfd⟩
      · rintro (h | ⟨_, rfl, _⟩)
        · exact absurd h hnone
        · exact Or.inr rfl
    · rw [if_neg hfd, hfold d]
      constructor
      · rintro (h | h)
        · simp at h
        · exact absurd h hnone
      · rintro (h | ⟨_, _, hex⟩)
        · exact absurd h hnone
        · exact absurd hex hfd
  · rw [if_neg hl, hfold d]
    constructor
    · rintro (h | h)
      · simp at h
      · exact Or.inl h
    · rintro (h | ⟨hall, _, _⟩)
      · exact Or.inr h
      · exact absurd (hempty.2 hall) hl

/-- C18 (the code at the failing input): the default denomination is not
inserted whenever it is present among the coins.  Line 1128 looks for it with
`coins.Find`, a binary search, and on the coin list `5urax, 1aaa, 1bbb`, which
is not sorted, with no metadata on the chain, the search misses `urax` and the
returned map is empty although `urax` is among the coins.  In general the keys
of the returned map are exactly the non-empty denominations of the list whose
metadata fetch succeeded, except that when no fetch produced an entry `urax` is
the one key if and only if `Find` reports it; every key is a denomination of
the coin list; and for a coin list sorted by denomination `Find` reports `urax`
exactly when it is among the coins, as on `1aaa, 1bbb, 5urax`. -/
theorem getBankDenomsMetadata_keys (env : Env) (coins : List Coin) :
    ((∃ c : Coin, c ∈ [(⟨"urax", 5⟩ : Coin), ⟨"aaa", 1⟩, ⟨"bbb", 1⟩] ∧ c.Denom = "urax") ∧
      Coins.isSorted [⟨"urax", 5⟩, ⟨"aaa", 1⟩, ⟨"bbb", 1⟩] = false ∧
      Coins.Find [⟨"urax", 5⟩, ⟨"aaa", 1⟩, ⟨"bbb", 1⟩] "urax" = false ∧
      (∀ d, metadataFetched sampleEnv d = false) ∧
      getBankDenomsMetadata sampleEnv [⟨"urax", 5⟩, ⟨"aaa", 1⟩, ⟨"bbb", 1⟩] = []) ∧
    (∀ d, d ∈ (getBankDenomsMetadata env coins).map Prod.fst ↔
      (d ≠ "" ∧ metadataFetched env d = true ∧ ∃ c, c ∈ coins ∧ c.Denom = d) ∨
      ((∀ c, c ∈ coins → ¬ (c.Denom ≠ "" ∧ metadataFetched env c.Denom = true)) ∧
        d = "urax" ∧ Coins.Find coins "urax" = true)) ∧
    (∀ d, d ∈ (getBankDenomsMetadata env coins).map Prod.fst →
      ∃ c, c ∈ coins ∧ c.Denom = d) ∧
    (Coins.isSorted coins = true →
      ∀ d, d ∈ (getBankDenomsMetadata env coins).map Prod.fst ↔
        (d ≠ "" ∧ metadataFetched env d = true ∧ ∃ c, c ∈ coins ∧ c.Denom = d) ∨
        ((∀ c, c ∈ coins → ¬ (c.Denom ≠ "" ∧ metadataFetched env c.Denom = true)) ∧
          d = "urax" ∧ ∃ c, c ∈ coins ∧ c.Denom = "urax")) ∧
    (Coins.isSorted [⟨"aaa", 1⟩, ⟨"bbb", 1⟩, ⟨"urax", 5⟩] = true ∧
      (getBankDenomsMetadata sampleEnv [⟨"aaa", 1⟩, ⟨"bbb", 1⟩, ⟨"urax", 5⟩]).map Prod.fst
        = ["urax"]) := by
  refine ⟨⟨⟨_, List.mem_cons_self _ _, rfl⟩, by rfl, by rfl, fun d => rfl, by rfl⟩,
    getBankDenomsMetadata_keys_find env coins, ?_, ?_, ⟨by rfl, by rfl⟩⟩
  · intro d hd
    rcases (getBankDenomsMetadata_keys_find env coins d).1 hd with ⟨_, _, hex⟩ | ⟨_, rfl, hf⟩
    · exact hex
    · exact Coins.Find_sound hf
  · intro hs d
    rw [getBankDenomsMetadata_keys_find, Coins.Find_of_isSorted hs]

/-! ## Validation of the hash -/

theorem msgsLoop_err_internal (env : Env) (tx : Tx) (txRes : TxResponse) :
    ∀ (msgs : List AnyMsg) (i : Nat) (e : GoError),
      msgsLoop env tx txRes msgs i = .err e → ∃ text, e = .status .Internal text := by
  intro msgs
  induction msgs with
  | nil =>
    intro i e h
    simp [msgsLoop] at h
  | cons msg rest ih =>
    intro i e h
    rw [msgsLoop] at h
    cases hu : msg.UnpackAny with
    | error err =>
      rw [hu] at h
      simp only [Outcome.err.injEq] at h
      exact ⟨_, h.symm⟩
    | ok c =>
      rw [hu] at h
      dsimp only at h
      cases hb : buildMsgInfo env i msg (env.ProtoMessageName c)
          (messageParserFor env (env.ProtoMessageName c) c i tx txRes) with
      | none => rw [hb] at h; simp at h
      | some info =>
        rw [hb] at h
        dsimp only at h
        cases hr : msgsLoop env tx txRes rest (i + 1) with
        | ok more => rw [hr] at h; simp at h
        | panic => rw [hr] at h; simp at h
        | err e2 =>
          rw [hr] at h
          simp only [Outcome.err.injEq] at h
          subst h
          exact ih (i + 1) e2 hr

theorem patternTxHash_iff (hashStr : String) :
    patternTxHash hashStr = true ↔
      specPatternTxHash hashStr = true ∨
        ∃ rest, hashStr.toList = '0' :: 'X' :: rest ∧ isHex64 rest = true := by
  unfold patternTxHash specPatternTxHash
  cases hl : hashStr.toList with
  | nil => simp
  | cons c0 t =>
    cases t with
    | nil => simp
    | cons c1 rest =>
      simp only [Bool.or_eq_true, Bool.and_eq_true, beq_iff_eq, List.cons.injEq]
      constructor
      · rintro (h | ⟨⟨h0, h1 | h1⟩, h2⟩)
        · exact Or.inl (Or.inl h)
        · exact Or.inl (Or.inr ⟨⟨h0, h1⟩, h2⟩)
        · exact Or.inr ⟨rest, ⟨h0, h1, rfl⟩, h2⟩
      · rintro ((h | ⟨⟨h0, h1⟩, h2⟩) | ⟨r, ⟨h0, h1, rfl⟩, h2⟩)
        · exact Or.inl h
        · exact Or.inr ⟨⟨h0, Or.inl h1⟩, h2⟩
        · exact Or.inr ⟨⟨h0, Or.inr h1⟩, h2⟩

/-- C19 (counterexample): a string of 64 hexadecimal digits preceded by `0X`
does not match `^(0x)?[0-9a-fA-F]{64}$`, yet `GetTransactionByHash` does not
fail with BadRequest on it: the pattern of the code accepts it, the
transaction query is invoked and the call ends with NotFound. -/
theorem GetTransactionByHash_upper_prefix_accepted :
    specPatternTxHash sampleUpperPrefixHash = false ∧
    patternTxHash sampleUpperPrefixHash = true ∧
    GetTransactionByHash sampleEnv sampleUpperPrefixHash
      = .err (.status .NotFound "transaction not found") ∧
    GetTransactionByHash sampleEnv sampleUpperPrefixHash ≠ .err .ErrBadRequest ∧
    GetTransactionByHashCalls sampleEnv sampleUpperPrefixHash
      = [.GetTx (("0x" ++ sampleUpperPrefixHash).drop 2)] := by
  have hrun : GetTransactionByHash sampleEnv sampleUpperPrefixHash
      = .err (.status .NotFound "transaction not found") := by rfl
  refine ⟨by decide, by decide, hrun, ?_, by rfl⟩
  rw [hrun]
  intro h
  cases h

/-- C19 (amended): `GetTransactionByHash` itself fails with BadRequest exactly
for the input strings that do not match the pattern of the code,
`^(0[xX])?[0-9a-fA-F]{64}$`: 64 hexadecimal digits of either case, optionally
preceded by `0x` or by `0X`, that is the strings of the stated pattern and in
addition those with the prefix `0X`.  In that case neither the interceptor nor
the transaction query is invoked.  For a matching string that the interceptor
handles, what the interceptor hands back is returned as it is. -/
theorem GetTransactionByHash_badRequest_iff (env : Env) (hashStr : String) :
    (GetTransactionByHash env hashStr = .err .ErrBadRequest ↔ patternTxHash hashStr = false) ∧
    (patternTxHash hashStr = false → GetTransactionByHashCalls env hashStr = []) ∧
    (patternTxHash hashStr = true ↔
      specPatternTxHash hashStr = true ∨
        ∃ rest, hashStr.toList = '0' :: 'X' :: rest ∧ isHex64 rest = true) ∧
    (∀ r, patternTxHash hashStr = true → runInterceptor env hashStr = some r →
      GetTransactionByHash env hashStr = .intercepted r.response r.err ∧
      GetTransactionByHashCalls env hashStr = [.Interceptor hashStr]) := by
  refine ⟨⟨?_, ?_⟩, ?_, patternTxHash_iff hashStr, ?_⟩
  · intro h
    cases hp : patternTxHash hashStr with
    | false => rfl
    | true =>
      exfalso
      unfold GetTransactionByHash at h
      rw [hp] at h
      simp only [Bool.not_true, Bool.false_eq_true, if_false] at h
      cases hi : runInterceptor env hashStr with
      | some r => rw [hi] at h; simp at h
      | none =>
        rw [hi] at h
        dsimp only at h
        by_cases hlen : (env.NormalizeTransactionHash hashStr true).length < 2
        · rw [if_pos hlen] at h
          cases h
        · rw [if_neg hlen] at h
          cases hg : env.GetTx ((env.NormalizeTransactionHash hashStr true).drop 2) with
          | error err => rw [hg] at h; simp at h
          | ok o =>
            cases o with
            | none => rw [hg] at h; simp at h
            | some res =>
              rw [hg] at h
              dsimp only at h
              cases hm : msgsLoop env res.Tx res.TxResponse res.Tx.Body_Messages 0 with
              | ok infos => rw [hm] at h; simp at h
              | panic => rw [hm] at h; simp at h
              | err e =>
                rw [hm] at h
                obtain ⟨text, ht⟩ := msgsLoop_err_internal env _ _ _ _ _ hm
                rw [ht] at h
                simp at h
  · intro hp
    unfold GetTransactionByHash
    rw [hp]
    rfl
  · intro hp
    unfold GetTransactionByHashCalls
    rw [hp]
    rfl
  · intro r hp hi
    constructor
    · unfold GetTransactionByHash
      rw [hp, hi]
      rfl
    · unfold GetTransactionByHashCalls
      rw [hp]
      unfold runInterceptor at hi
      cases hint : env.interceptor with
      | none => rw [hint] at hi; simp at hi
      | some interceptor =>
        rw [hint] at hi
        dsimp only at hi ⊢
        by_cases hc : (interceptor hashStr).intercepted = true
        · simp [hc]
        · rw [if_neg hc] at hi
          cases hi

/-! ## The outcomes of the transaction query -/

/-- C20 (counterexample): a well-formed hash that no interceptor handles and
whose transaction the chain returns, the single message of which fails to
unpack: the transaction is not absent and the query does not fail, yet no
response is returned; the call fails with an Internal error. -/
theorem GetTransactionByHash_found_without_response :
    patternTxHash sampleHash = true ∧
    runInterceptor (sampleTxEnv [sampleBrokenAny]) sampleHash = none ∧
    (sampleTxEnv [sampleBrokenAny]).NormalizeTransactionHash sampleHash true = "0x" ++ sampleHash ∧
    (∃ res, (sampleTxEnv [sampleBrokenAny]).GetTx sampleHash = .ok (some res)) ∧
    GetTransactionByHash (sampleTxEnv [sampleBrokenAny]) sampleHash
      = .err (.status .Internal "failed to unpack message: no concrete type registered") ∧
    ∀ r, GetTransactionByHash (sampleTxEnv [sampleBrokenAny]) sampleHash ≠ .response r := by
  have hrun : GetTransactionByHash (sampleTxEnv [sampleBrokenAny]) sampleHash
      = .err (.status .Internal "failed to unpack message: no concrete type registered") := by rfl
  refine ⟨by decide, rfl, rfl, ⟨_, rfl⟩, hrun, ?_⟩
  intro r hr
  rw [hrun] at hr
  cases hr

/-- C20 (amended): for every well-formed hash that no interceptor handles and
whose normalised form carries its two-character prefix, `GetTransactionByHash`
fails with NotFound when the transaction query returns no transaction and no
error, and with Internal, carrying the text of the error, when the query
fails.  When the query returns a transaction and no parser panics, the call
returns a response if every message of the transaction unpacks and fails with
Internal otherwise; a response is returned only for a transaction that the
query returned and whose messages all unpack. -/
theorem GetTransactionByHash_outcomes (env : Env) (hashStr : String)
    (hpat : patternTxHash hashStr = true) (hint : runInterceptor env hashStr = none)
    (hlen : 2 ≤ (env.NormalizeTransactionHash hashStr true).length) :
    (env.GetTx ((env.NormalizeTransactionHash hashStr true).drop 2) = .ok none →
      GetTransactionByHash env hashStr = .err (.status .NotFound "transaction not found")) ∧
    (∀ text, env.GetTx ((env.NormalizeTransactionHash hashStr true).drop 2) = .error text →
      GetTransactionByHash env hashStr = .err (.status .Internal text)) ∧
    (∀ res, env.GetTx ((env.NormalizeTransactionHash hashStr true).drop 2) = .ok (some res) →
      anyParserPanics env res.Tx res.TxResponse res.Tx.Body_Messages 0 = false →
      (allUnpack res.Tx.Body_Messages = true →
        ∃ r, GetTransactionByHash env hashStr = .response r) ∧
      (allUnpack res.Tx.Body_Messages = false →
        ∃ text, GetTransactionByHash env hashStr = .err (.status .Internal text))) ∧
    (∀ r, GetTransactionByHash env hashStr = .response r →
      ∃ res, env.GetTx ((env.NormalizeTransactionHash hashStr true).drop 2) = .ok (some res) ∧
        allUnpack res.Tx.Body_Messages = true) := by
  have hhead : GetTransactionByHash env hashStr =
      match env.GetTx ((env.NormalizeTransactionHash hashStr true).drop 2) with
      | .error err => .err (.status .Internal err)
      | .ok none => .err (.status .NotFound "transaction not found")
      | .ok (some res) => GetTransactionByHash env hashStr := by
    cases hg : env.GetTx ((env.NormalizeTransactionHash hashStr true).drop 2) with
    | error err =>
      unfold GetTransactionByHash
      rw [hpat, hint]
      dsimp only
      rw [if_neg (by simp), if_neg (by omega), hg]
    | ok o =>
      cases o with
      | none =>
        unfold GetTransactionByHash
        rw [hpat, hint]
        dsimp only
        rw [if_neg (by simp), if_neg (by omega), hg]
      | some res => rfl
  refine ⟨?_, ?_, ?_, ?_⟩
  · intro hg
    rw [hhead, hg]
  · intro text hg
    rw [hhead, hg]
  · intro res hg hpan
    have hfound := GetTransactionByHash_found hpat hint hlen hg
    constructor
    · intro hall
      obtain ⟨infos, hi⟩ := msgsLoop_returns env _ _ _ 0 hall hpan
      rw [hfound, hi]
      exact ⟨_, rfl⟩
    · intro hall
      obtain ⟨text, ht⟩ := msgsLoop_unpack_failure env _ _ _ 0 hall hpan
      rw [hfound, ht]
      exact ⟨_, rfl⟩
  · intro r hr
    cases hg : env.GetTx ((env.NormalizeTransactionHash hashStr true).drop 2) with
    | error err =>
      rw [hhead, hg] at hr
      cases hr
    | ok o =>
      cases o with
      | none =>
        rw [hhead, hg] at hr
        cases hr
      | some res =>
        exact ⟨res, rfl, (msgsLoop_ok env _ _ _ _ _
          (GetTransactionByHash_response hpat hint hlen hg hr)).1⟩

/-- Witness of C20: on the sample backend the transaction of `sampleHash` is
absent and the call fails with NotFound; on the backend that stores a transfer
under it the call returns a response. -/
theorem GetTransactionByHash_outcomes_witness :
    (patternTxHash sampleHash = true ∧ runInterceptor sampleEnv sampleHash = none ∧
      2 ≤ (sampleEnv.NormalizeTransactionHash sampleHash true).length) ∧
    GetTransactionByHash sampleEnv sampleHash
      = .err (.status .NotFound "transaction not found") ∧
    ∃ r, GetTransactionByHash (sampleTxEnv [sampleSendAny]) sampleHash = .response r :=
  ⟨⟨by decide, rfl, by decide⟩,
    (GetTransactionByHash_outcomes sampleEnv sampleHash (by decide) rfl (by decide)).1 rfl,
    ((GetTransactionByHash_outcomes (sampleTxEnv [sampleSendAny]) sampleHash
      (by decide) rfl (by decide)).2.2.1 _ rfl (by rfl)).1 (by rfl)⟩

/-! ## The records of the transactions of a block -/

theorem txLoop_records (env : Env) (height : Int) (Txs : List Tx) :
    ∀ (dataTxs : List TmTx) (i : Nat) (infos : List TxInfo) (eb : Tracker)
      (r : List TxInfo × Tracker),
      txLoop env height Txs dataTxs i infos eb = some r →
      ∃ recs, r.1 = infos ++ recs ∧ recs.length = dataTxs.length ∧
        ∀ (k : Nat) (rec : TxInfo), recs[k]? = some rec →
          ∃ tx tmTx, Txs[i + k]? = some tx ∧ dataTxs[k]? = some tmTx ∧
            IsRecordOf env height tx tmTx rec := by
  intro dataTxs
  induction dataTxs with
  | nil =>
    intro i infos eb r h
    simp only [txLoop, Option.some.injEq] at h
    subst h
    exact ⟨[], by simp, rfl, by simp⟩
  | cons tmTx rest ih =>
    intro i infos eb r h
    rw [txLoop] at h
    cases hx : Txs[i]? with
    | none => rw [hx] at h; simp at h
    | some tx =>
      rw [hx] at h
      dsimp only at h
      cases hm : messageLoop env height tx tmTx tx.Body_Messages ⟨none, [], eb⟩ with
      | none => rw [hm] at h; simp at h
      | some st =>
        rw [hm] at h
        dsimp only at h
        obtain ⟨recs, hr, hlen, hrec⟩ := ih _ _ _ _ h
        refine ⟨(⟨(txHashAndType env tx tmTx).1, (txHashAndType env tx tmTx).2, st.involvers,
          st.messagesType⟩ : TxInfo) :: recs, ?_, by simp [hlen], ?_⟩
        · rw [hr]
          simp
        · intro k rec hk
          cases k with
          | zero =>
            simp only [List.getElem?_cons_zero, Option.some.injEq] at hk
            subst hk
            exact ⟨tx, tmTx, by simpa using hx, by simp, st, eb, hm, rfl, rfl, rfl, rfl⟩
          | succ k =>
            simp only [List.getElem?_cons_succ] at hk
            obtain ⟨tx2, tmTx2, h1, h2, h3⟩ := hrec k rec hk
            refine ⟨tx2, tmTx2, ?_, by simpa using h2, h3⟩
            have : i + (k + 1) = i + 1 + k := by omega
            rw [this]
            exact h1

theorem mem_setBlock {m : List (Int × BlockInfo)} {h : Int} {info : BlockInfo}
    {p : Int × BlockInfo} (hp : p ∈ setBlock m h info) : p ∈ m ∨ p = (h, info) := by
  unfold setBlock at hp
  by_cases hany : m.any (fun kv => kv.1 == h) = true
  · rw [if_pos hany, List.mem_map] at hp
    obtain ⟨kv, hkv, hq⟩ := hp
    by_cases hk : (kv.1 == h) = true
    · rw [if_pos hk] at hq
      exact Or.inr hq.symm
    · rw [if_neg hk] at hq
      subst hq
      exact Or.inl hkv
  · rw [if_neg hany, List.mem_append, List.mem_singleton] at hp
    exact hp

theorem scanHeight_records {env : Env} {st st' : ScanState} {h : Int}
    (hinv : ∀ p, p ∈ st.txsByBlock → BlockRecords env p.1 p.2)
    (hs : scanHeight env h st = some st') :
    ∀ p, p ∈ st'.txsByBlock → BlockRecords env p.1 p.2 := by
  unfold scanHeight at hs
  cases hg : env.GetBlockWithTxs h with
  | error e =>
    rw [hg] at hs
    simp only [Option.some.injEq] at hs
    subst hs
    exact hinv
  | ok ob =>
    cases ob with
    | none =>
      rw [hg] at hs
      simp only [Option.some.injEq] at hs
      subst hs
      exact hinv
    | some b =>
      rw [hg] at hs
      dsimp only at hs
      have hF : fetchedBlock env h = some b := by unfold fetchedBlock; rw [hg]
      cases ht : txLoop env h b.Txs b.Block_Data_Txs 0 [] st.errorBlocks with
      | none => rw [ht] at hs; simp at hs
      | some r =>
        rw [ht] at hs
        dsimp only at hs
        by_cases hhas : Tracker.Has r.2 h = true
        · rw [if_pos hhas] at hs
          simp only [Option.some.injEq] at hs
          subst hs
          exact hinv
        · rw [if_neg hhas] at hs
          simp only [Option.some.injEq] at hs
          subst hs
          intro p hp
          rcases mem_setBlock hp with hp | rfl
          · exact hinv p hp
          · obtain ⟨recs, hr, hlen, hrec⟩ := txLoop_records env h b.Txs _ _ _ _ _ ht
            simp only [List.nil_append] at hr
            refine ⟨b, hF, rfl, ?_, ?_⟩
            · show r.1.length = _
              rw [hr, hlen]
            · intro k rec hk
              have hk2 : recs[k]? = some rec := by
                rw [← hr]
                exact hk
              obtain ⟨tx, tmTx, h1, h2, h3⟩ := hrec k rec hk2
              exact ⟨tx, tmTx, by simpa using h1, h2, h3⟩

theorem scanHeights_records (env : Env) :
    ∀ (L : List Int) (st st' : ScanState),
      (∀ p, p ∈ st.txsByBlock → BlockRecords env p.1 p.2) →
      scanHeights env L st = some st' →
      ∀ p, p ∈ st'.txsByBlock → BlockRecords env p.1 p.2 := by
  intro L
  induction L with
  | nil =>
    intro st st' hinv hs
    simp only [scanHeights, Option.some.injEq] at hs
    subst hs
    exact hinv
  | cons h rest ih =>
    intro st st' hinv hs
    rw [scanHeights] at hs
    cases h1 : scanHeight env h st with
    | none => rw [h1] at hs; simp at hs
    | some st1 =>
      rw [h1] at hs
      dsimp only at hs
      exact ih st1 st' (scanHeight_records hinv h1) hs

/-- Every entry of `blocks` in a response holds the records of the block
fetched at its height, and no message of that block fails to unpack. -/
theorem GetTransactionsInBlockRange_records {env : Env} {fuel : Nat} {a b : Int}
    {calls : List Call} {res : BlockRangeResponse} (ha : IsInt64 a) (hb : IsInt64 b)
    (hrun : GetTransactionsInBlockRange env fuel a b = .done calls (.ok res))
    {h : Int} {info : BlockInfo} (hmem : (h, info) ∈ res.blocks) :
    ∃ blk, fetchedBlock env h = some blk ∧ hasUnpackFailure blk = false ∧
      info.timeEpochUTC = blk.Block_Header_Time_Unix ∧
      info.txs.length = blk.Block_Data_Txs.length ∧
      ∀ (k : Nat) (rec : TxInfo), info.txs[k]? = some rec →
        ∃ tx tmTx, blk.Txs[k]? = some tx ∧ blk.Block_Data_Txs[k]? = some tmTx ∧
          IsRecordOf env h tx tmTx rec := by
  obtain ⟨_, _, _, network, st, _, hscan, _, hres⟩ := GetTransactionsInBlockRange_response ha hb hrun
  have hrecs := scanHeights_records env _ _ _ (by intro p hp; simp at hp) hscan
  have hkeys := (GetTransactionsInBlockRange_inv ha hb hrun h).2.2
  subst hres
  have hmem2 : (h, info) ∈ st.txsByBlock := hmem
  obtain ⟨blk, hF, ht, hl, hk⟩ := hrecs (h, info) hmem2
  have hin : h ∈ (buildResponse (skippedBlockRange a (defaultToHeight a b)) network st).heights := by
    show h ∈ st.txsByBlock.map Prod.fst
    rw [List.mem_map]
    exact ⟨(h, info), hmem2, rfl⟩
  obtain ⟨_, blk2, hF2, hu⟩ := hkeys.1 hin
  rw [hF] at hF2
  cases hF2
  exact ⟨blk, hF, hu, ht, hl, hk⟩

/-! ## The kind and the hash of a record -/

theorem txHashAndType_spec (env : Env) (tx : Tx) (tmTx : TmTx) :
    ((txHashAndType env tx tmTx).2 = "evm" ↔
      ∃ result evm, env.IsEvmTx tx = true ∧ env.ClientTx tmTx.Hash = .ok (some result) ∧
        env.GetEvmTransactionHashFromEvent result.TxResult_Events = some evm) ∧
    (∀ result evm, env.IsEvmTx tx = true → env.ClientTx tmTx.Hash = .ok (some result) →
      env.GetEvmTransactionHashFromEvent result.TxResult_Events = some evm →
      (txHashAndType env tx tmTx).2 = "evm" ∧
      (txHashAndType env tx tmTx).1 = env.NormalizeTransactionHash evm false) ∧
    ((txHashAndType env tx tmTx).2 ≠ "evm" →
      (txHashAndType env tx tmTx).2 = "cosmos" ∧
      (txHashAndType env tx tmTx).1 = ToUpper (hexEncodeToString tmTx.Hash)) := by
  unfold txHashAndType
  dsimp only
  by_cases hevm : env.IsEvmTx tx = true
  · rw [if_pos hevm]
    cases hq : env.ClientTx tmTx.Hash with
    | error e =>
      refine ⟨⟨fun h => by simp at h, ?_⟩, ?_, fun _ => ⟨rfl, rfl⟩⟩
      · rintro ⟨result, evm, _, h2, _⟩
        cases h2
      · intro result evm _ h2
        cases h2
    | ok o =>
      cases o with
      | none =>
        refine ⟨⟨fun h => by simp at h, ?_⟩, ?_, fun _ => ⟨rfl, rfl⟩⟩
        · rintro ⟨result, evm, _, h2, _⟩
          cases h2
        · intro result evm _ h2
          cases h2
      | some result =>
        dsimp only
        cases hg : env.GetEvmTransactionHashFromEvent result.TxResult_Events with
        | none =>
          refine ⟨⟨fun h => by simp at h, ?_⟩, ?_, fun _ => ⟨rfl, rfl⟩⟩
          · rintro ⟨result2, evm, _, h2, h3⟩
            simp only [Except.ok.injEq, Option.some.injEq] at h2
            subst h2
            rw [hg] at h3
            cases h3
          · intro result2 evm _ h2 h3
            simp only [Except.ok.injEq, Option.some.injEq] at h2
            subst h2
            rw [hg] at h3
            cases h3
        | some evm =>
          refine ⟨⟨fun _ => ⟨result, evm, hevm, rfl, hg⟩, fun _ => rfl⟩, ?_, fun h => absurd rfl h⟩
          intro result2 evm2 _ h2 h3
          simp only [Except.ok.injEq, Option.some.injEq] at h2
          subst h2
          rw [hg] at h3
          simp only [Option.some.injEq] at h3
          subst h3
          exact ⟨rfl, rfl⟩
  · rw [if_neg hevm]
    refine ⟨⟨fun h => by simp at h, ?_⟩, ?_, fun _ => ⟨rfl, rfl⟩⟩
    · rintro ⟨result, evm, h1, _, _⟩
      exact absurd h1 hevm
    · intro result evm h1
      exact absurd h1 hevm

/-- C21: in a response of `GetTransactionsInBlockRange`, the entry of a height
holds one record per transaction of the block fetched at that height, and the
record of a transaction has kind `evm`, with the hash taken from the events of
the transaction result (normalised), exactly when the EVM heuristic holds for
the transaction, the transaction-result query succeeds with a result, and the
events of that result carry an EVM transaction hash; in every other case, a
failed result query included, the kind is `cosmos` and the hash is the
upper-case hexadecimal form of the transaction's own hash. -/
theorem GetTransactionsInBlockRange_kind (env : Env) (fuel : Nat) (a b : Int)
    (calls : List Call) (res : BlockRangeResponse) (ha : IsInt64 a) (hb : IsInt64 b)
    (hrun : GetTransactionsInBlockRange env fuel a b = .done calls (.ok res))
    (h : Int) (info : BlockInfo) (hmem : (h, info) ∈ res.blocks) :
    ∃ blk, fetchedBlock env h = some blk ∧ info.txs.length = blk.Block_Data_Txs.length ∧
      ∀ (k : Nat) (rec : TxInfo), info.txs[k]? = some rec →
        ∃ tx tmTx, blk.Txs[k]? = some tx ∧ blk.Block_Data_Txs[k]? = some tmTx ∧
          (rec.type = "evm" ↔
            ∃ result evm, env.IsEvmTx tx = true ∧ env.ClientTx tmTx.Hash = .ok (some result) ∧
              env.GetEvmTransactionHashFromEvent result.TxResult_Events = some evm) ∧
          (∀ result evm, env.IsEvmTx tx = true → env.ClientTx tmTx.Hash = .ok (some result) →
            env.GetEvmTransactionHashFromEvent result.TxResult_Events = some evm →
            rec.type = "evm" ∧ rec.hash = env.NormalizeTransactionHash evm false) ∧
          (rec.type ≠ "evm" →
            rec.type = "cosmos" ∧ rec.hash = ToUpper (hexEncodeToString tmTx.Hash)) ∧
          (∀ e, env.ClientTx tmTx.Hash = .error e →
            rec.type = "cosmos" ∧ rec.hash = ToUpper (hexEncodeToString tmTx.Hash)) := by
  obtain ⟨blk, hF, _, _, hl, hk⟩ := GetTransactionsInBlockRange_records ha hb hrun hmem
  refine ⟨blk, hF, hl, ?_⟩
  intro k rec hrec
  obtain ⟨tx, tmTx, h1, h2, st, eb, _, hhash, htype, _, _⟩ := hk k rec hrec
  obtain ⟨s1, s2, s3⟩ := txHashAndType_spec env tx tmTx
  rw [← hhash, ← htype] at s2 s3
  rw [← htype] at s1
  refine ⟨tx, tmTx, h1, h2, s1, s2, s3, ?_⟩
  intro e he
  apply s3
  intro hevm
  obtain ⟨result, evm, _, hq, _⟩ := s1.1 hevm
  rw [he] at hq
  cases hq

/-- Witness of C21: the scan of height 5 on `sampleEvmEnv`; the record of the
one transaction has kind `evm`. -/
theorem GetTransactionsInBlockRange_kind_witness :
    (IsInt64 5 ∧ IsInt64 5 ∧
      GetTransactionsInBlockRange sampleEvmEnv 1 5 5
        = .done [Call.Status, Call.GetBlockWithTxs 5] (.ok sampleEvmResponse) ∧
      ((5 : Int), (⟨1700000005, [⟨"0xfeed", "evm",
          some [("involvers", "rax1alice"), ("involvers", "rax1bob")],
          ["/cosmos.bank.v1beta1.MsgSend"]⟩]⟩ : BlockInfo)) ∈ sampleEvmResponse.blocks) ∧
    ∃ blk, fetchedBlock sampleEvmEnv 5 = some blk ∧ 1 = blk.Block_Data_Txs.length :=
  ⟨⟨by decide, by decide, by rfl, List.mem_cons_self _ _⟩,
    (GetTransactionsInBlockRange_kind sampleEvmEnv 1 5 5 [Call.Status, Call.GetBlockWithTxs 5]
      sampleEvmResponse (by decide) (by decide) (by rfl) 5 _ (List.mem_cons_self _ _)).imp
      (fun blk hb => ⟨hb.1, hb.2.1⟩)⟩

/-! ## Governance proposals -/

/-- C22 (the code at the failing input): for `pageNo >= 1` the call does not
fail only if the proposals query fails.  When the query returns neither a
response nor an error, line 28 reads `resProposals.Proposals` of the nil
response and panics: page 1 on such a backend ends in a panic although the
query did not fail.  What holds: `GetGovProposals(pageNo)` fails with
`ErrBadPageNo` exactly when `pageNo < 1`, and then no query has been made; for
`pageNo >= 1` the proposals query is sent once, an error is returned exactly
when that query fails, it is Internal and carries the text of the query error,
and a response is returned whenever the query returns one; every response
echoes `pageNo`.  On the sample backend page 0 is refused without a query and
page 2 is answered with `pageNo = 2`. -/
theorem GetGovProposals_pageNo (env : GovEnv) (pageNo : Int) :
    (sampleNilGovEnv.Proposals (proposalsRequest sampleNilGovEnv 1) = .ok none ∧
      GetGovProposals sampleNilGovEnv 1 = ([proposalsRequest sampleNilGovEnv 1], .panic)) ∧
    (1 ≤ pageNo → env.Proposals (proposalsRequest env pageNo) = .ok none →
      (GetGovProposals env pageNo).2 = .panic) ∧
    ((GetGovProposals env pageNo).2 = .err .ErrBadPageNo ↔ pageNo < 1) ∧
    (pageNo < 1 → (GetGovProposals env pageNo).1 = []) ∧
    (1 ≤ pageNo →
      (GetGovProposals env pageNo).1 = [proposalsRequest env pageNo] ∧
      (∀ e, (GetGovProposals env pageNo).2 = .err e ↔
        ∃ text, env.Proposals (proposalsRequest env pageNo) = .error text ∧
          e = .status .Internal text) ∧
      (∀ resProposals, env.Proposals (proposalsRequest env pageNo) = .ok (some resProposals) →
        ∃ res, (GetGovProposals env pageNo).2 = .ok res)) ∧
    (∀ res, (GetGovProposals env pageNo).2 = .ok res →
      res.pageNo = pageNo ∧ res.pageSize = env.defaultPageSize) ∧
    GetGovProposals sampleGovEnv 0 = ([], .err .ErrBadPageNo) ∧
    (∃ res, GetGovProposals sampleGovEnv 2
        = ([⟨0, "", "", ⟨[], 10, 10, false, false⟩⟩], .ok res) ∧ res.pageNo = 2) := by
  refine ⟨⟨rfl, by rfl⟩, ?_, ⟨?_, ?_⟩, ?_, ?_, ?_, by rfl, ⟨_, by rfl, rfl⟩⟩
  · intro hge hq
    have hlt : ¬ pageNo < 1 := by omega
    unfold GetGovProposals
    rw [if_neg hlt, hq]
  · intro h
    by_contra hlt
    unfold GetGovProposals at h
    rw [if_neg hlt] at h
    cases hq : env.Proposals (proposalsRequest env pageNo) with
    | error err => rw [hq] at h; simp at h
    | ok o =>
      cases o with
      | none => rw [hq] at h; simp at h
      | some ps => rw [hq] at h; simp at h
  · intro hlt
    unfold GetGovProposals
    rw [if_pos hlt]
  · intro hlt
    unfold GetGovProposals
    rw [if_pos hlt]
  · intro hge
    have hlt : ¬ pageNo < 1 := by omega
    unfold GetGovProposals
    rw [if_neg hlt]
    cases hq : env.Proposals (proposalsRequest env pageNo) with
    | error err =>
      refine ⟨rfl, ?_, ?_⟩
      · intro e
        constructor
        · intro h
          simp only [Outcome.err.injEq] at h
          exact ⟨err, rfl, h.symm⟩
        · rintro ⟨text, ht, rfl⟩
          simp only [Except.error.injEq] at ht
          subst ht
          rfl
      · intro ps h
        cases h
    | ok o =>
      cases o with
      | none =>
        refine ⟨rfl, ?_, ?_⟩
        · intro e
          constructor
          · intro h
            simp at h
          · rintro ⟨text, ht, _⟩
            cases ht
        · intro ps h
          simp at h
      | some ps =>
        refine ⟨rfl, ?_, ?_⟩
        · intro e
          constructor
          · intro h
            simp at h
          · rintro ⟨text, ht, _⟩
            cases ht
        · intro ps2 _
          exact ⟨_, rfl⟩
  · intro res h
    unfold GetGovProposals at h
    by_cases hlt : pageNo < 1
    · rw [if_pos hlt] at h
      simp at h
    · rw [if_neg hlt] at h
      cases hq : env.Proposals (proposalsRequest env pageNo) with
      | error err => rw [hq] at h; simp at h
      | ok o =>
        cases o with
        | none => rw [hq] at h; simp at h
        | some ps =>
          rw [hq] at h
          simp only [Outcome.ok.injEq] at h
          subst h
          exact ⟨rfl, rfl⟩

/-! ## The involvers of a record -/

theorem messageLoop_involvers_kept (env : Env) (height : Int) (tx : Tx) (tmTx : TmTx) :
    ∀ (msgs : List AnyMsg) (st st' : MessageLoopState),
      messageLoop env height tx tmTx msgs st = some st' →
      (∀ x, x ∈ msgs → extractedInvolvers env tx tmTx x = none) →
      st'.involvers = st.involvers := by
  intro msgs
  induction msgs with
  | nil =>
    intro st st' h _
    simp only [messageLoop, Option.some.injEq] at h
    subst h
    rfl
  | cons msg rest ih =>
    intro st st' h hnone
    have hm := hnone msg (List.mem_cons_self msg rest)
    have hrest : ∀ x, x ∈ rest → extractedInvolvers env tx tmTx x = none :=
      fun x hx => hnone x (List.mem_cons_of_mem msg hx)
    rw [messageLoop] at h
    unfold extractedInvolvers at hm
    cases hu : msg.UnpackAny with
    | error err =>
      rw [hu] at h
      simp only [Option.some.injEq] at h
      subst h
      rfl
    | ok c =>
      rw [hu] at h hm
      dsimp only at h hm
      cases he : messageInvolversExtractorFor env c c tx tmTx with
      | panic => rw [he] at h; simp at h
      | err e =>
        rw [he] at h
        dsimp only at h
        have hkept := ih _ _ h hrest
        exact hkept
      | ok r =>
        rw [he] at hm
        simp at hm

theorem messageLoop_involvers_last (env : Env) (height : Int) (tx : Tx) (tmTx : TmTx)
    (m : AnyMsg) (post : List AnyMsg) (r : MessageInvolversResult)
    (hm : extractedInvolvers env tx tmTx m = some r)
    (hpost : ∀ x, x ∈ post → extractedInvolvers env tx tmTx x = none) :
    ∀ (pre : List AnyMsg) (st st' : MessageLoopState),
      messageLoop env height tx tmTx (pre ++ m :: post) st = some st' →
      pre.any unpackFails = false →
      st'.involvers = some r := by
  intro pre
  induction pre with
  | nil =>
    intro st st' h _
    rw [List.nil_append, messageLoop] at h
    unfold extractedInvolvers at hm
    cases hu : m.UnpackAny with
    | error err => rw [hu] at hm; simp at hm
    | ok c =>
      rw [hu] at h hm
      dsimp only at h hm
      cases he : messageInvolversExtractorFor env c c tx tmTx with
      | panic => rw [he] at h; simp at h
      | err e => rw [he] at hm; simp at hm
      | ok r0 =>
        rw [he] at h hm
        dsimp only at h hm
        simp only [Option.some.injEq] at hm
        rw [messageLoop_involvers_kept env height tx tmTx post _ _ h hpost]
        simp only [Option.some.injEq]
        exact hm
  | cons p rest ih =>
    intro st st' h hpre
    simp only [List.any_cons, Bool.or_eq_false_iff] at hpre
    rw [List.cons_append, messageLoop] at h
    have hp := hpre.1
    unfold unpackFails at hp
    cases hu : p.UnpackAny with
    | error err => rw [hu] at hp; simp at hp
    | ok c =>
      rw [hu] at h
      dsimp only at h
      cases he : messageInvolversExtractorFor env c c tx tmTx with
      | panic => rw [he] at h; simp at h
      | err e =>
        rw [he] at h
        dsimp only at h
        exact ih _ _ h hpre.2
      | ok r0 =>
        rw [he] at h
        dsimp only at h
        exact ih _ _ h hpre.2

theorem messages_unpack_of_record {blk : GetBlockWithTxsResponse} {k : Nat} {tx : Tx}
    {tmTx : TmTx} (hu : hasUnpackFailure blk = false) (h1 : blk.Txs[k]? = some tx)
    (h2 : blk.Block_Data_Txs[k]? = some tmTx) : tx.Body_Messages.any unpackFails = false := by
  have hk : k < blk.Block_Data_Txs.length := by
    by_contra hge
    rw [List.getElem?_eq_none (by omega)] at h2
    cases h2
  have hmem : tx ∈ blk.transactions := by
    unfold GetBlockWithTxsResponse.transactions
    apply @List.getElem?_mem _ _ k
    rw [List.getElem?_take, if_pos hk]
    exact h1
  unfold hasUnpackFailure at hu
  cases hc : tx.Body_Messages.any unpackFails with
  | false => rfl
  | true =>
    have : blk.transactions.any (fun tx => tx.Body_Messages.any unpackFails) = true :=
      List.any_eq_true.2 ⟨tx, hmem, hc⟩
    rw [hu] at this
    cases this

/-- C23: in a response of `GetTransactionsInBlockRange`, the involvers of the
record of a transaction are those of the last message whose extraction
succeeded, not a union over the messages: whenever the messages of the
transaction are `pre`, then `m`, then `post`, the extraction of `m` succeeds
and that of every message of `post` fails, the recorded involvers are the
finalized result of `m` alone, whatever the messages of `pre` yield; and when
no extraction succeeds no involvers are recorded. -/
theorem GetTransactionsInBlockRange_involvers (env : Env) (fuel : Nat) (a b : Int)
    (calls : List Call) (res : BlockRangeResponse) (ha : IsInt64 a) (hb : IsInt64 b)
    (hrun : GetTransactionsInBlockRange env fuel a b = .done calls (.ok res))
    (h : Int) (info : BlockInfo) (hmem : (h, info) ∈ res.blocks) :
    ∃ blk, fetchedBlock env h = some blk ∧ info.txs.length = blk.Block_Data_Txs.length ∧
      ∀ (k : Nat) (rec : TxInfo), info.txs[k]? = some rec →
        ∃ tx tmTx, blk.Txs[k]? = some tx ∧ blk.Block_Data_Txs[k]? = some tmTx ∧
          (∀ (pre : List AnyMsg) (m : AnyMsg) (post : List AnyMsg) (r : MessageInvolversResult),
            tx.Body_Messages = pre ++ m :: post →
            extractedInvolvers env tx tmTx m = some r →
            (∀ x, x ∈ post → extractedInvolvers env tx tmTx x = none) →
            rec.involvers = some r) ∧
          ((∀ x, x ∈ tx.Body_Messages → extractedInvolvers env tx tmTx x = none) →
            rec.involvers = none) := by
  obtain ⟨blk, hF, hu, _, hl, hk⟩ := GetTransactionsInBlockRange_records ha hb hrun hmem
  refine ⟨blk, hF, hl, ?_⟩
  intro k rec hrec
  obtain ⟨tx, tmTx, h1, h2, st, eb, hloop, _, _, hinv, _⟩ := hk k rec hrec
  have hall := messages_unpack_of_record hu h1 h2
  refine ⟨tx, tmTx, h1, h2, ?_, ?_⟩
  · intro pre m post r hsplit hm hpost
    rw [hsplit] at hloop hall
    rw [hinv]
    apply messageLoop_involvers_last env h tx tmTx m post r hm hpost pre _ _ hloop
    simp only [List.any_append, Bool.or_eq_false_iff] at hall
    exact hall.1
  · intro hnone
    rw [hinv, messageLoop_involvers_kept env h tx tmTx _ _ _ hloop hnone]

/-- Witness of C23: a transaction with two transfers and then a message whose
extraction fails; the record holds the involvers of the second transfer only. -/
theorem GetTransactionsInBlockRange_involvers_witness :
    (IsInt64 5 ∧ IsInt64 5 ∧
      GetTransactionsInBlockRange sampleTwoSendEnv 1 5 5
        = .done [Call.Status, Call.GetBlockWithTxs 5] (.ok sampleTwoSendResponse) ∧
      ((5 : Int), (⟨1700000005, [⟨"ABCD", "cosmos",
          some [("involvers", "rax1carol"), ("involvers", "rax1dave")],
          ["/cosmos.bank.v1beta1.MsgSend", "/cosmos.bank.v1beta1.MsgSend",
            "/custom.v1.MsgCustom"]⟩]⟩ : BlockInfo)) ∈ sampleTwoSendResponse.blocks) ∧
    (extractedInvolvers sampleTwoSendEnv ⟨[], ""⟩ ⟨[10, 1], [171, 205]⟩ sampleSendAny
        = some [("involvers", "rax1alice"), ("involvers", "rax1bob")] ∧
      extractedInvolvers sampleTwoSendEnv ⟨[], ""⟩ ⟨[10, 1], [171, 205]⟩ sampleSecondSendAny
        = some [("involvers", "rax1carol"), ("involvers", "rax1dave")] ∧
      extractedInvolvers sampleTwoSendEnv ⟨[], ""⟩ ⟨[10, 1], [171, 205]⟩ sampleUnknownAny
        = none) ∧
    ∃ blk, fetchedBlock sampleTwoSendEnv 5 = some blk ∧ 1 = blk.Block_Data_Txs.length :=
  ⟨⟨by decide, by decide, by rfl, List.mem_cons_self _ _⟩, ⟨by rfl, by rfl, by rfl⟩,
    (GetTransactionsInBlockRange_involvers sampleTwoSendEnv 1 5 5
      [Call.Status, Call.GetBlockWithTxs 5] sampleTwoSendResponse (by decide) (by decide)
      (by rfl) 5 _ (List.mem_cons_self _ _)).imp (fun blk hb => ⟨hb.1, hb.2.1⟩)⟩

/-! ## The type field of a nested entry -/

theorem authorizedMessageContent_type (env : Env) (outerType : String) (tx : Tx)
    (txResponse : TxResponse) (a : AnyMsg) (e : JVal)
    (h : authorizedMessageContent env outerType tx txResponse a = some e) :
    e.field "type" = some (.str outerType) := by
  cases a with
  | mk url unpacked =>
    cases unpacked with
    | error err =>
      simp only [authorizedMessageContent, Option.some.injEq] at h
      subst h
      rfl
    | ok cosmosMsg =>
      rw [authorizedMessageContent] at h
      cases hp : defaultMessageParser env cosmosMsg 0 tx txResponse with
      | panic => rw [hp] at h; simp at h
      | err err =>
        rw [hp] at h
        simp only [Option.some.injEq] at h
        subst h
        rfl
      | ok parsed =>
        rw [hp] at h
        simp only [Option.some.injEq] at h
        subst h
        rfl

theorem authorizedMessagesContent_type (env : Env) (outerType : String) (tx : Tx)
    (txResponse : TxResponse) :
    ∀ (msgs : List AnyMsg) (content : List JVal),
      authorizedMessagesContent env outerType tx txResponse msgs = some content →
      content.length = msgs.length ∧
      ∀ e, e ∈ content → e.field "type" = some (.str outerType) := by
  intro msgs
  induction msgs with
  | nil =>
    intro content h
    simp only [authorizedMessagesContent, Option.some.injEq] at h
    subst h
    exact ⟨rfl, by simp⟩
  | cons a rest ih =>
    intro content h
    rw [authorizedMessagesContent] at h
    cases ha : authorizedMessageContent env outerType tx txResponse a with
    | none => rw [ha] at h; simp at h
    | some innerRes =>
      rw [ha] at h
      dsimp only at h
      cases hr : authorizedMessagesContent env outerType tx txResponse rest with
      | none => rw [hr] at h; simp at h
      | some more =>
        rw [hr] at h
        simp only [Option.some.injEq] at h
        subst h
        obtain ⟨hlen, hty⟩ := ih more hr
        refine ⟨by simp [hlen], ?_⟩
        intro e he
        rcases List.mem_cons.1 he with rfl | he
        · exact authorizedMessageContent_type env outerType tx txResponse a _ ha
        · exact hty e he

/-- C24: the `type` field of a nested entry of an authorization execution is
not the proto type name of the embedded message.  For an execution that embeds
one bank transfer the nested entry has type `cosmos.authz.v1beta1.MsgExec`,
while the embedded message is named `cosmos.bank.v1beta1.MsgSend`.  In general,
whenever the default parser returns content for an execution with embedded
messages, the content holds one nested entry per embedded message and the
`type` field of every one of them is the proto type name of the enclosing
execution message. -/
theorem defaultMessageParser_exec_nested_type :
    (∃ res entry, defaultMessageParser sampleEnv (.authz_MsgExec "rax1grantee" [sampleSendAny]) 0
          sampleTx sampleTxResponse = .ok res ∧
        res.entries = [("grantee", .str "rax1grantee"), ("authorized-messages", .arr [entry])] ∧
        entry.field "type" = some (.str "cosmos.authz.v1beta1.MsgExec") ∧
        sampleSendAny.UnpackAny = .ok (.bank_MsgSend "rax1alice" "rax1bob" [⟨"urax", 5⟩]) ∧
        sampleEnv.ProtoMessageName (.bank_MsgSend "rax1alice" "rax1bob" [⟨"urax", 5⟩])
          = "cosmos.bank.v1beta1.MsgSend" ∧
        entry.field "type" ≠ some (.str "cosmos.bank.v1beta1.MsgSend")) ∧
    (∀ (env : Env) (Grantee : String) (Msgs : List AnyMsg) (msgIdx : Nat) (tx : Tx)
        (txResponse : TxResponse) (res : MessageContent),
      defaultMessageParser env (.authz_MsgExec Grantee Msgs) msgIdx tx txResponse = .ok res →
      0 < Msgs.length →
      ∃ content, res.entries
          = [("grantee", .str Grantee), ("authorized-messages", .arr content)] ∧
        content.length = Msgs.length ∧
        ∀ e, e ∈ content →
          e.field "type" = some (.str (env.ProtoMessageName (.authz_MsgExec Grantee Msgs)))) := by
  constructor
  · refine ⟨_, _, by rfl, by rfl, by rfl, rfl, rfl, ?_⟩
    intro h
    have h2 : (some (JVal.str "cosmos.authz.v1beta1.MsgExec") : Option JVal)
        = some (.str "cosmos.bank.v1beta1.MsgSend") := h
    simp at h2
  · intro env Grantee Msgs msgIdx tx txResponse res h hpos
    rw [defaultMessageParser] at h
    try dsimp only at h
    rw [if_pos hpos] at h
    cases hc : authorizedMessagesContent env (env.ProtoMessageName (.authz_MsgExec Grantee Msgs))
        tx txResponse Msgs with
    | none => rw [hc] at h; simp at h
    | some content =>
      rw [hc] at h
      simp only [Outcome.ok.injEq] at h
      subst h
      obtain ⟨hlen, hty⟩ := authorizedMessagesContent_type env _ tx txResponse Msgs content hc
      exact ⟨content, rfl, hlen, hty⟩

/-! ## The kinds known to the parser and to the extractor -/

theorem defaultMessageParser_notSupported_iff (env : Env) (msgIdx : Nat) (tx : Tx)
    (txResponse : TxResponse) (msg : Msg) :
    defaultMessageParser env msg msgIdx tx txResponse = .err .ErrNotSupportedMessageType ↔
      msg.listed = false := by
  cases msg <;> simp [defaultMessageParser, Msg.listed, buildPacketResponse] <;>
    (repeat' split) <;> simp

theorem defaultMessageInvolversExtractor_listed (env : Env) (tx : Tx) (tmTx : TmTx) (msg : Msg)
    (hl : msg.listed = true) (e : GoError) :
    defaultMessageInvolversExtractor env msg tx tmTx ≠ .err e := by
  cases msg <;> simp [Msg.listed] at hl <;> rw [defaultMessageInvolversExtractor] <;>
    (repeat' split) <;> simp

theorem defaultMessageInvolversExtractor_other (env : Env) (tx : Tx) (tmTx : TmTx)
    (goType : String) :
    defaultMessageInvolversExtractor env (.other goType) tx tmTx
      = involversFallback env (env.ProtoMessageName (.other goType)) tmTx := by
  rw [defaultMessageInvolversExtractor]
  rfl

theorem takesFallback_iff (msg : Msg) : takesFallback msg ↔ msg.listed = false := by
  constructor
  · intro h
    cases hl : msg.listed with
    | false => rfl
    | true =>
      exfalso
      have hs := h sampleEnv sampleTx sampleTmTx
      have herr : involversFallback sampleEnv (sampleEnv.ProtoMessageName msg) sampleTmTx
          = .err (.status .Internal
            ("failed to get tx result for tx " ++ hexEncodeToString sampleTmTx.Hash ++
              " when processing msg " ++ sampleEnv.ProtoMessageName msg ++ ": " ++
              "tx result unavailable")) := rfl
      rw [herr] at hs
      exact defaultMessageInvolversExtractor_listed sampleEnv sampleTx sampleTmTx msg hl _ hs
  · intro hl env tx tmTx
    cases msg <;> simp [Msg.listed] at hl
    exact defaultMessageInvolversExtractor_other env tx tmTx _

/-- C25: the default parser and the default involvers extractor know the same
message kinds.  For every message, the parser returns
`ErrNotSupportedMessageType` if and only if the extractor takes its fallback
branch, the one that queries the transaction result for the message itself and
scans its events; both hold exactly for a message of none of the kinds listed
in the type switch.  For a message of a listed kind the extractor returns no
error, whereas the fallback branch returns one whenever the query fails. -/
theorem parser_extractor_agree (env : Env) (msg : Msg) (msgIdx : Nat) (tx : Tx)
    (txResponse : TxResponse) :
    (defaultMessageParser env msg msgIdx tx txResponse = .err .ErrNotSupportedMessageType ↔
      takesFallback msg) ∧
    (takesFallback msg ↔ msg.listed = false) ∧
    (msg.listed = true →
      ∀ (env2 : Env) (tx2 : Tx) (tmTx : TmTx) (e : GoError),
        defaultMessageInvolversExtractor env2 msg tx2 tmTx ≠ .err e) ∧
    (msg.listed = false →
      ∀ (env2 : Env) (tx2 : Tx) (tmTx : TmTx) (text : String),
        env2.ClientTx tmTx.Hash = .error text →
        ∃ e, defaultMessageInvolversExtractor env2 msg tx2 tmTx = .err e) := by
  refine ⟨?_, takesFallback_iff msg, ?_, ?_⟩
  · rw [defaultMessageParser_notSupported_iff, takesFallback_iff]
  · intro hl env2 tx2 tmTx e
    exact defaultMessageInvolversExtractor_listed env2 tx2 tmTx msg hl e
  · intro hl env2 tx2 tmTx text hq
    rw [(takesFallback_iff msg).2 hl env2 tx2 tmTx]
    unfold involversFallback
    rw [hq]
    exact ⟨_, rfl⟩

/-! ## Single send and multi-send -/

/-- C26 (the code at the failing input): the structured transfer content of a
single send and of the corresponding multi-send are not equal for every coin
list.  The multi-send case sums the output coins with `allCoins.Add`
(line 289), which panics on a list that is not sorted by denomination, while
the single-send case makes no such call: for the coins `5urax, 1aaa` the
single send returns its content and the multi-send with the same sender,
receiver and coins panics.  In general the single send always returns content
with `from` the sender alone and `to` the one entry of the receiver and the
coins; the multi-send panics exactly when the sum panics, and whenever it
returns content, its structured content equals that of the single send. -/
theorem defaultMessageParser_send_multiSend (env : Env) (msgIdx : Nat) (tx : Tx)
    (txResponse : TxResponse) (sender receiver : String) (coins inputCoins : List Coin) :
    ((∃ single, defaultMessageParser sampleEnv
          (.bank_MsgSend "rax1alice" "rax1bob" [⟨"urax", 5⟩, ⟨"aaa", 1⟩]) 0 sampleTx
          sampleTxResponse = .ok single) ∧
      defaultMessageParser sampleEnv
        (.bank_MsgMultiSend [⟨"rax1alice", [⟨"urax", 5⟩, ⟨"aaa", 1⟩]⟩]
          [⟨"rax1bob", [⟨"urax", 5⟩, ⟨"aaa", 1⟩]⟩]) 0 sampleTx sampleTxResponse = .panic) ∧
    (∃ single : MessageContent,
      defaultMessageParser env (.bank_MsgSend sender receiver coins) msgIdx tx txResponse
        = .ok single ∧
      single.entries = [("transfer", .obj
        [("from", .strs [sender]),
         ("to", .arr [.obj [("address", .str receiver), ("amount", .coinsToMap coins)]])])] ∧
      (∀ multi : MessageContent,
        defaultMessageParser env
            (.bank_MsgMultiSend [⟨sender, inputCoins⟩] [⟨receiver, coins⟩]) msgIdx tx txResponse
          = .ok multi →
        multi.entries = single.entries)) ∧
    (defaultMessageParser env
        (.bank_MsgMultiSend [⟨sender, inputCoins⟩] [⟨receiver, coins⟩]) msgIdx tx txResponse
      = .panic ↔ env.CoinsAdd [] coins = none) := by
  have hsum : multiSendAllCoins env [⟨receiver, coins⟩] [] = env.CoinsAdd [] coins := by
    rw [multiSendAllCoins]
    cases env.CoinsAdd [] coins <;> rfl
  refine ⟨⟨⟨_, by rfl⟩, by rfl⟩, ⟨_, by rw [defaultMessageParser], rfl, ?_⟩, ?_⟩
  · intro multi hm
    cases hadd : env.CoinsAdd [] coins with
    | none =>
      rw [defaultMessageParser_multiSend_none env msgIdx tx txResponse _ _
        (hsum.trans hadd)] at hm
      cases hm
    | some allCoins =>
      rw [defaultMessageParser_multiSend_some env msgIdx tx txResponse _ _ allCoins
        (hsum.trans hadd)] at hm
      simp only [Outcome.ok.injEq] at hm
      subst hm
      rfl
  · constructor
    · intro hp
      cases hadd : env.CoinsAdd [] coins with
      | none => rfl
      | some allCoins =>
        rw [defaultMessageParser_multiSend_some env msgIdx tx txResponse _ _ allCoins
          (hsum.trans hadd)] at hp
        cases hp
    · intro hadd
      exact defaultMessageParser_multiSend_none env msgIdx tx txResponse _ _ (hsum.trans hadd)

end BeRpc
